import Mathlib

/-!
# Dice4 firmware: animation controller and APA102 strip driver

A shallow embedding of `Firmware/src/drivers_hw/apa102.cpp` and
`Firmware/src/modules/anim_controller.cpp`, followed by theorems about the
running-animation pool, the per-tick update and the strip output.

Conventions of the embedding

* C arrays are total functions from an index to a cell (`Nat → α`); an index
  past the declared size stands for the memory behind the array, which the
  C code only reaches when it is outside its own bounds.
* `uint8_t`, `uint16_t` and `uint32_t` values are natural numbers; a
  conversion that truncates is written `% 256`, `% 65536`, `% 2 ^ 32`.
* `int` values are integers.  Times (`ms`, `startTime`) are not wrapped:
  signed overflow is undefined in C.
* `float` is an arbitrary type `F` whose arithmetic is supplied by the
  environment, so nothing is assumed about rounding.
* Calls that leave the two translation units (GPIO, the animation set, the
  board description, the clock) are fields of an environment record or
  explicit arguments; GPIO calls are also recorded in a chronological log.
-/

/-! ## Configuration constants -/

/-- The `MAX_LED_COUNT` macro of `config/board_config.h`. -/
def MAX_LED_COUNT : Nat := 21

/-- The `MAX_ANIMS` macro of `anim_controller.cpp`. -/
def MAX_ANIMS : Nat := 20

namespace APA102

/-! ## LED strip driver (`drivers_hw/apa102.cpp`) -/

/-- The `DOTSTAR_BRG` macro. -/
def DOTSTAR_BRG : Nat := 1 ||| (2 <<< 2) ||| (0 <<< 4)

/-- The `OFFSET_RED` macro. -/
def OFFSET_RED : Nat := DOTSTAR_BRG &&& 3

/-- The `OFFSET_GREEN` macro. -/
def OFFSET_GREEN : Nat := (DOTSTAR_BRG >>> 2) &&& 3

/-- The `OFFSET_BLUE` macro. -/
def OFFSET_BLUE : Nat := (DOTSTAR_BRG >>> 4) &&& 3

/-- One call into the GPIO / delay layer, as recorded in the wire log. -/
inductive GpioOp where
  | pinSet (pin : Nat)
  | pinClear (pin : Nat)
  | delayUs (us : Nat)
  deriving DecidableEq, Repr

/-- The file-static state of the driver together with the output level of
every GPIO pin and the log of GPIO calls made so far (oldest first). -/
structure Strip where
  /-- The array `pixels[MAX_LED_COUNT * 3]`. -/
  pixels : Nat → Nat
  /-- The cached LED count, a `uint8_t`. -/
  numLEDs : Nat
  dataPin : Nat
  clockPin : Nat
  powerPin : Nat
  /-- Output level of each GPIO pin. -/
  level : Nat → Bool
  /-- Ghost field: every GPIO and delay call, in the order made. -/
  wire : List GpioOp

/-- The call `nrf_gpio_pin_set(pin)`. -/
def nrf_gpio_pin_set (pin : Nat) (st : Strip) : Strip :=
  { st with level := Function.update st.level pin true,
            wire := st.wire ++ [GpioOp.pinSet pin] }

/-- The call `nrf_gpio_pin_clear(pin)`. -/
def nrf_gpio_pin_clear (pin : Nat) (st : Strip) : Strip :=
  { st with level := Function.update st.level pin false,
            wire := st.wire ++ [GpioOp.pinClear pin] }

/-- The call `nrf_delay_us(us)`. -/
def nrf_delay_us (us : Nat) (st : Strip) : Strip :=
  { st with wire := st.wire ++ [GpioOp.delayUs us] }

/-- The function `memset(pixels, 0, len)`. -/
def memsetZero (len : Nat) (pixels : Nat → Nat) : Nat → Nat :=
  fun i => if i < len then 0 else pixels i

/-- The function `clear`. -/
def clear (st : Strip) : Strip :=
  { st with pixels := memsetZero (st.numLEDs * 3) st.pixels }

/-- The loop of `swSpiOut`: `i` is the number of iterations still to run and
`n` the `uint8_t` being shifted out. -/
def swSpiOutLoop : Nat → Nat → Strip → Strip
  | 0, _, st => st
  | i + 1, n, st =>
    let st := if n &&& 0x80 ≠ 0 then nrf_gpio_pin_set st.dataPin st
              else nrf_gpio_pin_clear st.dataPin st
    let st := nrf_gpio_pin_set st.clockPin st
    let st := nrf_delay_us 1 st
    let st := nrf_gpio_pin_clear st.clockPin st
    let st := nrf_delay_us 1 st
    swSpiOutLoop i ((n <<< 1) % 256) st

/-- The function `swSpiOut`: `for (uint8_t i = 8; i--; n <<= 1)` runs its
body eight times. -/
def swSpiOut (n : Nat) (st : Strip) : Strip :=
  swSpiOutLoop 8 n st

/-- The inner `for (int i = 0; i < 3; i++)` of `show`: `k` iterations still
to run, `ptr` the offset of `ptr` from `pixels`. -/
def showComponents : Nat → Nat → Bool → Strip → Nat × Bool × Strip
  | 0, ptr, allOff, st => (ptr, allOff, st)
  | k + 1, ptr, allOff, st =>
    let comp := st.pixels ptr
    let st := swSpiOut comp st
    let allOff := if comp ≠ 0 then false else allOff
    showComponents k (ptr + 1) allOff st

/-- The `do { ... } while (--n)` of `show`, with `count` bodies still to
run. -/
def showPixels : Nat → Nat → Bool → Strip → Bool × Strip
  | 0, _, allOff, st => (allOff, st)
  | count + 1, ptr, allOff, st =>
    let st := swSpiOut 0xFF st
    let r := showComponents 3 ptr allOff st
    showPixels count r.1 r.2.1 r.2.2

/-- Number of bodies the `do { ... } while (--n)` loop runs when the
`uint16_t` counter starts at `n`: a counter starting at zero wraps to 65535
and the loop only stops after 65536 bodies. -/
def doWhileCount (n : Nat) : Nat :=
  if n = 0 then 65536 else n

/-- A run of `count` calls `swSpiOut(b)`. -/
def swSpiOutRepeat (b : Nat) : Nat → Strip → Strip
  | 0, st => st
  | count + 1, st => swSpiOutRepeat b count (swSpiOut b st)

/-- The function `show` (its guard `if (!pixels) return;` never fires, `pixels`
being a static array). -/
def show_ (st : Strip) : Strip :=
  let st := nrf_gpio_pin_set st.powerPin st
  let st := swSpiOutRepeat 0 4 st
  let r := showPixels (doWhileCount st.numLEDs) 0 true st
  let allOff := r.1
  let st := r.2
  let st := swSpiOutRepeat 0xFF ((st.numLEDs + 15) / 16) st
  let st := nrf_gpio_pin_clear st.dataPin st
  let st := nrf_gpio_pin_clear st.clockPin st
  if allOff then nrf_gpio_pin_clear st.powerPin st else st

/-- The part of `show` before the pixel loop: power on, then the four
start-frame bytes. -/
def showHead (st : Strip) : Strip :=
  swSpiOutRepeat 0 4 (nrf_gpio_pin_set st.powerPin st)

/-- The part of `show` between the pixel loop and the final `if (allOff)`:
the end-frame bytes, then data and clock dropped low. -/
def showLatch (st : Strip) : Strip :=
  let st := swSpiOutRepeat 0xFF ((st.numLEDs + 15) / 16) st
  let st := nrf_gpio_pin_clear st.dataPin st
  nrf_gpio_pin_clear st.clockPin st

/-- Two driver states with the same pixel buffer, LED count and pin
assignment. -/
def SameConfig (st st' : Strip) : Prop :=
  st'.pixels = st.pixels ∧ st'.numLEDs = st.numLEDs ∧ st'.dataPin = st.dataPin ∧
    st'.clockPin = st.clockPin ∧ st'.powerPin = st.powerPin

/-- The overload `setPixelColor(uint16_t n, uint8_t r, uint8_t g, uint8_t b)`. -/
def setPixelColorRGB (n r g b : Nat) (st : Strip) : Strip :=
  if n < st.numLEDs then
    let p := n * 3
    let px := Function.update st.pixels (p + OFFSET_RED) r
    let px := Function.update px (p + OFFSET_GREEN) g
    let px := Function.update px (p + OFFSET_BLUE) b
    { st with pixels := px }
  else st

/-- The overload `setPixelColor(uint16_t n, uint32_t c)`. -/
def setPixelColor (n c : Nat) (st : Strip) : Strip :=
  if n < st.numLEDs then
    let p := n * 3
    let px := Function.update st.pixels (p + OFFSET_RED) ((c >>> 16) % 256)
    let px := Function.update px (p + OFFSET_GREEN) ((c >>> 8) % 256)
    let px := Function.update px (p + OFFSET_BLUE) (c % 256)
    { st with pixels := px }
  else st

/-- The function `color`. -/
def color (r g b : Nat) : Nat :=
  (r <<< 16) ||| (g <<< 8) ||| b

/-- The function `getPixelColor`. -/
def getPixelColor (n : Nat) (st : Strip) : Nat :=
  if n ≥ st.numLEDs then 0
  else
    let p := n * 3
    (st.pixels (p + OFFSET_RED) <<< 16) |||
      (st.pixels (p + OFFSET_GREEN) <<< 8) |||
      st.pixels (p + OFFSET_BLUE)

/-- Modelled from the spec: `APA102::setPixelColors(uint32_t* colors)` is
called by `update` but not defined in `apa102.cpp` as given; the spec has the
scheduler "submit the accumulator to the Strip Driver's pixel buffer", so
every LED `i` below `numLEDs` receives `colors[i]` through `setPixelColor`.
Here `k` LEDs are still to be written, starting at `i`. -/
def setPixelColorsFrom (colors : Nat → Nat) : Nat → Nat → Strip → Strip
  | 0, _, st => st
  | k + 1, i, st => setPixelColorsFrom colors k (i + 1) (setPixelColor i (colors i) st)

/-- Modelled from the spec: `APA102::setPixelColors(uint32_t* colors)`, see
`setPixelColorsFrom`. -/
def setPixelColors (colors : Nat → Nat) (st : Strip) : Strip :=
  setPixelColorsFrom colors st.numLEDs 0 st

/-- Modelled from the spec: `APA102::setPixelColors(int* indices, uint32_t*
colors, int count)` is called by `stopAtIndex` but not defined in
`apa102.cpp` as given; the spec has `stop` "clear the LEDs it was driving",
so each listed LED receives its colour through `setPixelColor`, the `int`
index converting to the `uint16_t` parameter. -/
def setPixelColorsAt : List (Int × Nat) → Strip → Strip
  | [], st => st
  | (idx, c) :: rest, st =>
    setPixelColorsAt rest (setPixelColor (idx % 65536).toNat c st)

end APA102

namespace AnimController

/-! ## Animation controller (`modules/anim_controller.cpp`) -/

/-- A value of type `Animation const *`: an address, `0` being `nullptr`.
Two instances run the same animation when their pointers are equal. -/
abbrev AnimPtr := Nat

/-- The null pointer. -/
def nullptr : AnimPtr := 0

/-- The `SpecialColor` tags the controller distinguishes; any other value of
`specialColorType` behaves like `None` (the `default:` branches). -/
inductive SpecialColor where
  | None
  | Face
  | ColorWheel
  | Heat_Current
  | Heat_Start
  deriving DecidableEq, Repr

/-- The fields of `Animations::Animation` the controller reads.  The struct is
declared in `animations/animation.h`; `duration` is a length in ms. -/
structure Animation where
  duration : Nat
  animationEvent : Nat
  specialColorType : SpecialColor
  deriving DecidableEq, Repr

/-- The struct `AnimInstance`. -/
structure AnimInstance where
  animation : AnimPtr
  specialColorPayload : Nat
  startTime : Int
  remapFace : Nat
  loop : Bool
  deriving DecidableEq, Repr

/-- The fields of `Config::BoardManager::Board` the controller reads, and the
`remapLed` member it calls. -/
structure Board where
  ledCount : Int
  faceToLedLookup : Nat → Nat
  remapLed : Nat → Int → Nat

/-- Everything the controller obtains from other translation units.  `F` is
the type of `float` values. -/
structure Env (F : Type) where
  board : Board
  /-- The field `coolDownRate` of the settings. -/
  coolDownRate : F
  /-- The field `heatUpRate` of the settings. -/
  heatUpRate : F
  /-- Float multiplication. -/
  fmul : F → F → F
  /-- Float addition. -/
  fadd : F → F → F
  /-- The function `sqrt`. -/
  fsqrt : F → F
  /-- The comparison `a < b` on floats. -/
  flt : F → F → Bool
  /-- The literal `0.0f`. -/
  fzero : F
  /-- The literal `1.0f`. -/
  fone : F
  /-- Conversion of an unsigned integer to float. -/
  fofNat : Nat → F
  /-- The conversion `int(x)`. -/
  ftoInt : F → Int
  /-- Dereferencing an animation pointer. -/
  animAt : AnimPtr → Animation
  /-- The function `AnimationSet::getAnimationCount`. -/
  getAnimationCount : Nat
  /-- The address of `AnimationSet::getAnimation(i)`. -/
  getAnimation : Nat → AnimPtr
  /-- The member `Animation::updateLEDs`: given the animation, the colour
  handler bound to the instance token, and the time, the
  `(canonical index, colour)` pairs written to the two output arrays. -/
  updateLEDs : AnimPtr → (Nat → Nat) → Int → List (Int × Nat)
  /-- The member `Animation::stop`: the canonical indices it writes. -/
  animStop : AnimPtr → List Int
  /-- The function `AnimationSet::getPaletteColor`. -/
  getPaletteColor : Nat → Nat
  /-- The duration of `AnimationSet::getHeatTrack()`. -/
  heatTrackDuration : Nat
  /-- Evaluation of the heat track, `trk.evaluate(nullptr, t)`. -/
  heatTrackEvaluate : Int → Nat
  /-- The function `Rainbow::faceWheel`. -/
  faceWheel : Nat → Int → Nat
  /-- The function `Rainbow::wheel`. -/
  wheel : Nat → Nat
  /-- The function `Utils::gamma`. -/
  gamma : Nat → Nat
  /-- The function `Utils::addColors`. -/
  addColors : Nat → Nat → Nat
  /-- The enumerator `AnimationEvent_None`. -/
  AnimationEvent_None : Nat
  /-- The enumerator `AnimationEvent_Count`. -/
  AnimationEvent_Count : Nat

/-- The globals of the module together with the state of the strip driver. -/
structure State (F : Type) where
  /-- The array `animations[MAX_ANIMS]`. -/
  animations : Nat → AnimInstance
  animationCount : Int
  /-- The array `animationLookupByEvent[AnimationEvent_Count]`. -/
  animationLookupByEvent : Nat → Int
  currentRainbowIndex : Int
  heat : F
  strip : APA102.Strip

/-- The constant `rainbowScale`. -/
def rainbowScale : Int := 1

/-- Reduction of an integer to the range of a 32-bit `int`. -/
def wrapInt32 (x : Int) : Int :=
  (x + 2 ^ 31) % 2 ^ 32 - 2 ^ 31

variable {F : Type}

/-- The first loop of `init`: every entry below `AnimationEvent_Count`
becomes `-1`. -/
def initLookupClear (env : Env F) (lookup : Nat → Int) : Nat → Int :=
  fun i => if i < env.AnimationEvent_Count then -1 else lookup i

/-- The second loop of `init`, over the animations `i, i + 1, ...` with `k`
of them still to visit. -/
def initLookupFill (env : Env F) : Nat → Nat → (Nat → Int) → (Nat → Int)
  | 0, _, lookup => lookup
  | k + 1, i, lookup =>
    let anim := env.animAt (env.getAnimation i)
    let lookup :=
      if anim.animationEvent > env.AnimationEvent_None ∧
          anim.animationEvent < env.AnimationEvent_Count then
        Function.update lookup anim.animationEvent (i : Int)
      else lookup
    initLookupFill env k (i + 1) lookup

/-- The function `init` (timer and callback registration have no effect on
the modelled state). -/
def init (env : Env F) (s : State F) : State F :=
  { s with
    animationCount := 0
    animationLookupByEvent :=
      initLookupFill env env.getAnimationCount 0
        (initLookupClear env s.animationLookupByEvent)
    heat := env.fzero
    currentRainbowIndex := 0 }

/-- The function `getColorForAnim`, reading the globals `currentRainbowIndex`
and `heat`; the token is the instance it points to, or `none` for
`nullptr`. -/
def getColorForAnim (env : Env F) (currentRainbowIndex : Int) (heat : F)
    (token : Option AnimInstance) (colorIndex : Nat) : Nat :=
  match token with
  | some inst =>
    match (env.animAt inst.animation).specialColorType with
    | SpecialColor.Face => inst.specialColorPayload
    | SpecialColor.Heat_Start => inst.specialColorPayload
    | SpecialColor.ColorWheel =>
      let index := Int.tdiv currentRainbowIndex rainbowScale
      let index := if index < 0 then index + 256 else index
      env.wheel (index % 256).toNat
    | SpecialColor.Heat_Current =>
      let heatMs := env.ftoInt (env.fmul heat (env.fofNat env.heatTrackDuration))
      env.heatTrackEvaluate heatMs
    | _ => env.getPaletteColor colorIndex
  | none => env.getPaletteColor colorIndex

/-- The search loop shared by `play` and `stop`:
`for (; prevAnimIndex < animationCount; ++prevAnimIndex) if (p) break;`
with `k = animationCount - prevAnimIndex` slots still to visit.  The result is
the value of `prevAnimIndex` after the loop. -/
def findFrom (p : AnimInstance → Bool) (animations : Nat → AnimInstance) :
    Nat → Nat → Nat
  | 0, prevAnimIndex => prevAnimIndex
  | k + 1, prevAnimIndex =>
    if p (animations prevAnimIndex) then prevAnimIndex
    else findFrom p animations k (prevAnimIndex + 1)

/-- The shifting loop `for (; j < animationCount - 1; ++j)
animations[j] = animations[j + 1];` with `k = animationCount - 1 - j`
assignments still to make. -/
def shiftDown : Nat → Nat → (Nat → AnimInstance) → (Nat → AnimInstance)
  | 0, _, animations => animations
  | k + 1, j, animations =>
    shiftDown k (j + 1) (Function.update animations j (animations (j + 1)))

/-- The function `stopAtIndex`. -/
def stopAtIndex (env : Env F) (animIndex : Nat) (s : State F) : State F :=
  let anim := s.animations animIndex
  let canonIndices := env.animStop anim.animation
  let faceIndices := canonIndices.map (fun c => env.board.remapLed anim.remapFace c)
  let ledIndices : List Int := faceIndices.map (fun f => (env.board.faceToLedLookup f : Int))
  let strip := APA102.setPixelColorsAt (ledIndices.map (fun i => (i, 0))) s.strip
  { s with strip := APA102.show_ strip }

/-- The function `removeAtIndex`. -/
def removeAtIndex (env : Env F) (animIndex : Nat) (s : State F) : State F :=
  let s := stopAtIndex env animIndex s
  { s with
    animations := shiftDown (s.animationCount - 1 - animIndex).toNat animIndex s.animations
    animationCount := s.animationCount - 1 }

/-- The `switch (anim->specialColorType)` of `play`: the payload stored in
the new instance. -/
def newPayload (env : Env F) (heat : F) (anim : AnimPtr) (remapFace : Nat) : Nat :=
  match (env.animAt anim).specialColorType with
  | SpecialColor.Face => env.faceWheel remapFace env.board.ledCount
  | SpecialColor.ColorWheel => remapFace
  | SpecialColor.Heat_Start =>
    let heatMs := env.ftoInt (env.fmul heat (env.fofNat env.heatTrackDuration))
    env.heatTrackEvaluate heatMs
  | _ => 0

/-- The function `play(const Animation* anim, uint8_t remapFace, bool loop)`;
`ms` is the value `Utils::millis()` returns.  The new instance goes to slot
`animationCount`, written `animationCount.toNat` (a negative count would index
before the array in C). -/
def play (env : Env F) (anim : AnimPtr) (remapFace : Nat) (loop : Bool) (ms : Int)
    (s : State F) : State F :=
  let prevAnimIndex :=
    findFrom (fun prevAnim => prevAnim.animation == anim && prevAnim.remapFace == remapFace)
      s.animations s.animationCount.toNat 0
  if (prevAnimIndex : Int) < s.animationCount then
    let s := stopAtIndex env prevAnimIndex s
    { s with
      animations := Function.update s.animations prevAnimIndex
        { s.animations prevAnimIndex with startTime := ms } }
  else if s.animationCount < MAX_ANIMS then
    { s with
      animations := Function.update s.animations s.animationCount.toNat
        { animation := anim
          startTime := ms
          remapFace := remapFace
          loop := loop
          specialColorPayload := newPayload env s.heat anim remapFace }
      animationCount := s.animationCount + 1 }
  else s

/-- The function `play(AnimationEvent evt, uint8_t remapFace, bool loop)`. -/
def playEvent (env : Env F) (evt : Nat) (remapFace : Nat) (loop : Bool) (ms : Int)
    (s : State F) : State F :=
  let evtIndex := evt % 65536
  let animIndex := s.animationLookupByEvent evtIndex
  let animIndex := if animIndex = -1 then 0 else animIndex
  if animIndex < env.getAnimationCount then
    play env (env.getAnimation animIndex.toNat) remapFace loop ms s
  else s

/-- The function `stop(const Animation* anim, uint8_t remapFace)`. -/
def stop (env : Env F) (anim : AnimPtr) (remapFace : Nat) (s : State F) : State F :=
  let prevAnimIndex :=
    findFrom (fun inst =>
        inst.animation == anim && (remapFace == 255 || inst.remapFace == remapFace))
      s.animations s.animationCount.toNat 0
  if (prevAnimIndex : Int) < s.animationCount then
    removeAtIndex env prevAnimIndex s
  else s

/-- The function `stopAll`. -/
def stopAll (s : State F) : State F :=
  { s with
    animations := fun i =>
      if (i : Int) < s.animationCount then
        { s.animations i with animation := nullptr, startTime := 0 }
      else s.animations i
    animationCount := 0
    strip := APA102.show_ (APA102.clear s.strip) }

/-- The function `onAccelFrame`; `sqrMag` is `accelFrame.jerk.sqrMagnitude()`. -/
def onAccelFrame (env : Env F) (sqrMag : F) (s : State F) : State F :=
  if env.flt env.fzero sqrMag then
    let heat := env.fadd s.heat (env.fmul (env.fsqrt sqrMag) env.heatUpRate)
    let heat := if env.flt env.fone heat then env.fone else heat
    { s with
      currentRainbowIndex := wrapInt32 (s.currentRainbowIndex + 1)
      heat := heat }
  else s

/-- One call `anim.animation->updateLEDs(&anim, animTime, ...)` made by
`update`: the instance the token points to and the time passed. -/
structure TrackEval where
  inst : AnimInstance
  animTime : Int
  deriving DecidableEq, Repr

/-- What the instance loop of `update` reads and writes: the pool, the local
array `allColors`, and (ghost) the calls made to `updateLEDs`, oldest
first. -/
structure TickState where
  animations : Nat → AnimInstance
  animationCount : Int
  allColors : Nat → Nat
  evals : List TrackEval

/-- The first `if` of the loop body of `update`, applied to `animations[i]`:
a looping instance past its duration has its start time advanced by one
duration. -/
def catchUp (env : Env F) (ms : Int) (anim : AnimInstance) : AnimInstance :=
  let animTime := ms - anim.startTime
  if anim.loop ∧ animTime > (env.animAt anim.animation).duration then
    { anim with startTime := anim.startTime + (env.animAt anim.animation).duration }
  else anim

/-- The two `for (j < animTrackCount)` loops of `update`: gamma-correct each
colour and map its canonical index to an LED index, then combine each colour
into `allColors`. -/
def accumulate (env : Env F) (remapFace : Nat) (pairs : List (Int × Nat))
    (allColors : Nat → Nat) : Nat → Nat :=
  let mapped := pairs.map (fun p =>
    (env.board.faceToLedLookup (env.board.remapLed remapFace p.1), env.gamma p.2))
  mapped.foldl (fun acc lc => Function.update acc lc.1 (env.addColors (acc lc.1) lc.2))
    allColors

/-- The `else` branch of the loop body of `update` for the instance `anim`
(already caught up) at `animTime`: evaluate the tracks and combine them into
`allColors`. -/
def renderInstance (env : Env F) (currentRainbowIndex : Int) (heat : F)
    (anim : AnimInstance) (animTime : Int) (allColors : Nat → Nat) : Nat → Nat :=
  let pairs := env.updateLEDs anim.animation
    (getColorForAnim env currentRainbowIndex heat (some anim)) animTime
  accumulate env anim.remapFace pairs allColors

/-- The loop `for (int i = 0; i < animationCount; ++i)` of `update`, entered
at index `i` with `k = animationCount - i` slots still to visit: removing the
instance lowers `animationCount` and leaves `i` in place (`i--` then `++i`),
keeping it advances `i`, so either way one slot fewer remains. -/
def updateLoop (env : Env F) (currentRainbowIndex : Int) (heat : F) (ms : Int) :
    Nat → Nat → TickState → TickState
  | 0, _, t => t
  | k + 1, i, t =>
    let anim := catchUp env ms (t.animations i)
    let animations := Function.update t.animations i anim
    let animTime := ms - anim.startTime
    if animTime > (env.animAt anim.animation).duration then
      updateLoop env currentRainbowIndex heat ms k i
        { t with
          animations := shiftDown (t.animationCount - 1 - i).toNat i animations
          animationCount := t.animationCount - 1 }
    else
      updateLoop env currentRainbowIndex heat ms k (i + 1)
        { t with
          animations := animations
          allColors := renderInstance env currentRainbowIndex heat anim animTime t.allColors
          evals := t.evals ++ [{ inst := anim, animTime := animTime }] }

/-- The heat update at the top of `update`. -/
def coolDown (env : Env F) (heat : F) : F :=
  let heat := env.fmul heat env.coolDownRate
  if env.flt heat env.fzero then env.fzero else heat

/-- The local array `allColors` after the clearing loop of `update`; `stack`
is what the uninitialised array holds on entry. -/
def clearedColors (env : Env F) (stack : Nat → Nat) : Nat → Nat :=
  fun j => if (j : Int) < env.board.ledCount then 0 else stack j

/-- The instance loop of `update` run from `i = 0` on the state `s`, after the
heat update and the clearing of `allColors`. -/
def updateRun (env : Env F) (ms : Int) (stack : Nat → Nat) (s : State F) : TickState :=
  updateLoop env s.currentRainbowIndex (coolDown env s.heat) ms s.animationCount.toNat 0
    { animations := s.animations
      animationCount := s.animationCount
      allColors := clearedColors env stack
      evals := [] }

/-- The function `update`; `stack` is the content of the uninitialised local
`allColors` on entry.  (`PowerManager::feed()` does not touch the modelled
state.) -/
def update (env : Env F) (ms : Int) (stack : Nat → Nat) (s : State F) : State F :=
  let heat := coolDown env s.heat
  if s.animationCount > 0 then
    let t := updateRun env ms stack s
    { s with
      heat := heat
      animations := t.animations
      animationCount := t.animationCount
      strip := APA102.show_ (APA102.setPixelColors t.allColors s.strip) }
  else { s with heat := heat }

/-- The calls `update` makes to `updateLEDs`, in order. -/
def updateEvals (env : Env F) (ms : Int) (stack : Nat → Nat) (s : State F) :
    List TrackEval :=
  if s.animationCount > 0 then (updateRun env ms stack s).evals else []

/-- One entry point of the module with its arguments; `ms` is the clock
reading of the call. -/
inductive Op (F : Type) where
  | play (anim : AnimPtr) (remapFace : Nat) (loop : Bool) (ms : Int)
  | playEvent (evt : Nat) (remapFace : Nat) (loop : Bool) (ms : Int)
  | stop (anim : AnimPtr) (remapFace : Nat)
  | stopAll
  | update (ms : Int) (stack : Nat → Nat)
  | accelFrame (sqrMag : F)

/-- The effect of one entry point on the state. -/
def step (env : Env F) (s : State F) : Op F → State F
  | Op.play anim remapFace loop ms => play env anim remapFace loop ms s
  | Op.playEvent evt remapFace loop ms => playEvent env evt remapFace loop ms s
  | Op.stop anim remapFace => stop env anim remapFace s
  | Op.stopAll => stopAll s
  | Op.update ms stack => update env ms stack s
  | Op.accelFrame sqrMag => onAccelFrame env sqrMag s

/-- The state after `init` followed by the calls `ops`, from power-up state
`s0`. -/
def run (env : Env F) (s0 : State F) (ops : List (Op F)) : State F :=
  ops.foldl (step env) (init env s0)

/-- The instances in slots `i, i + 1, ..., i + k - 1`. -/
def slots (animations : Nat → AnimInstance) : Nat → Nat → List AnimInstance
  | _, 0 => []
  | i, k + 1 => animations i :: slots animations (i + 1) k

/-- The running instances, slots `0 .. animationCount - 1` in pool order. -/
def active (s : State F) : List AnimInstance :=
  slots s.animations 0 s.animationCount.toNat

/-- What one tick does to an instance: `none` when it is removed, otherwise
the instance as it stays in the pool. -/
def tick (env : Env F) (ms : Int) (anim : AnimInstance) : Option AnimInstance :=
  let anim := catchUp env ms anim
  if ms - anim.startTime > (env.animAt anim.animation).duration then none else some anim

/-- The instances of `l` a tick keeps, as they stay in the pool. -/
def kept (env : Env F) (ms : Int) (l : List AnimInstance) : List AnimInstance :=
  l.filterMap (tick env ms)

/-- The content of `allColors` after rendering the instances `l` in order,
each at its elapsed time `ms - startTime`. -/
def renderAll (env : Env F) (currentRainbowIndex : Int) (heat : F) (ms : Int)
    (l : List AnimInstance) (allColors : Nat → Nat) : Nat → Nat :=
  l.foldl (fun acc a => renderInstance env currentRainbowIndex heat a (ms - a.startTime) acc)
    allColors

/-- The invariant of the pool: the count lies between 0 and `MAX_ANIMS` and
the running instances have pairwise different (animation, remap face)
pairs. -/
def PoolInv (s : State F) : Prop :=
  0 ≤ s.animationCount ∧ s.animationCount ≤ MAX_ANIMS ∧
    ((active s).map (fun a => (a.animation, a.remapFace))).Nodup

/-- The pair that identifies a running instance. -/
def key (a : AnimInstance) : AnimPtr × Nat :=
  (a.animation, a.remapFace)

end AnimController

/-! ## A concrete configuration -/

namespace AnimController

/-- A board with one LED: every face maps to LED 0. -/
def exampleBoard : Board :=
  { ledCount := 1
    faceToLedLookup := fun _ => 0
    remapLed := fun _ c => c.toNat }

/-- An environment over integer heat values in which every animation lasts
500 ms and lights canonical LED 0 with colour slot 0; the animations at
addresses 101 to 104 are face-based, colour-wheel, heat-snapshot and
heat-current, all others have no special colour.  Colours add without
saturation and gamma is the identity. -/
def exampleEnv : Env Int :=
  { board := exampleBoard
    coolDownRate := 1
    heatUpRate := 1
    fmul := fun a b => a * b
    fadd := fun a b => a + b
    fsqrt := fun a => (Nat.sqrt a.toNat : Int)
    flt := fun a b => decide (a < b)
    fzero := 0
    fone := 1
    fofNat := fun n => (n : Int)
    ftoInt := fun a => a
    animAt := fun p =>
      { duration := 500
        animationEvent := 0
        specialColorType :=
          if p = 101 then SpecialColor.Face
          else if p = 102 then SpecialColor.ColorWheel
          else if p = 103 then SpecialColor.Heat_Start
          else if p = 104 then SpecialColor.Heat_Current
          else SpecialColor.None }
    getAnimationCount := 30
    getAnimation := fun i => i + 1
    updateLEDs := fun _ getColor _ => [(0, getColor 0)]
    animStop := fun _ => [0]
    getPaletteColor := fun _ => 0x010203
    heatTrackDuration := 1000
    heatTrackEvaluate := fun t => t.toNat
    faceWheel := fun face _ => 0xFF0000 + face
    wheel := fun pos => 0x00FF00 + pos
    gamma := fun c => c
    addColors := fun a b => a + b
    AnimationEvent_None := 0
    AnimationEvent_Count := 8 }

/-- A strip of one LED on pins 0 (data), 1 (clock) and 2 (power), dark and
idle. -/
def exampleStrip : APA102.Strip :=
  { pixels := fun _ => 0
    numLEDs := 1
    dataPin := 0
    clockPin := 1
    powerPin := 2
    level := fun _ => false
    wire := [] }

/-- A state whose first `n` slots run the animations at addresses
`1, 2, ..., n` on face 0, all started at time 0 with loop flag `loop`. -/
def exampleState (n : Nat) (loop : Bool) : State Int :=
  { animations := fun i =>
      { animation := i + 1, specialColorPayload := 0, startTime := 0, remapFace := 0,
        loop := loop }
    animationCount := n
    animationLookupByEvent := fun _ => -1
    currentRainbowIndex := 0
    heat := 0
    strip := exampleStrip }

end AnimController

/-! ## Colour tables (`drivers_hw/apa102.cpp`, file scope) -/

/-- The table `_gammaTable`. -/
def _gammaTable : List Nat :=
  [  0,  0,  0,  0,  0,  0,  0,  0,  0,  0,  0,  0,  0,  0,  0,  0,
     0,  0,  0,  0,  0,  0,  0,  0,  1,  1,  1,  1,  1,  1,  1,  1,
     1,  1,  1,  1,  2,  2,  2,  2,  2,  2,  2,  2,  3,  3,  3,  3,
     3,  3,  4,  4,  4,  4,  5,  5,  5,  5,  5,  6,  6,  6,  6,  7,
     7,  7,  8,  8,  8,  9,  9,  9, 10, 10, 10, 11, 11, 11, 12, 12,
    13, 13, 13, 14, 14, 15, 15, 16, 16, 17, 17, 18, 18, 19, 19, 20,
    20, 21, 21, 22, 22, 23, 24, 24, 25, 25, 26, 27, 27, 28, 29, 29,
    30, 31, 31, 32, 33, 34, 34, 35, 36, 37, 38, 38, 39, 40, 41, 42,
    42, 43, 44, 45, 46, 47, 48, 49, 50, 51, 52, 53, 54, 55, 56, 57,
    58, 59, 60, 61, 62, 63, 64, 65, 66, 68, 69, 70, 71, 72, 73, 75,
    76, 77, 78, 80, 81, 82, 84, 85, 86, 88, 89, 90, 92, 93, 94, 96,
    97, 99,100,102,103,105,106,108,109,111,112,114,115,117,119,120,
   122,124,125,127,129,130,132,134,136,137,139,141,143,145,146,148,
   150,152,154,156,158,160,162,164,166,168,170,172,174,176,178,180,
   182,184,186,188,191,193,195,197,199,202,204,206,209,211,213,215,
   218,220,223,225,227,230,232,235,237,240,242,245,247,250,252,255 ]

/-- The function `gamma8`; its `uint8_t` argument is an index below 256. -/
def gamma8 (x : Nat) : Nat :=
  _gammaTable.getD x 0

/-! ## Describing what goes out on the wire -/

namespace APA102

/-- The GPIO and delay calls of one iteration of the loop of `swSpiOut` whose
test `n & 0x80` gave `bit`. -/
def bitOps (dataPin clockPin : Nat) (bit : Bool) : List GpioOp :=
  [if bit then GpioOp.pinSet dataPin else GpioOp.pinClear dataPin,
    GpioOp.pinSet clockPin, GpioOp.delayUs 1, GpioOp.pinClear clockPin, GpioOp.delayUs 1]

/-- The outcomes of the test `n & 0x80` in `i` successive iterations of the
loop of `swSpiOut`, `n` being shifted left (as a `uint8_t`) after each. -/
def shiftedBits : Nat → Nat → List Bool
  | 0, _ => []
  | i + 1, n => decide (n &&& 0x80 ≠ 0) :: shiftedBits i ((n <<< 1) % 256)

/-- The GPIO and delay calls of one call `swSpiOut(b)`. -/
def byteOps (dataPin clockPin : Nat) (b : Nat) : List GpioOp :=
  (shiftedBits 8 b).flatMap (bitOps dataPin clockPin)

/-- The bytes of `count` LEDs read from offset `ptr` of the buffer, each LED
preceded by `0xFF`, in the order the pixel loop of `show` sends them. -/
def ledBytes (pixels : Nat → Nat) : Nat → Nat → List Nat
  | 0, _ => []
  | count + 1, ptr =>
    0xFF :: pixels ptr :: pixels (ptr + 1) :: pixels (ptr + 2) :: ledBytes pixels count (ptr + 3)

/-- The frame for `n` LEDs in the words of the specification: four zero bytes,
then for each LED `i` the byte `0xFF` and the buffer bytes `3i`, `3i + 1`,
`3i + 2`, then `ceil(n / 16)` bytes `0xFF`. -/
def frameBytes (n : Nat) (pixels : Nat → Nat) : List Nat :=
  [0, 0, 0, 0] ++
    (List.range n).flatMap
      (fun i => [0xFF, pixels (3 * i), pixels (3 * i + 1), pixels (3 * i + 2)]) ++
    List.replicate ((n + 15) / 16) 0xFF

end APA102

/-! ## A configuration that heats up while cooling down -/

namespace AnimController

/-- The example environment with `coolDownRate` set to 2. -/
def doublingEnv : Env Int :=
  { exampleEnv with coolDownRate := 2 }

/-- The empty example pool with the heat at 1. -/
def hotState : State Int :=
  { exampleState 0 false with heat := 1 }

end AnimController

/-! ## Colour arithmetic and the composited frame -/

namespace Utils

/-- Modelled from the spec: `Utils::getRed` is defined in `utils/utils.cpp`,
which is not among the sources; it is the red channel of a colour packed as
`0xRRGGBB`, the packing of `APA102::color`. -/
def getRed (c : Nat) : Nat :=
  c / 65536 % 256

/-- Modelled from the spec: `Utils::getGreen`, missing like `getRed`; the
green channel of a colour packed as `0xRRGGBB`. -/
def getGreen (c : Nat) : Nat :=
  c / 256 % 256

/-- Modelled from the spec: `Utils::getBlue`, missing like `getRed`; the blue
channel of a colour packed as `0xRRGGBB`. -/
def getBlue (c : Nat) : Nat :=
  c % 256

/-- Modelled from the spec: `Utils::toColor`, missing like `getRed`; the
colour `0xRRGGBB` with the three channels given (each below 256). -/
def toColor (r g b : Nat) : Nat :=
  r * 65536 + g * 256 + b

/-- Modelled from the spec: `Utils::addColors` is defined in
`utils/utils.cpp`, which is not among the sources; the spec has colours
"additively combine (saturating per channel, not overwriting)", the sum being
"clamped to the maximum channel value", 255. -/
def addColors (a b : Nat) : Nat :=
  toColor (min 255 (getRed a + getRed b)) (min 255 (getGreen a + getGreen b))
    (min 255 (getBlue a + getBlue b))

end Utils

namespace AnimController

/-- One pass of the second `for (j < animTrackCount)` loop of `update`: the
colour `lc.2` is combined into cell `lc.1` of `allColors`. -/
def combine (env : Env F) (allColors : Nat → Nat) (lc : Nat × Nat) : Nat → Nat :=
  Function.update allColors lc.1 (env.addColors (allColors lc.1) lc.2)

/-- In the words of the specification: every (physical LED, gamma-corrected
colour) pair that the track evaluation of the instances `l`, each at its
elapsed time `ms - startTime`, produces, the canonical index being remapped
through the instance's `remapFace` and the board lookup. -/
def contributions (env : Env F) (currentRainbowIndex : Int) (heat : F) (ms : Int)
    (l : List AnimInstance) : List (Nat × Nat) :=
  l.flatMap (fun a =>
    (env.updateLEDs a.animation (getColorForAnim env currentRainbowIndex heat (some a))
      (ms - a.startTime)).map
      (fun pr => (env.board.faceToLedLookup (env.board.remapLed a.remapFace pr.1),
        env.gamma pr.2)))

/-- The colours among `cs` that are directed to LED `p`. -/
def coloursFor (p : Nat) (cs : List (Nat × Nat)) : List Nat :=
  (cs.filter (fun lc => lc.1 == p)).map (fun lc => lc.2)

end AnimController

/-! ## A configuration with saturating colour addition -/

namespace AnimController

/-- The example environment with `addColors` as the specification describes
it. -/
def saturatingEnv : Env Int :=
  { exampleEnv with addColors := Utils.addColors }

end AnimController

/-! ## A configuration with rational heat -/

namespace AnimController

/-- An environment over rational heat values with exact arithmetic,
`heatUpRate = 1/10`, and as square root the integer square root of the integer
part (exact on perfect squares); everything else as in the example
environment. -/
def rationalEnv : Env ℚ :=
  { board := exampleBoard
    coolDownRate := 1
    heatUpRate := 1 / 10
    fmul := fun a b => a * b
    fadd := fun a b => a + b
    fsqrt := fun a => (Nat.sqrt a.floor.toNat : ℚ)
    flt := fun a b => decide (a < b)
    fzero := 0
    fone := 1
    fofNat := fun n => (n : ℚ)
    ftoInt := fun a => a.floor
    animAt := exampleEnv.animAt
    getAnimationCount := exampleEnv.getAnimationCount
    getAnimation := exampleEnv.getAnimation
    updateLEDs := exampleEnv.updateLEDs
    animStop := exampleEnv.animStop
    getPaletteColor := exampleEnv.getPaletteColor
    heatTrackDuration := exampleEnv.heatTrackDuration
    heatTrackEvaluate := exampleEnv.heatTrackEvaluate
    faceWheel := exampleEnv.faceWheel
    wheel := exampleEnv.wheel
    gamma := exampleEnv.gamma
    addColors := exampleEnv.addColors
    AnimationEvent_None := exampleEnv.AnimationEvent_None
    AnimationEvent_Count := exampleEnv.AnimationEvent_Count }

/-- An idle state with rational heat 0. -/
def coldState : State ℚ :=
  { animations := (exampleState 0 false).animations
    animationCount := 0
    animationLookupByEvent := fun _ => -1
    currentRainbowIndex := 0
    heat := 0
    strip := exampleStrip }

end AnimController

/-! ## Triggering actions (`behaviors/action.cpp`) -/

namespace Behaviors

/-- An action of the data set as `triggerActions` sees it: the cases of
`switch (action->type)` with the fields each case reads. -/
inductive Action where
  | PlayAnimation (animIndex faceIndex : Nat)
  | PlaySound (clipId : Nat)
  | other (type : Nat)
  deriving DecidableEq, Repr

/-- A call `triggerActions` makes into another module:
`AnimController::play(animIndex, remapFace, loop)` or
`MessageService::SendMessage` of a play-sound message. -/
inductive Call where
  | play (animIndex remapFace : Nat) (loop : Bool)
  | sendPlaySound (clipId : Nat)
  deriving DecidableEq, Repr

/-- What `triggerActions` obtains from other translation units. -/
structure ActionEnv where
  /-- The function `DataSet::getAction`. -/
  getAction : Int → Action
  /-- The function `DataSet::getAnimationCount`. -/
  getAnimationCount : Nat
  /-- The constant `FACE_INDEX_CURRENT_FACE`. -/
  FACE_INDEX_CURRENT_FACE : Nat
  /-- The value of `Accelerometer::currentFace()`, as passed to the `uint8_t`
  parameter. -/
  currentFace : Nat
  /-- The value of `Stack::isConnected()`. -/
  isConnected : Bool

/-- The body of the loop of `triggerActions` for one action: the calls it
makes, in order (log output left out). -/
def triggerAction (aenv : ActionEnv) (action : Action) : List Call :=
  match action with
  | Action.PlayAnimation animIndex faceIndex =>
    if animIndex < aenv.getAnimationCount then
      if faceIndex = aenv.FACE_INDEX_CURRENT_FACE then
        [Call.play animIndex aenv.currentFace false]
      else
        [Call.play animIndex faceIndex false]
    else []
  | Action.PlaySound clipId =>
    if aenv.isConnected then [Call.sendPlaySound clipId] else []
  | Action.other _ => []

/-- The loop `for (int index = actionOffset; index < actionOffset + actionCount;
++index)` with `k` iterations still to run. -/
def triggerActionsLoop (aenv : ActionEnv) : Nat → Int → List Call
  | 0, _ => []
  | k + 1, index =>
    triggerAction aenv (aenv.getAction index) ++ triggerActionsLoop aenv k (index + 1)

/-- The function `triggerActions`: the calls it makes, in order. -/
def triggerActions (aenv : ActionEnv) (actionOffset actionCount : Int) : List Call :=
  triggerActionsLoop aenv actionCount.toNat actionOffset

/-- Modelled from the spec: the overload `AnimController::play(animIndex,
remapFace, loop)` that `triggerActions` calls is not defined in
`anim_controller.cpp` as given; the spec's trigger interface
`playAnimation(index, faceIndex, loop)` starts the animation of that index, so
the call is `play` on the address of animation `animIndex` of the set. -/
def applyCall {F : Type} (env : AnimController.Env F) (ms : Int)
    (s : AnimController.State F) : Call → AnimController.State F
  | Call.play animIndex remapFace loop =>
    AnimController.play env (env.getAnimation animIndex) remapFace loop ms s
  | Call.sendPlaySound _ => s

/-- The state of the animation controller after the calls `calls`. -/
def applyCalls {F : Type} (env : AnimController.Env F) (ms : Int)
    (calls : List Call) (s : AnimController.State F) : AnimController.State F :=
  calls.foldl (applyCall env ms) s

/-- A data set of three actions at indices 0, 1, 2: an animation index out of
range, a sound, and animation 2 on the current face. -/
def exampleActions : ActionEnv :=
  { getAction := fun i =>
      if i = 0 then Action.PlayAnimation 40 3
      else if i = 1 then Action.PlaySound 7
      else Action.PlayAnimation 2 255
    getAnimationCount := 30
    FACE_INDEX_CURRENT_FACE := 255
    currentFace := 5
    isConnected := false }

end Behaviors

/-! ## Array accesses of `update` -/

namespace AnimController

variable {F : Type}

/-- The arrays `update` indexes. -/
inductive Arr where
  | animations
  | allColors
  | canonIndices
  | colors
  | faceIndices
  | ledIndices
  | faceToLedLookup
  deriving DecidableEq, Repr

/-- The declared number of elements of each array: `animations[MAX_ANIMS]`,
`allColors[MAX_LED_COUNT]`, `faceToLedLookup[MAX_LED_COUNT]`, and
`MAX_LED_COUNT * 4` for the four per-track arrays. -/
def arrSize : Arr → Nat
  | Arr.animations => MAX_ANIMS
  | Arr.allColors => MAX_LED_COUNT
  | Arr.faceToLedLookup => MAX_LED_COUNT
  | Arr.canonIndices => MAX_LED_COUNT * 4
  | Arr.colors => MAX_LED_COUNT * 4
  | Arr.faceIndices => MAX_LED_COUNT * 4
  | Arr.ledIndices => MAX_LED_COUNT * 4

/-- One indexing of an array in `update`: which array, the index, and whether
the element is read or written. -/
structure Access where
  arr : Arr
  index : Int
  isRead : Bool
  deriving DecidableEq, Repr

/-- The accesses of the clearing loop `for (j < ledCount) allColors[j] = 0`. -/
def clearAccesses (env : Env F) : List Access :=
  (List.range env.board.ledCount.toNat).map
    (fun (j : Nat) => { arr := Arr.allColors, index := (j : Int), isRead := false })

/-- The accesses of the shifting loop of `update`, `k` assignments
`animations[j] = animations[j + 1]` still to make. -/
def shiftAccesses : Nat → Nat → List Access
  | 0, _ => []
  | k + 1, j =>
    { arr := Arr.animations, index := (j : Int) + 1, isRead := true } ::
      { arr := Arr.animations, index := (j : Int), isRead := false } ::
      shiftAccesses k (j + 1)

/-- The accesses of the first `for (j < animTrackCount)` loop of `update`,
from index `j`, one pass per pair the track evaluation produced. -/
def mapAccesses (env : Env F) (remapFace : Nat) : Nat → List (Int × Nat) → List Access
  | _, [] => []
  | j, p :: ps =>
    [ { arr := Arr.colors, index := (j : Int), isRead := true },
      { arr := Arr.colors, index := (j : Int), isRead := false },
      { arr := Arr.canonIndices, index := (j : Int), isRead := true },
      { arr := Arr.faceIndices, index := (j : Int), isRead := false },
      { arr := Arr.faceIndices, index := (j : Int), isRead := true },
      { arr := Arr.faceToLedLookup, index := (env.board.remapLed remapFace p.1 : Int),
        isRead := true },
      { arr := Arr.ledIndices, index := (j : Int), isRead := false } ] ++
      mapAccesses env remapFace (j + 1) ps

/-- The accesses of the second `for (j < animTrackCount)` loop of `update`,
from index `j`. -/
def combineAccesses (env : Env F) (remapFace : Nat) : Nat → List (Int × Nat) → List Access
  | _, [] => []
  | j, p :: ps =>
    [ { arr := Arr.ledIndices, index := (j : Int), isRead := true },
      { arr := Arr.allColors,
        index := (env.board.faceToLedLookup (env.board.remapLed remapFace p.1) : Int),
        isRead := true },
      { arr := Arr.colors, index := (j : Int), isRead := true },
      { arr := Arr.allColors,
        index := (env.board.faceToLedLookup (env.board.remapLed remapFace p.1) : Int),
        isRead := false } ] ++
      combineAccesses env remapFace (j + 1) ps

/-- The array accesses of the instance loop of `update`, following
`updateLoop` step by step: `animations[i]` is read (and written when the loop
catch-up applies), then either the shifting loop runs or the two track loops
do. -/
def updateAccesses (env : Env F) (currentRainbowIndex : Int) (heat : F) (ms : Int) :
    Nat → Nat → TickState → List Access
  | 0, _, _ => []
  | k + 1, i, t =>
    let anim := catchUp env ms (t.animations i)
    let animations := Function.update t.animations i anim
    let animTime := ms - anim.startTime
    let head : List Access :=
      { arr := Arr.animations, index := (i : Int), isRead := true } ::
        (if (t.animations i).loop ∧
            ms - (t.animations i).startTime > (env.animAt (t.animations i).animation).duration
          then [{ arr := Arr.animations, index := (i : Int), isRead := false }] else [])
    if animTime > (env.animAt anim.animation).duration then
      head ++ shiftAccesses (t.animationCount - 1 - i).toNat i ++
        updateAccesses env currentRainbowIndex heat ms k i
          { t with
            animations := shiftDown (t.animationCount - 1 - i).toNat i animations
            animationCount := t.animationCount - 1 }
    else
      let pairs := env.updateLEDs anim.animation
        (getColorForAnim env currentRainbowIndex heat (some anim)) animTime
      head ++ mapAccesses env anim.remapFace 0 pairs ++
        combineAccesses env anim.remapFace 0 pairs ++
        updateAccesses env currentRainbowIndex heat ms k (i + 1)
          { t with
            animations := animations
            allColors := renderInstance env currentRainbowIndex heat anim animTime t.allColors
            evals := t.evals ++ [{ inst := anim, animTime := animTime }] }

/-- Every array access `update` itself makes, in order: the clearing loop,
then the instance loop (none when no animation is running). -/
def updateAllAccesses (env : Env F) (ms : Int) (stack : Nat → Nat) (s : State F) :
    List Access :=
  if s.animationCount > 0 then
    clearAccesses env ++
      updateAccesses env s.currentRainbowIndex (coolDown env s.heat) ms
        s.animationCount.toNat 0
        { animations := s.animations
          animationCount := s.animationCount
          allColors := clearedColors env stack
          evals := [] }
  else []

/-- The example environment with `remapLed` reduced modulo 21, so that every
face index it returns is below `MAX_LED_COUNT`. -/
def boundedEnv : Env Int :=
  { exampleEnv with
    board := { exampleBoard with remapLed := fun _ c => c.toNat % 21 } }

/-- What C29 asks of an access: the index is inside the array, and a read of
`allColors` hits a cell below `ledCount`. -/
def SafeAccess (env : Env F) (a : Access) : Prop :=
  (0 ≤ a.index ∧ a.index < arrSize a.arr) ∧
    (a.arr = Arr.allColors → a.isRead = true → a.index < env.board.ledCount)

end AnimController

/-! ## Animation sets for event playback -/

namespace AnimController


/-- The example environment with a set of five animations, at addresses 1 to
5 (indices 0 to 4): those at indices 1 and 3 are bound to event 3, the one at
index 2 to event 5, the others to no event. -/
def eventEnv : Env Int :=
  { exampleEnv with
    animAt := fun p =>
      { duration := 500
        animationEvent := if p = 2 ∨ p = 4 then 3 else if p = 3 then 5 else 0
        specialColorType := SpecialColor.None }
    getAnimationCount := 5 }

/-- The example environment with an empty animation set. -/
def emptySetEnv : Env Int :=
  { exampleEnv with getAnimationCount := 0 }

end AnimController

/-! ## A track evaluation that reports its time -/

namespace AnimController

/-- The example environment with a track evaluation that returns the time it
is called with: canonical LED 0 gets the elapsed time as its colour. -/
def timedEnv : Env Int :=
  { exampleEnv with updateLEDs := fun _ _ t => [(0, t.toNat)] }

end AnimController

/-! ## Lemmas on the loops -/

namespace AnimController

variable {F : Type}

theorem findFrom_ge (p : AnimInstance → Bool) (a : Nat → AnimInstance) (k idx : Nat) :
    idx ≤ findFrom p a k idx := by
  induction k generalizing idx with
  | zero => simp [findFrom]
  | succ k ih =>
    simp only [findFrom]
    split
    · exact le_refl _
    · have := ih (idx + 1); omega

theorem findFrom_le (p : AnimInstance → Bool) (a : Nat → AnimInstance) (k idx : Nat) :
    findFrom p a k idx ≤ idx + k := by
  induction k generalizing idx with
  | zero => simp [findFrom]
  | succ k ih =>
    simp only [findFrom]
    split
    · omega
    · have := ih (idx + 1); omega

theorem findFrom_found (p : AnimInstance → Bool) (a : Nat → AnimInstance) (k idx : Nat)
    (h : findFrom p a k idx < idx + k) : p (a (findFrom p a k idx)) = true := by
  induction k generalizing idx with
  | zero => simp [findFrom] at h
  | succ k ih =>
    simp only [findFrom] at h ⊢
    split
    · assumption
    · rename_i hp
      rw [if_neg hp] at h
      exact ih (idx + 1) (by omega)

theorem findFrom_before (p : AnimInstance → Bool) (a : Nat → AnimInstance) (k idx : Nat)
    (j : Nat) (h1 : idx ≤ j) (h2 : j < findFrom p a k idx) : p (a j) = false := by
  induction k generalizing idx with
  | zero => simp [findFrom] at h2; omega
  | succ k ih =>
    simp only [findFrom] at h2
    split at h2
    · omega
    · rename_i hp
      rcases Nat.eq_or_lt_of_le h1 with h | h
      · subst h; simpa using hp
      · exact ih (idx + 1) h h2

theorem findFrom_none (p : AnimInstance → Bool) (a : Nat → AnimInstance) (k idx : Nat)
    (h : ∀ j, idx ≤ j → j < idx + k → p (a j) = false) : findFrom p a k idx = idx + k := by
  rcases Nat.eq_or_lt_of_le (findFrom_le p a k idx) with h1 | h1
  · exact h1
  · have h2 := findFrom_found p a k idx h1
    have h3 := h _ (findFrom_ge p a k idx) h1
    simp [h2] at h3

theorem findFrom_some (p : AnimInstance → Bool) (a : Nat → AnimInstance) (k idx : Nat)
    (j : Nat) (h1 : idx ≤ j) (h2 : j < idx + k) (h3 : p (a j) = true) :
    findFrom p a k idx < idx + k := by
  rcases Nat.eq_or_lt_of_le (findFrom_le p a k idx) with h | h
  · have := findFrom_before p a k idx j h1 (by omega)
    simp [h3] at this
  · exact h

theorem shiftDown_apply (k j : Nat) (a : Nat → AnimInstance) (x : Nat) :
    shiftDown k j a x = if j ≤ x ∧ x < j + k then a (x + 1) else a x := by
  induction k generalizing j a with
  | zero =>
    simp only [shiftDown]
    rw [if_neg (by omega)]
  | succ k ih =>
    simp only [shiftDown]
    rw [ih]
    by_cases hx : j + 1 ≤ x ∧ x < j + 1 + k
    · rw [if_pos hx, if_pos (by omega)]
      rw [Function.update_noteq (by omega)]
    · rw [if_neg hx]
      by_cases hj : x = j
      · subst hj
        rw [if_pos (by omega)]
        simp
      · rw [Function.update_noteq hj, if_neg (by omega)]

theorem slots_length (a : Nat → AnimInstance) (i k : Nat) : (slots a i k).length = k := by
  induction k generalizing i with
  | zero => rfl
  | succ k ih => simp [slots, ih]

theorem slots_congr (a b : Nat → AnimInstance) (i k : Nat)
    (h : ∀ j, i ≤ j → j < i + k → a j = b j) : slots a i k = slots b i k := by
  induction k generalizing i with
  | zero => rfl
  | succ k ih =>
    simp only [slots]
    rw [h i (le_refl _) (by omega), ih (i + 1) (fun j h1 h2 => h j (by omega) (by omega))]

theorem slots_succ_right (a : Nat → AnimInstance) (i k : Nat) :
    slots a i (k + 1) = slots a i k ++ [a (i + k)] := by
  induction k generalizing i with
  | zero => simp [slots]
  | succ k ih =>
    rw [slots, ih (i + 1)]
    simp only [slots, List.cons_append]
    rw [show i + 1 + k = i + (k + 1) from by omega]

theorem slots_add (a : Nat → AnimInstance) (i k m : Nat) :
    slots a i (k + m) = slots a i k ++ slots a (i + k) m := by
  induction k generalizing i with
  | zero => simp [slots]
  | succ k ih =>
    have : k + 1 + m = (k + m) + 1 := by omega
    rw [this, slots, ih (i + 1)]
    simp only [slots, List.cons_append]
    rw [show i + 1 + k = i + (k + 1) from by omega]

theorem mem_slots (a : Nat → AnimInstance) (i k : Nat) (x : AnimInstance) :
    x ∈ slots a i k ↔ ∃ j, i ≤ j ∧ j < i + k ∧ a j = x := by
  induction k generalizing i with
  | zero =>
    simp only [slots, List.not_mem_nil, false_iff]
    rintro ⟨j, h1, h2, _⟩
    omega
  | succ k ih =>
    simp only [slots, List.mem_cons, ih]
    constructor
    · rintro (h | ⟨j, h1, h2, h3⟩)
      · exact ⟨i, le_refl _, by omega, h.symm⟩
      · exact ⟨j, by omega, by omega, h3⟩
    · rintro ⟨j, h1, h2, h3⟩
      rcases Nat.eq_or_lt_of_le h1 with h | h
      · left; rw [← h3, h]
      · right; exact ⟨j, h, by omega, h3⟩

end AnimController

namespace AnimController

theorem slots_shift (a b : Nat → AnimInstance) (i i' m : Nat)
    (h : ∀ j, j < m → b (i + j) = a (i' + j)) : slots b i m = slots a i' m := by
  induction m generalizing i i' with
  | zero => rfl
  | succ m ih =>
    simp only [slots]
    rw [show b i = a i' from h 0 (by omega)]
    rw [ih (i + 1) (i' + 1) (fun j hj => by
      have := h (j + 1) (by omega)
      rw [show i + 1 + j = i + (j + 1) from by omega,
        show i' + 1 + j = i' + (j + 1) from by omega]
      exact this)]

theorem slots_shiftDown (a : Nat → AnimInstance) (n k : Nat) (hk : k < n) :
    slots (shiftDown (n - 1 - k) k a) 0 (n - 1) = (slots a 0 n).eraseIdx k := by
  have hn : n = k + ((n - 1 - k) + 1) := by omega
  have hn1 : n - 1 = k + (n - 1 - k) := by omega
  generalize n - 1 - k = m at hn hn1
  rw [hn1, hn, slots_add, slots_add]
  rw [List.eraseIdx_append_of_length_le (by rw [slots_length])]
  rw [slots_length, Nat.sub_self]
  simp only [Nat.zero_add, slots, List.eraseIdx_cons_zero]
  congr 1
  · apply slots_congr
    intro j _ hj
    rw [shiftDown_apply, if_neg (by omega)]
  · apply slots_shift
    intro j hj
    rw [shiftDown_apply, if_pos (by omega)]
    rw [show k + j + 1 = k + 1 + j from by omega]

end AnimController

/-! ## The pool operations `play` and `stop` -/

namespace AnimController

variable {F : Type}

theorem stopAtIndex_animations (env : Env F) (i : Nat) (s : State F) :
    (stopAtIndex env i s).animations = s.animations := rfl

theorem stopAtIndex_animationCount (env : Env F) (i : Nat) (s : State F) :
    (stopAtIndex env i s).animationCount = s.animationCount := rfl

/-- C2: on a full pool (`animationCount = MAX_ANIMS`) in which no running
instance has the requested animation and remap face, `play` returns the state
it was given: the pool, the count, the strip buffer and the wire log are all
unchanged. -/
theorem play_full_pool_is_noop (env : Env F) (s : State F) (anim : AnimPtr)
    (remapFace : Nat) (loop : Bool) (ms : Int)
    (hfull : s.animationCount = MAX_ANIMS)
    (hnone : ∀ i : Nat, i < MAX_ANIMS →
      ¬ ((s.animations i).animation = anim ∧ (s.animations i).remapFace = remapFace)) :
    play env anim remapFace loop ms s = s := by
  have hfind : findFrom
      (fun prevAnim => prevAnim.animation == anim && prevAnim.remapFace == remapFace)
      s.animations s.animationCount.toNat 0 = MAX_ANIMS := by
    rw [findFrom_none]
    · rw [hfull]; simp
    · intro j _ hj
      have hj2 : j < MAX_ANIMS := by rw [hfull] at hj; simpa using hj
      have := hnone j hj2
      simp only [Bool.and_eq_false_imp, beq_iff_eq, beq_eq_false_iff_ne, ne_eq]
      intro h1 h2
      exact this ⟨h1, h2⟩
  unfold play
  simp only [hfind]
  rw [if_neg (by rw [hfull]; exact lt_irrefl _), if_neg (by rw [hfull]; exact lt_irrefl _)]

/-- Witness of C2: a pool running animations 1..20 on face 0 ignores a request
for animation 100. -/
theorem play_full_pool_is_noop_witness :
    (exampleState 20 false).animationCount = MAX_ANIMS ∧
    play exampleEnv 100 0 true 7 (exampleState 20 false) = exampleState 20 false :=
  ⟨by decide, play_full_pool_is_noop exampleEnv (exampleState 20 false) 100 0 true 7
    (by decide) (by decide)⟩

/-- C3: when some running instance has the requested animation and remap
face, `play` restarts it in place: the count is unchanged, the lowest such
slot `k` keeps its instance with only `startTime` set to the current time, and
every other slot of the pool is unchanged. -/
theorem play_restarts_in_place (env : Env F) (s : State F) (anim : AnimPtr)
    (remapFace : Nat) (loop : Bool) (ms : Int)
    (h : ∃ i : Nat, (i : Int) < s.animationCount ∧
      (s.animations i).animation = anim ∧ (s.animations i).remapFace = remapFace) :
    ∃ k : Nat, (k : Int) < s.animationCount ∧
      (s.animations k).animation = anim ∧ (s.animations k).remapFace = remapFace ∧
      (∀ j, j < k →
        ¬ ((s.animations j).animation = anim ∧ (s.animations j).remapFace = remapFace)) ∧
      (play env anim remapFace loop ms s).animationCount = s.animationCount ∧
      (play env anim remapFace loop ms s).animations k =
        { s.animations k with startTime := ms } ∧
      (∀ j, j ≠ k → (play env anim remapFace loop ms s).animations j = s.animations j) := by
  obtain ⟨i, hi, ha, hr⟩ := h
  obtain ⟨k, hk⟩ : ∃ k, findFrom
      (fun prevAnim => prevAnim.animation == anim && prevAnim.remapFace == remapFace)
      s.animations s.animationCount.toNat 0 = k := ⟨_, rfl⟩
  have hlt : k < 0 + s.animationCount.toNat := by
    rw [← hk]
    exact findFrom_some _ _ _ 0 i (Nat.zero_le _) (by omega) (by simp [ha, hr])
  have hkc : (k : Int) < s.animationCount := by omega
  have hfound := findFrom_found
    (fun prevAnim => prevAnim.animation == anim && prevAnim.remapFace == remapFace)
    s.animations s.animationCount.toNat 0 (by rw [hk]; exact hlt)
  rw [hk] at hfound
  simp only [Bool.and_eq_true, beq_iff_eq] at hfound
  have hbefore : ∀ j, j < k →
      ¬ ((s.animations j).animation = anim ∧ (s.animations j).remapFace = remapFace) := by
    intro j hj hm
    have := findFrom_before
      (fun prevAnim => prevAnim.animation == anim && prevAnim.remapFace == remapFace)
      s.animations s.animationCount.toNat 0 j (Nat.zero_le _) (by rw [hk]; exact hj)
    simp [hm.1, hm.2] at this
  have hplay : play env anim remapFace loop ms s =
      { stopAtIndex env k s with
        animations := Function.update s.animations k
          { s.animations k with startTime := ms } } := by
    unfold play
    simp only [hk]
    rw [if_pos hkc]
    rfl
  refine ⟨k, hkc, hfound.1, hfound.2, hbefore, ?_, ?_, ?_⟩
  · rw [hplay]; rfl
  · rw [hplay]; simp
  · intro j hj
    rw [hplay]
    simp [Function.update_noteq hj]

/-- Witness of C3: restarting animation 3 in a full pool. -/
theorem play_restarts_in_place_witness :
    (∃ i : Nat, (i : Int) < (exampleState 20 false).animationCount ∧
      ((exampleState 20 false).animations i).animation = 3 ∧
      ((exampleState 20 false).animations i).remapFace = 0) ∧
    ∃ k : Nat, (k : Int) < (exampleState 20 false).animationCount ∧
      ((exampleState 20 false).animations k).animation = 3 ∧
      ((exampleState 20 false).animations k).remapFace = 0 ∧
      (∀ j, j < k →
        ¬ (((exampleState 20 false).animations j).animation = 3 ∧
          ((exampleState 20 false).animations j).remapFace = 0)) ∧
      (play exampleEnv 3 0 true 40 (exampleState 20 false)).animationCount =
        (exampleState 20 false).animationCount ∧
      (play exampleEnv 3 0 true 40 (exampleState 20 false)).animations k =
        { (exampleState 20 false).animations k with startTime := 40 } ∧
      (∀ j, j ≠ k → (play exampleEnv 3 0 true 40 (exampleState 20 false)).animations j =
        (exampleState 20 false).animations j) :=
  ⟨⟨2, by decide, rfl, rfl⟩,
    play_restarts_in_place exampleEnv (exampleState 20 false) 3 0 true 40
      ⟨2, by decide, rfl, rfl⟩⟩

/-- C5: with room in the pool and no running instance for the requested
animation and remap face, `play` raises the count by one, leaves every other
slot (in particular slots `0 .. count - 1`) unchanged, and fills the new last
slot with the animation, the current time, the remap face and the loop flag
passed; its payload is `faceWheel(remapFace, ledCount)` for a face-based
animation, `remapFace` for a colour-wheel one, the heat track evaluated at
`int(heat * heatTrackDuration)` for a heat-snapshot one, and 0 otherwise. -/
theorem play_appends_instance (env : Env F) (s : State F) (anim : AnimPtr)
    (remapFace : Nat) (loop : Bool) (ms : Int)
    (h0 : 0 ≤ s.animationCount) (hroom : s.animationCount < MAX_ANIMS)
    (hnone : ∀ i : Nat, (i : Int) < s.animationCount →
      ¬ ((s.animations i).animation = anim ∧ (s.animations i).remapFace = remapFace)) :
    (play env anim remapFace loop ms s).animationCount = s.animationCount + 1 ∧
    (∀ j : Nat, j ≠ s.animationCount.toNat →
      (play env anim remapFace loop ms s).animations j = s.animations j) ∧
    ((play env anim remapFace loop ms s).animations s.animationCount.toNat).animation = anim ∧
    ((play env anim remapFace loop ms s).animations s.animationCount.toNat).startTime = ms ∧
    ((play env anim remapFace loop ms s).animations s.animationCount.toNat).remapFace
      = remapFace ∧
    ((play env anim remapFace loop ms s).animations s.animationCount.toNat).loop = loop ∧
    ((env.animAt anim).specialColorType = SpecialColor.Face →
      ((play env anim remapFace loop ms s).animations
        s.animationCount.toNat).specialColorPayload
        = env.faceWheel remapFace env.board.ledCount) ∧
    ((env.animAt anim).specialColorType = SpecialColor.ColorWheel →
      ((play env anim remapFace loop ms s).animations
        s.animationCount.toNat).specialColorPayload = remapFace) ∧
    ((env.animAt anim).specialColorType = SpecialColor.Heat_Start →
      ((play env anim remapFace loop ms s).animations
        s.animationCount.toNat).specialColorPayload
        = env.heatTrackEvaluate
            (env.ftoInt (env.fmul s.heat (env.fofNat env.heatTrackDuration)))) ∧
    ((env.animAt anim).specialColorType = SpecialColor.None ∨
        (env.animAt anim).specialColorType = SpecialColor.Heat_Current →
      ((play env anim remapFace loop ms s).animations
        s.animationCount.toNat).specialColorPayload = 0) := by
  have hfind : findFrom
      (fun prevAnim => prevAnim.animation == anim && prevAnim.remapFace == remapFace)
      s.animations s.animationCount.toNat 0 = s.animationCount.toNat := by
    rw [findFrom_none]
    · simp
    · intro j _ hj
      have := hnone j (by omega)
      simp only [Bool.and_eq_false_imp, beq_iff_eq, beq_eq_false_iff_ne, ne_eq]
      intro h1 h2
      exact this ⟨h1, h2⟩
  have hplay : play env anim remapFace loop ms s =
      { s with
        animations := Function.update s.animations s.animationCount.toNat
          { animation := anim
            startTime := ms
            remapFace := remapFace
            loop := loop
            specialColorPayload := newPayload env s.heat anim remapFace }
        animationCount := s.animationCount + 1 } := by
    unfold play
    simp only [hfind]
    rw [if_neg (by omega), if_pos hroom]
  rw [hplay]
  refine ⟨rfl, ?_, ?_, ?_, ?_, ?_, ?_, ?_, ?_, ?_⟩
  · intro j hj
    simp [Function.update_noteq hj]
  · simp
  · simp
  · simp
  · simp
  · intro ht; simp [newPayload, ht]
  · intro ht; simp [newPayload, ht]
  · intro ht; simp [newPayload, ht]
  · rintro (ht | ht) <;> simp [newPayload, ht]

/-- Witness of C5: a face-based animation (address 101) started on face 4 in
a pool of two. -/
theorem play_appends_instance_witness :
    (0 ≤ (exampleState 2 false).animationCount ∧
      (exampleState 2 false).animationCount < MAX_ANIMS ∧
      ∀ i : Nat, (i : Int) < (exampleState 2 false).animationCount →
        ¬ (((exampleState 2 false).animations i).animation = 101 ∧
          ((exampleState 2 false).animations i).remapFace = 4)) ∧
    (play exampleEnv 101 4 true 7 (exampleState 2 false)).animationCount = 3 ∧
    ((play exampleEnv 101 4 true 7 (exampleState 2 false)).animations 2).animation = 101 ∧
    ((play exampleEnv 101 4 true 7 (exampleState 2 false)).animations 2).specialColorPayload
      = 0xFF0004 := by
  have hnone : ∀ i : Nat, (i : Int) < (exampleState 2 false).animationCount →
        ¬ (((exampleState 2 false).animations i).animation = 101 ∧
          ((exampleState 2 false).animations i).remapFace = 4) := by
    intro i _ hm
    exact absurd hm.2 (by simp [exampleState])
  have h := play_appends_instance exampleEnv (exampleState 2 false) 101 4 true 7
    (by decide) (by decide) hnone
  exact ⟨⟨by decide, by decide, hnone⟩, h.1, h.2.2.1, h.2.2.2.2.2.2.1 rfl⟩

/-- C7: when no running instance matches the animation and remap face (255
matching any face), `stop` returns the state it was given: the pool, the
count, the strip buffer and the wire log are unchanged. -/
theorem stop_without_match_is_noop (env : Env F) (s : State F) (anim : AnimPtr)
    (remapFace : Nat)
    (hnone : ∀ i : Nat, (i : Int) < s.animationCount →
      ¬ ((s.animations i).animation = anim ∧
        (remapFace = 255 ∨ (s.animations i).remapFace = remapFace))) :
    stop env anim remapFace s = s := by
  have hfind : findFrom
      (fun inst => inst.animation == anim && (remapFace == 255 || inst.remapFace == remapFace))
      s.animations s.animationCount.toNat 0 = s.animationCount.toNat := by
    rw [findFrom_none]
    · simp
    · intro j _ hj
      have := hnone j (by omega)
      simp only [Bool.and_eq_false_imp, beq_iff_eq, Bool.or_eq_false_iff,
        beq_eq_false_iff_ne, ne_eq]
      intro h1
      constructor
      · intro h2; exact this ⟨h1, Or.inl h2⟩
      · intro h2; exact this ⟨h1, Or.inr h2⟩
  unfold stop
  simp only [hfind]
  rw [if_neg (by omega)]

/-- Witness of C7: stopping animation 50, which is not running. -/
theorem stop_without_match_is_noop_witness :
    (∀ i : Nat, (i : Int) < (exampleState 3 false).animationCount →
      ¬ (((exampleState 3 false).animations i).animation = 50 ∧
        ((255 : Nat) = 255 ∨ ((exampleState 3 false).animations i).remapFace = 255))) ∧
    stop exampleEnv 50 255 (exampleState 3 false) = exampleState 3 false := by
  have hnone : ∀ i : Nat, (i : Int) < (exampleState 3 false).animationCount →
      ¬ (((exampleState 3 false).animations i).animation = 50 ∧
        ((255 : Nat) = 255 ∨ ((exampleState 3 false).animations i).remapFace = 255)) := by
    intro i hi hm
    have h1 : (i : Int) < 3 := hi
    have h2 : i + 1 = 50 := hm.1
    omega
  exact ⟨hnone, stop_without_match_is_noop exampleEnv (exampleState 3 false) 50 255 hnone⟩

/-- C6: when some running instance matches the animation and remap face (255
matching any face), `stop` removes exactly the matching instance of lowest
index `k`: the count drops by one, slots below `k` are unchanged, each slot
from `k` to `count - 2` receives the instance that was one slot above, and the
running instances are the former ones with entry `k` erased, in the same
order. -/
theorem stop_removes_first_match (env : Env F) (s : State F) (anim : AnimPtr)
    (remapFace : Nat)
    (h : ∃ i : Nat, (i : Int) < s.animationCount ∧ (s.animations i).animation = anim ∧
      (remapFace = 255 ∨ (s.animations i).remapFace = remapFace)) :
    ∃ k : Nat, (k : Int) < s.animationCount ∧
      ((s.animations k).animation = anim ∧
        (remapFace = 255 ∨ (s.animations k).remapFace = remapFace)) ∧
      (∀ j, j < k → ¬ ((s.animations j).animation = anim ∧
        (remapFace = 255 ∨ (s.animations j).remapFace = remapFace))) ∧
      (stop env anim remapFace s).animationCount = s.animationCount - 1 ∧
      (∀ j, j < k → (stop env anim remapFace s).animations j = s.animations j) ∧
      (∀ j : Nat, k ≤ j → (j : Int) < s.animationCount - 1 →
        (stop env anim remapFace s).animations j = s.animations (j + 1)) ∧
      active (stop env anim remapFace s) = (active s).eraseIdx k := by
  obtain ⟨i, hi, ha, hr⟩ := h
  obtain ⟨k, hk⟩ : ∃ k, findFrom
      (fun inst => inst.animation == anim && (remapFace == 255 || inst.remapFace == remapFace))
      s.animations s.animationCount.toNat 0 = k := ⟨_, rfl⟩
  have hlt : k < 0 + s.animationCount.toNat := by
    rw [← hk]
    refine findFrom_some _ _ _ 0 i (Nat.zero_le _) (by omega) ?_
    rcases hr with hr | hr <;> simp [ha, hr]
  have hkc : (k : Int) < s.animationCount := by omega
  have hfound := findFrom_found
    (fun inst => inst.animation == anim && (remapFace == 255 || inst.remapFace == remapFace))
    s.animations s.animationCount.toNat 0 (by rw [hk]; exact hlt)
  rw [hk] at hfound
  simp only [Bool.and_eq_true, beq_iff_eq, Bool.or_eq_true] at hfound
  have hbefore : ∀ j, j < k → ¬ ((s.animations j).animation = anim ∧
      (remapFace = 255 ∨ (s.animations j).remapFace = remapFace)) := by
    intro j hj hm
    have := findFrom_before
      (fun inst => inst.animation == anim && (remapFace == 255 || inst.remapFace == remapFace))
      s.animations s.animationCount.toNat 0 j (Nat.zero_le _) (by rw [hk]; exact hj)
    rcases hm with ⟨hm1, hm2 | hm2⟩ <;> simp [hm1, hm2] at this
  have hstop : stop env anim remapFace s = removeAtIndex env k s := by
    unfold stop
    simp only [hk]
    rw [if_pos hkc]
  have hanim : (removeAtIndex env k s).animations =
      shiftDown (s.animationCount.toNat - 1 - k) k s.animations := by
    simp only [removeAtIndex, stopAtIndex_animations, stopAtIndex_animationCount]
    rw [show (s.animationCount - 1 - (k : Int)).toNat = s.animationCount.toNat - 1 - k
      from by omega]
  have hcount : (removeAtIndex env k s).animationCount = s.animationCount - 1 := rfl
  refine ⟨k, hkc, hfound, hbefore, ?_, ?_, ?_, ?_⟩
  · rw [hstop, hcount]
  · intro j hj
    rw [hstop, hanim, shiftDown_apply, if_neg (by omega)]
  · intro j hj1 hj2
    rw [hstop, hanim, shiftDown_apply, if_pos (by omega)]
  · unfold active
    rw [hstop, hcount, hanim]
    rw [show (s.animationCount - 1).toNat = s.animationCount.toNat - 1 from by omega]
    exact slots_shiftDown _ _ _ (by omega)

/-- Witness of C6: the wildcard face stops animation 2 in a pool of four. -/
theorem stop_removes_first_match_witness :
    (∃ i : Nat, (i : Int) < (exampleState 4 false).animationCount ∧
      ((exampleState 4 false).animations i).animation = 2 ∧
      ((255 : Nat) = 255 ∨ ((exampleState 4 false).animations i).remapFace = 255)) ∧
    ∃ k : Nat, (k : Int) < (exampleState 4 false).animationCount ∧
      (((exampleState 4 false).animations k).animation = 2 ∧
        ((255 : Nat) = 255 ∨ ((exampleState 4 false).animations k).remapFace = 255)) ∧
      (∀ j, j < k → ¬ (((exampleState 4 false).animations j).animation = 2 ∧
        ((255 : Nat) = 255 ∨ ((exampleState 4 false).animations j).remapFace = 255))) ∧
      (stop exampleEnv 2 255 (exampleState 4 false)).animationCount =
        (exampleState 4 false).animationCount - 1 ∧
      (∀ j, j < k → (stop exampleEnv 2 255 (exampleState 4 false)).animations j =
        (exampleState 4 false).animations j) ∧
      (∀ j : Nat, k ≤ j → (j : Int) < (exampleState 4 false).animationCount - 1 →
        (stop exampleEnv 2 255 (exampleState 4 false)).animations j =
          (exampleState 4 false).animations (j + 1)) ∧
      active (stop exampleEnv 2 255 (exampleState 4 false)) =
        (active (exampleState 4 false)).eraseIdx k :=
  ⟨⟨1, by decide, rfl, Or.inl rfl⟩,
    stop_removes_first_match exampleEnv (exampleState 4 false) 2 255
      ⟨1, by decide, rfl, Or.inl rfl⟩⟩

end AnimController

/-! ## The strip driver: what `show` leaves untouched -/

namespace APA102

theorem SameConfig.refl (st : Strip) : SameConfig st st :=
  ⟨rfl, rfl, rfl, rfl, rfl⟩

theorem SameConfig.trans {a b c : Strip} (h1 : SameConfig a b) (h2 : SameConfig b c) :
    SameConfig a c :=
  ⟨h2.1.trans h1.1, h2.2.1.trans h1.2.1, h2.2.2.1.trans h1.2.2.1,
    h2.2.2.2.1.trans h1.2.2.2.1, h2.2.2.2.2.trans h1.2.2.2.2⟩

theorem sameConfig_pin_set (pin : Nat) (st : Strip) : SameConfig st (nrf_gpio_pin_set pin st) :=
  ⟨rfl, rfl, rfl, rfl, rfl⟩

theorem sameConfig_pin_clear (pin : Nat) (st : Strip) :
    SameConfig st (nrf_gpio_pin_clear pin st) :=
  ⟨rfl, rfl, rfl, rfl, rfl⟩

theorem sameConfig_delay (us : Nat) (st : Strip) : SameConfig st (nrf_delay_us us st) :=
  ⟨rfl, rfl, rfl, rfl, rfl⟩

theorem sameConfig_swSpiOutLoop (i n : Nat) (st : Strip) :
    SameConfig st (swSpiOutLoop i n st) := by
  induction i generalizing n st with
  | zero => exact SameConfig.refl st
  | succ i ih =>
    simp only [swSpiOutLoop]
    refine SameConfig.trans ?_ (ih _ _)
    refine SameConfig.trans ?_ (sameConfig_delay _ _)
    refine SameConfig.trans ?_ (sameConfig_pin_clear _ _)
    refine SameConfig.trans ?_ (sameConfig_delay _ _)
    refine SameConfig.trans ?_ (sameConfig_pin_set _ _)
    split
    · exact sameConfig_pin_set _ _
    · exact sameConfig_pin_clear _ _

theorem sameConfig_swSpiOut (n : Nat) (st : Strip) : SameConfig st (swSpiOut n st) :=
  sameConfig_swSpiOutLoop 8 n st

theorem sameConfig_swSpiOutRepeat (b count : Nat) (st : Strip) :
    SameConfig st (swSpiOutRepeat b count st) := by
  induction count generalizing st with
  | zero => exact SameConfig.refl st
  | succ count ih =>
    simp only [swSpiOutRepeat]
    exact SameConfig.trans (sameConfig_swSpiOut b st) (ih _)

theorem sameConfig_showComponents (k ptr : Nat) (allOff : Bool) (st : Strip) :
    SameConfig st (showComponents k ptr allOff st).2.2 := by
  induction k generalizing ptr allOff st with
  | zero => exact SameConfig.refl st
  | succ k ih =>
    simp only [showComponents]
    exact SameConfig.trans (sameConfig_swSpiOut _ st) (ih _ _ _)

theorem showComponents_ptr (k ptr : Nat) (allOff : Bool) (st : Strip) :
    (showComponents k ptr allOff st).1 = ptr + k := by
  induction k generalizing ptr allOff st with
  | zero => rfl
  | succ k ih =>
    simp only [showComponents]
    rw [ih]
    omega

theorem showComponents_allOff (k ptr : Nat) (st : Strip)
    (hz : ∀ j, ptr ≤ j → j < ptr + k → st.pixels j = 0) :
    (showComponents k ptr true st).2.1 = true := by
  induction k generalizing ptr st with
  | zero => rfl
  | succ k ih =>
    simp only [showComponents]
    have h0 : st.pixels ptr = 0 := hz ptr (le_refl _) (by omega)
    simp only [h0, ne_eq, not_true_eq_false, if_false]
    apply ih
    intro j h1 h2
    rw [(sameConfig_swSpiOut 0 st).1]
    exact hz j (by omega) (by omega)

theorem sameConfig_showPixels (count ptr : Nat) (allOff : Bool) (st : Strip) :
    SameConfig st (showPixels count ptr allOff st).2 := by
  induction count generalizing ptr allOff st with
  | zero => exact SameConfig.refl st
  | succ count ih =>
    simp only [showPixels]
    refine SameConfig.trans (sameConfig_swSpiOut 0xFF st) ?_
    exact SameConfig.trans (sameConfig_showComponents _ _ _ _) (ih _ _ _)

theorem showPixels_allOff (count ptr : Nat) (st : Strip)
    (hz : ∀ j, ptr ≤ j → j < ptr + 3 * count → st.pixels j = 0) :
    (showPixels count ptr true st).1 = true := by
  induction count generalizing ptr st with
  | zero => rfl
  | succ count ih =>
    simp only [showPixels]
    have hc : (showComponents 3 ptr true (swSpiOut 0xFF st)).2.1 = true := by
      apply showComponents_allOff
      intro j h1 h2
      rw [(sameConfig_swSpiOut 0xFF st).1]
      exact hz j h1 (by omega)
    rw [hc, showComponents_ptr]
    apply ih
    intro j h1 h2
    rw [(sameConfig_showComponents _ _ _ _).1, (sameConfig_swSpiOut 0xFF st).1]
    exact hz j (by omega) (by omega)

theorem sameConfig_showHead (st : Strip) : SameConfig st (showHead st) :=
  SameConfig.trans (sameConfig_pin_set st.powerPin st) (sameConfig_swSpiOutRepeat 0 4 _)

theorem sameConfig_showLatch (st : Strip) : SameConfig st (showLatch st) := by
  unfold showLatch
  refine SameConfig.trans ?_ (sameConfig_pin_clear _ _)
  refine SameConfig.trans ?_ (sameConfig_pin_clear _ _)
  exact sameConfig_swSpiOutRepeat _ _ _

theorem show_eq (st : Strip) :
    show_ st =
      if (showPixels (doWhileCount (showHead st).numLEDs) 0 true (showHead st)).1 = true then
        nrf_gpio_pin_clear
          (showLatch (showPixels (doWhileCount (showHead st).numLEDs) 0 true
            (showHead st)).2).powerPin
          (showLatch (showPixels (doWhileCount (showHead st).numLEDs) 0 true (showHead st)).2)
      else showLatch (showPixels (doWhileCount (showHead st).numLEDs) 0 true (showHead st)).2 :=
  rfl

theorem sameConfig_show (st : Strip) : SameConfig st (show_ st) := by
  have h : SameConfig st
      (showLatch (showPixels (doWhileCount (showHead st).numLEDs) 0 true (showHead st)).2) :=
    SameConfig.trans (SameConfig.trans (sameConfig_showHead st)
      (sameConfig_showPixels _ _ _ _)) (sameConfig_showLatch _)
  rw [show_eq]
  split
  · exact SameConfig.trans h (sameConfig_pin_clear _ _)
  · exact h

/-- When the bytes `show` reads are all zero it finishes by clearing the power
pin. -/
theorem show_dark (st : Strip)
    (hz : ∀ j, j < 3 * doWhileCount st.numLEDs → st.pixels j = 0) :
    (show_ st).level st.powerPin = false ∧
      (show_ st).wire.getLast? = some (GpioOp.pinClear st.powerPin) := by
  have hoff : (showPixels (doWhileCount (showHead st).numLEDs) 0 true (showHead st)).1
      = true := by
    apply showPixels_allOff
    intro j _ hj
    rw [(sameConfig_showHead st).1]
    rw [(sameConfig_showHead st).2.1] at hj
    exact hz j (by omega)
  have h : SameConfig st
      (showLatch (showPixels (doWhileCount (showHead st).numLEDs) 0 true (showHead st)).2) :=
    SameConfig.trans (SameConfig.trans (sameConfig_showHead st)
      (sameConfig_showPixels _ _ _ _)) (sameConfig_showLatch _)
  rw [show_eq, if_pos hoff, h.2.2.2.2]
  simp [nrf_gpio_pin_clear]

end APA102

/-! ## `stopAll` -/

namespace AnimController

variable {F : Type}

theorem clear_pixels_zero (st : APA102.Strip) (j : Nat) (hj : j < st.numLEDs * 3) :
    (APA102.clear st).pixels j = 0 := by
  simp [APA102.clear, APA102.memsetZero, hj]

/-- C8: after `stopAll` the count is 0, every byte of the strip buffer that
belongs to an LED is 0 and `getPixelColor` returns 0 for every index, and (the
strip having at least one LED) the `show` it performs ends by clearing the
power pin, which is left low. -/
theorem stopAll_clears_pool_and_strip (s : State F) (hled : 1 ≤ s.strip.numLEDs) :
    (stopAll s).animationCount = 0 ∧
    (∀ j, j < s.strip.numLEDs * 3 → (stopAll s).strip.pixels j = 0) ∧
    (∀ n, APA102.getPixelColor n (stopAll s).strip = 0) ∧
    (stopAll s).strip.level (stopAll s).strip.powerPin = false ∧
    (stopAll s).strip.wire.getLast? = some (APA102.GpioOp.pinClear s.strip.powerPin) := by
  have hcfg := APA102.sameConfig_show (APA102.clear s.strip)
  have hpix : ∀ j, j < s.strip.numLEDs * 3 → (stopAll s).strip.pixels j = 0 := by
    intro j hj
    show (APA102.show_ (APA102.clear s.strip)).pixels j = 0
    rw [hcfg.1]
    exact clear_pixels_zero s.strip j hj
  have hnum : (stopAll s).strip.numLEDs = s.strip.numLEDs := hcfg.2.1
  have hdark := APA102.show_dark (APA102.clear s.strip) (by
    intro j hj
    apply clear_pixels_zero
    have : APA102.doWhileCount (APA102.clear s.strip).numLEDs = s.strip.numLEDs := by
      show APA102.doWhileCount s.strip.numLEDs = s.strip.numLEDs
      unfold APA102.doWhileCount
      rw [if_neg (by omega)]
    rw [this] at hj
    omega)
  refine ⟨rfl, hpix, ?_, ?_, hdark.2⟩
  · intro n
    unfold APA102.getPixelColor
    split
    · rfl
    · rename_i hn
      rw [hnum] at hn
      have h1 : APA102.OFFSET_RED = 1 := by decide
      have h2 : APA102.OFFSET_GREEN = 2 := by decide
      have h3 : APA102.OFFSET_BLUE = 0 := by decide
      simp only [h1, h2, h3]
      rw [hpix _ (by omega), hpix _ (by omega), hpix _ (by omega)]
      rfl
  · show (APA102.show_ (APA102.clear s.strip)).level
      (APA102.show_ (APA102.clear s.strip)).powerPin = false
    rw [hcfg.2.2.2.2]
    exact hdark.1

/-- Witness of C8: stopping three running animations on the one-LED strip. -/
theorem stopAll_clears_pool_and_strip_witness :
    1 ≤ (exampleState 3 false).strip.numLEDs ∧
    (stopAll (exampleState 3 false)).animationCount = 0 ∧
    (∀ n, APA102.getPixelColor n (stopAll (exampleState 3 false)).strip = 0) ∧
    (stopAll (exampleState 3 false)).strip.level
      (stopAll (exampleState 3 false)).strip.powerPin = false :=
  ⟨by decide,
    (stopAll_clears_pool_and_strip (exampleState 3 false) (by decide)).1,
    (stopAll_clears_pool_and_strip (exampleState 3 false) (by decide)).2.2.1,
    (stopAll_clears_pool_and_strip (exampleState 3 false) (by decide)).2.2.2.1⟩

end AnimController

/-! ## The instance loop of `update` -/

namespace AnimController

variable {F : Type}

theorem updateLoop_succ (env : Env F) (cri : Int) (heat : F) (ms : Int) (k i : Nat)
    (t : TickState) :
    updateLoop env cri heat ms (k + 1) i t =
      match tick env ms (t.animations i) with
      | none =>
        updateLoop env cri heat ms k i
          { t with
            animations := shiftDown (t.animationCount - 1 - i).toNat i
              (Function.update t.animations i (catchUp env ms (t.animations i)))
            animationCount := t.animationCount - 1 }
      | some a =>
        updateLoop env cri heat ms k (i + 1)
          { t with
            animations := Function.update t.animations i a
            allColors := renderInstance env cri heat a (ms - a.startTime) t.allColors
            evals := t.evals ++ [{ inst := a, animTime := ms - a.startTime }] } := by
  simp only [updateLoop, tick]
  split <;> rfl

theorem updateLoop_spec (env : Env F) (cri : Int) (heat : F) (ms : Int) (k i : Nat)
    (t : TickState) (hc : t.animationCount = ((i + k : Nat) : Int)) :
    (updateLoop env cri heat ms k i t).animationCount =
        ((i + (kept env ms (slots t.animations i k)).length : Nat) : Int) ∧
    slots (updateLoop env cri heat ms k i t).animations 0
        (i + (kept env ms (slots t.animations i k)).length) =
      slots t.animations 0 i ++ kept env ms (slots t.animations i k) ∧
    (updateLoop env cri heat ms k i t).evals =
      t.evals ++ (kept env ms (slots t.animations i k)).map
        (fun a => { inst := a, animTime := ms - a.startTime }) ∧
    (updateLoop env cri heat ms k i t).allColors =
      renderAll env cri heat ms (kept env ms (slots t.animations i k)) t.allColors := by
  induction k generalizing i t with
  | zero =>
    simp [updateLoop, slots, kept, renderAll, hc]
  | succ k ih =>
    rw [updateLoop_succ]
    cases htick : tick env ms (t.animations i) with
    | none =>
      simp only
      have hk : kept env ms (slots t.animations i (k + 1)) =
          kept env ms (slots t.animations (i + 1) k) := by
        simp [kept, slots, List.filterMap_cons, htick]
      have hshift : (t.animationCount - 1 - (i : Int)).toNat = k := by omega
      rw [hk, hshift]
      have h := ih i
        { t with
          animations := shiftDown k i
            (Function.update t.animations i (catchUp env ms (t.animations i)))
          animationCount := t.animationCount - 1 } (by simp only; omega)
      simp only at h
      have h1 : slots (shiftDown k i
          (Function.update t.animations i (catchUp env ms (t.animations i)))) i k =
          slots t.animations (i + 1) k := by
        apply slots_shift
        intro j hj
        rw [shiftDown_apply, if_pos (by omega), Function.update_noteq (by omega)]
        rw [show i + j + 1 = i + 1 + j from by omega]
      have h0 : slots (shiftDown k i
          (Function.update t.animations i (catchUp env ms (t.animations i)))) 0 i =
          slots t.animations 0 i := by
        apply slots_congr
        intro j _ hj
        rw [shiftDown_apply, if_neg (by omega), Function.update_noteq (by omega)]
      rw [h1, h0] at h
      exact h
    | some a =>
      simp only
      have hk : kept env ms (slots t.animations i (k + 1)) =
          a :: kept env ms (slots t.animations (i + 1) k) := by
        simp [kept, slots, List.filterMap_cons, htick]
      rw [hk]
      have h := ih (i + 1)
        { t with
          animations := Function.update t.animations i a
          allColors := renderInstance env cri heat a (ms - a.startTime) t.allColors
          evals := t.evals ++ [{ inst := a, animTime := ms - a.startTime }] }
        (by simp only; omega)
      simp only at h
      have h1 : slots (Function.update t.animations i a) (i + 1) k =
          slots t.animations (i + 1) k := by
        apply slots_congr
        intro j hj _
        rw [Function.update_noteq (by omega)]
      have h0 : slots (Function.update t.animations i a) 0 (i + 1) =
          slots t.animations 0 i ++ [a] := by
        rw [slots_succ_right]
        congr 1
        · apply slots_congr
          intro j _ hj
          rw [Function.update_noteq (by omega)]
        · rw [Nat.zero_add, Function.update_same]
      rw [h1, h0] at h
      refine ⟨?_, ?_, ?_, ?_⟩
      · rw [h.1]; simp only [List.length_cons]; congr 1; omega
      · rw [show i + (a :: kept env ms (slots t.animations (i + 1) k)).length =
          i + 1 + (kept env ms (slots t.animations (i + 1) k)).length from by
            simp only [List.length_cons]; omega]
        rw [h.2.1]; simp
      · rw [h.2.2.1]; simp
      · rw [h.2.2.2]; rfl

end AnimController

/-! ## What each entry point does to the running instances -/

namespace AnimController

variable {F : Type}

theorem play_cases (env : Env F) (s : State F) (anim : AnimPtr) (remapFace : Nat)
    (loop : Bool) (ms : Int) :
    (∃ k : Nat, (k : Int) < s.animationCount ∧
      play env anim remapFace loop ms s =
        { stopAtIndex env k s with
          animations := Function.update s.animations k
            { s.animations k with startTime := ms } }) ∨
    ((∀ i : Nat, (i : Int) < s.animationCount →
        ¬ ((s.animations i).animation = anim ∧ (s.animations i).remapFace = remapFace)) ∧
      s.animationCount < MAX_ANIMS ∧
      play env anim remapFace loop ms s =
        { s with
          animations := Function.update s.animations s.animationCount.toNat
            { animation := anim
              startTime := ms
              remapFace := remapFace
              loop := loop
              specialColorPayload := newPayload env s.heat anim remapFace }
          animationCount := s.animationCount + 1 }) ∨
    play env anim remapFace loop ms s = s := by
  obtain ⟨k, hk⟩ : ∃ k, findFrom
      (fun prevAnim => prevAnim.animation == anim && prevAnim.remapFace == remapFace)
      s.animations s.animationCount.toNat 0 = k := ⟨_, rfl⟩
  by_cases hkc : (k : Int) < s.animationCount
  · left
    refine ⟨k, hkc, ?_⟩
    unfold play
    simp only [hk]
    rw [if_pos hkc]
    rfl
  · right
    by_cases hroom : s.animationCount < MAX_ANIMS
    · left
      refine ⟨?_, hroom, ?_⟩
      · intro i hi hm
        have := findFrom_before
          (fun prevAnim => prevAnim.animation == anim && prevAnim.remapFace == remapFace)
          s.animations s.animationCount.toNat 0 i (Nat.zero_le _) (by rw [hk]; omega)
        simp [hm.1, hm.2] at this
      · unfold play
        simp only [hk]
        rw [if_neg hkc, if_pos hroom]
    · right
      unfold play
      simp only [hk]
      rw [if_neg hkc, if_neg hroom]

theorem stop_cases (env : Env F) (s : State F) (anim : AnimPtr) (remapFace : Nat) :
    (∃ k : Nat, (k : Int) < s.animationCount ∧
      stop env anim remapFace s = removeAtIndex env k s) ∨
    stop env anim remapFace s = s := by
  obtain ⟨k, hk⟩ : ∃ k, findFrom
      (fun inst => inst.animation == anim && (remapFace == 255 || inst.remapFace == remapFace))
      s.animations s.animationCount.toNat 0 = k := ⟨_, rfl⟩
  by_cases hkc : (k : Int) < s.animationCount
  · left
    refine ⟨k, hkc, ?_⟩
    unfold stop
    simp only [hk]
    rw [if_pos hkc]
  · right
    unfold stop
    simp only [hk]
    rw [if_neg hkc]

theorem removeAtIndex_active (env : Env F) (s : State F) (k : Nat)
    (hk : (k : Int) < s.animationCount) :
    active (removeAtIndex env k s) = (active s).eraseIdx k := by
  unfold active
  show slots (shiftDown (s.animationCount - 1 - (k : Int)).toNat k s.animations) 0
    (s.animationCount - 1).toNat = _
  rw [show (s.animationCount - 1 - (k : Int)).toNat = s.animationCount.toNat - 1 - k
    from by omega]
  rw [show (s.animationCount - 1).toNat = s.animationCount.toNat - 1 from by omega]
  exact slots_shiftDown _ _ _ (by omega)

theorem slots_map_congr {β : Type} (f : AnimInstance → β) (a b : Nat → AnimInstance)
    (i k : Nat) (h : ∀ j, i ≤ j → j < i + k → f (a j) = f (b j)) :
    (slots a i k).map f = (slots b i k).map f := by
  induction k generalizing i with
  | zero => rfl
  | succ k ih =>
    simp only [slots, List.map_cons]
    rw [h i (le_refl _) (by omega), ih (i + 1) (fun j h1 h2 => h j (by omega) (by omega))]

theorem tick_key (env : Env F) (ms : Int) (a b : AnimInstance)
    (h : tick env ms a = some b) : (b.animation, b.remapFace) = (a.animation, a.remapFace) := by
  unfold tick at h
  simp only at h
  split at h
  · exact absurd h (by simp)
  · have hb : b = catchUp env ms a := by
      simp only [Option.some.injEq] at h
      exact h.symm
    rw [hb]
    unfold catchUp
    simp only
    split <;> rfl

theorem kept_keys_sublist (env : Env F) (ms : Int) (l : List AnimInstance) :
    List.Sublist ((kept env ms l).map (fun a => (a.animation, a.remapFace)))
      (l.map (fun a => (a.animation, a.remapFace))) := by
  induction l with
  | nil => simp [kept]
  | cons a l ih =>
    unfold kept at ih ⊢
    rw [List.filterMap_cons]
    cases h : tick env ms a with
    | none =>
      simp only [List.map_cons]
      exact List.Sublist.cons _ ih
    | some b =>
      simp only [List.map_cons]
      rw [tick_key env ms a b h]
      exact List.Sublist.cons₂ _ ih

theorem kept_length_le (env : Env F) (ms : Int) (l : List AnimInstance) :
    (kept env ms l).length ≤ l.length := by
  have := (kept_keys_sublist env ms l).length_le
  simpa using this

theorem update_pool (env : Env F) (ms : Int) (stack : Nat → Nat) (s : State F) :
    active (update env ms stack s) = kept env ms (active s) ∧
    (0 ≤ s.animationCount →
      (update env ms stack s).animationCount = ((kept env ms (active s)).length : Int)) := by
  by_cases hpos : s.animationCount > 0
  · have hspec := updateLoop_spec env s.currentRainbowIndex (coolDown env s.heat) ms
      s.animationCount.toNat 0
      { animations := s.animations
        animationCount := s.animationCount
        allColors := clearedColors env stack
        evals := [] } (by simp only; omega)
    simp only [Nat.zero_add, slots, List.nil_append] at hspec
    have hupd : update env ms stack s =
        { s with
          heat := coolDown env s.heat
          animations := (updateRun env ms stack s).animations
          animationCount := (updateRun env ms stack s).animationCount
          strip := APA102.show_
            (APA102.setPixelColors (updateRun env ms stack s).allColors s.strip) } := by
      unfold update
      simp only
      rw [if_pos hpos]
    constructor
    · unfold active
      rw [hupd]
      simp only
      unfold updateRun
      rw [hspec.1]
      simp only [Int.toNat_ofNat]
      exact hspec.2.1
    · intro _
      rw [hupd]
      simp only
      unfold updateRun
      rw [hspec.1]
      rfl
  · have hupd : update env ms stack s = { s with heat := coolDown env s.heat } := by
      unfold update
      simp only
      rw [if_neg hpos]
    have hz : s.animationCount.toNat = 0 := by omega
    constructor
    · unfold active
      rw [hupd]
      simp only [hz, slots, kept, List.filterMap_nil]
    · intro h0
      rw [hupd]
      unfold active
      simp only [hz, slots, kept, List.filterMap_nil, List.length_nil]
      omega

end AnimController

/-! ## The pool invariant -/

namespace AnimController

variable {F : Type}

theorem poolInv_play (env : Env F) (s : State F) (anim : AnimPtr) (remapFace : Nat)
    (loop : Bool) (ms : Int) (h : PoolInv s) : PoolInv (play env anim remapFace loop ms s) := by
  obtain ⟨h0, h20, hnd⟩ := h
  rcases play_cases env s anim remapFace loop ms with ⟨k, _, hp⟩ | ⟨hnone, hroom, hp⟩ | hp
  · rw [hp]
    refine ⟨h0, h20, ?_⟩
    have : (active { stopAtIndex env k s with
        animations := Function.update s.animations k
          { s.animations k with startTime := ms } }).map
          (fun a => (a.animation, a.remapFace)) =
        (active s).map (fun a => (a.animation, a.remapFace)) := by
      unfold active
      apply slots_map_congr
      intro j _ _
      by_cases hj : j = k
      · subst hj; simp
      · simp [Function.update_noteq hj]
    rw [this]
    exact hnd
  · rw [hp]
    refine ⟨by simp only; omega, by simp only; omega, ?_⟩
    unfold active at hnd ⊢
    simp only
    rw [show (s.animationCount + 1).toNat = s.animationCount.toNat + 1 from by omega]
    rw [slots_succ_right, Nat.zero_add, Function.update_same]
    rw [slots_congr _ s.animations 0 _ (fun j _ hj => Function.update_noteq (by omega) _ _)]
    rw [List.map_append, List.nodup_append]
    refine ⟨hnd, by simp, ?_⟩
    intro x hx1 hx2
    simp only [List.map_cons, List.map_nil, List.mem_singleton] at hx2
    rw [List.mem_map] at hx1
    obtain ⟨b, hb, hbx⟩ := hx1
    rw [mem_slots] at hb
    obtain ⟨j, _, hj, hjb⟩ := hb
    apply hnone j (by omega)
    rw [hjb]
    rw [hx2] at hbx
    simp only [Prod.mk.injEq] at hbx
    exact hbx
  · rw [hp]
    exact ⟨h0, h20, hnd⟩

theorem poolInv_stop (env : Env F) (s : State F) (anim : AnimPtr) (remapFace : Nat)
    (h : PoolInv s) : PoolInv (stop env anim remapFace s) := by
  obtain ⟨h0, h20, hnd⟩ := h
  rcases stop_cases env s anim remapFace with ⟨k, hk, hp⟩ | hp
  · rw [hp]
    refine ⟨?_, ?_, ?_⟩
    · show 0 ≤ s.animationCount - 1
      omega
    · show s.animationCount - 1 ≤ MAX_ANIMS
      omega
    · rw [removeAtIndex_active env s k hk]
      exact hnd.sublist ((List.eraseIdx_sublist _ _).map _)
  · rw [hp]
    exact ⟨h0, h20, hnd⟩

theorem poolInv_stopAll (s : State F) : PoolInv (stopAll s) := by
  refine ⟨le_refl _, by simp [stopAll, MAX_ANIMS], ?_⟩
  simp [active, stopAll, slots]

theorem poolInv_update (env : Env F) (ms : Int) (stack : Nat → Nat) (s : State F)
    (h : PoolInv s) : PoolInv (update env ms stack s) := by
  obtain ⟨h0, h20, hnd⟩ := h
  have hp := update_pool env ms stack s
  have hlen := kept_length_le env ms (active s)
  have hal : (active s).length = s.animationCount.toNat := by
    unfold active
    rw [slots_length]
  refine ⟨?_, ?_, ?_⟩
  · rw [hp.2 h0]; omega
  · rw [hp.2 h0]; omega
  · rw [hp.1]
    exact hnd.sublist (kept_keys_sublist env ms (active s))

theorem poolInv_init (env : Env F) (s : State F) : PoolInv (init env s) := by
  refine ⟨le_refl _, by simp [init, MAX_ANIMS], ?_⟩
  simp [active, init, slots]

theorem playEvent_cases (env : Env F) (s : State F) (evt : Nat) (remapFace : Nat)
    (loop : Bool) (ms : Int) :
    (∃ anim : AnimPtr,
      playEvent env evt remapFace loop ms s = play env anim remapFace loop ms s) ∨
    playEvent env evt remapFace loop ms s = s := by
  unfold playEvent
  simp only
  split <;> split
  all_goals first | exact Or.inl ⟨_, rfl⟩ | exact Or.inr rfl

theorem poolInv_step (env : Env F) (s : State F) (op : Op F) (h : PoolInv s) :
    PoolInv (step env s op) := by
  cases op with
  | play anim remapFace loop ms => exact poolInv_play env s anim remapFace loop ms h
  | playEvent evt remapFace loop ms =>
    rcases playEvent_cases env s evt remapFace loop ms with ⟨anim, hp⟩ | hp
    · simp only [step]
      rw [hp]
      exact poolInv_play env s anim remapFace loop ms h
    · simp only [step]
      rw [hp]
      exact h
  | stop anim remapFace => exact poolInv_stop env s anim remapFace h
  | stopAll => exact poolInv_stopAll s
  | update ms stack => exact poolInv_update env ms stack s h
  | accelFrame sqrMag =>
    simp only [step, onAccelFrame]
    split
    · exact h
    · exact h

theorem poolInv_foldl (env : Env F) (ops : List (Op F)) (s : State F) (h : PoolInv s) :
    PoolInv (ops.foldl (step env) s) := by
  induction ops generalizing s with
  | nil => exact h
  | cons op ops ih => exact ih _ (poolInv_step env s op h)

theorem poolInv_run (env : Env F) (s0 : State F) (ops : List (Op F)) :
    PoolInv (run env s0 ops) :=
  poolInv_foldl env ops _ (poolInv_init env s0)

theorem nodup_slots_index {β : Type} (f : AnimInstance → β) (a : Nat → AnimInstance)
    (i k : Nat) (h : ((slots a i k).map f).Nodup) (x y : Nat)
    (hx1 : i ≤ x) (hx2 : x < i + k) (hy1 : i ≤ y) (hy2 : y < i + k)
    (hxy : f (a x) = f (a y)) : x = y := by
  induction k generalizing i with
  | zero => omega
  | succ k ih =>
    simp only [slots, List.map_cons, List.nodup_cons] at h
    obtain ⟨hni, hrest⟩ := h
    rcases Nat.eq_or_lt_of_le hx1 with hx | hx <;> rcases Nat.eq_or_lt_of_le hy1 with hy | hy
    · omega
    · exfalso
      apply hni
      rw [List.mem_map]
      refine ⟨a y, (mem_slots a (i + 1) k (a y)).2 ⟨y, hy, by omega, rfl⟩, ?_⟩
      rw [← hxy, hx]
    · exfalso
      apply hni
      rw [List.mem_map]
      refine ⟨a x, (mem_slots a (i + 1) k (a x)).2 ⟨x, hx, by omega, rfl⟩, ?_⟩
      rw [hxy, hy]
    · exact ih (i + 1) hrest hx (by omega) hy (by omega)

/-- C1: after `init` and any finite sequence of calls to `play` (either
overload), `stop`, `stopAll`, `update` and the motion callback, the count of
running animations lies between 0 and `MAX_ANIMS` (20). -/
theorem animationCount_within_capacity (env : Env F) (s0 : State F) (ops : List (Op F)) :
    0 ≤ (run env s0 ops).animationCount ∧ (run env s0 ops).animationCount ≤ 20 := by
  have h := poolInv_run env s0 ops
  exact ⟨h.1, h.2.1⟩

/-- C4: in every state reached from `init` through `play`, `stop`, `stopAll`
and `update` (and the motion callback) there are no two different slots below
`animationCount` holding the same animation and the same remap face. -/
theorem running_instances_are_distinct (env : Env F) (s0 : State F) (ops : List (Op F)) :
    ¬ ∃ i j : Nat, i ≠ j ∧
      (i : Int) < (run env s0 ops).animationCount ∧
      (j : Int) < (run env s0 ops).animationCount ∧
      ((run env s0 ops).animations i).animation = ((run env s0 ops).animations j).animation ∧
      ((run env s0 ops).animations i).remapFace = ((run env s0 ops).animations j).remapFace := by
  rintro ⟨i, j, hne, hi, hj, ha, hr⟩
  have h := (poolInv_run env s0 ops).2.2
  unfold active at h
  apply hne
  refine nodup_slots_index (fun a => (a.animation, a.remapFace)) _ 0 _ h i j
    (Nat.zero_le _) (by omega) (Nat.zero_le _) (by omega) ?_
  simp only [Prod.mk.injEq]
  exact ⟨ha, hr⟩

end AnimController

/-! ## One tick: which instances stay and what is rendered -/

namespace AnimController

variable {F : Type}

theorem update_frame (env : Env F) (ms : Int) (stack : Nat → Nat) (s : State F)
    (hpos : 0 < s.animationCount) :
    updateEvals env ms stack s =
      (kept env ms (active s)).map (fun a => { inst := a, animTime := ms - a.startTime }) ∧
    (update env ms stack s).strip =
      APA102.show_ (APA102.setPixelColors
        (renderAll env s.currentRainbowIndex (coolDown env s.heat) ms
          (kept env ms (active s)) (clearedColors env stack)) s.strip) := by
  have hspec := updateLoop_spec env s.currentRainbowIndex (coolDown env s.heat) ms
    s.animationCount.toNat 0
    { animations := s.animations
      animationCount := s.animationCount
      allColors := clearedColors env stack
      evals := [] } (by simp only; omega)
  simp only [List.nil_append] at hspec
  constructor
  · unfold updateEvals
    rw [if_pos hpos]
    unfold updateRun active
    exact hspec.2.2.1
  · unfold update
    simp only
    rw [if_pos hpos]
    simp only
    unfold updateRun active
    rw [hspec.2.2.2]

theorem updateEvals_of_idle (env : Env F) (ms : Int) (stack : Nat → Nat) (s : State F)
    (hidle : ¬ 0 < s.animationCount) : updateEvals env ms stack s = [] := by
  unfold updateEvals
  rw [if_neg hidle]

theorem tick_of_not_loop (env : Env F) (ms : Int) (a : AnimInstance) (h : a.loop = false) :
    tick env ms a =
      if ms - a.startTime ≤ (env.animAt a.animation).duration then some a else none := by
  have hc : catchUp env ms a = a := by
    unfold catchUp
    simp [h]
  unfold tick
  simp only [hc]
  by_cases hle : ms - a.startTime ≤ (env.animAt a.animation).duration
  · rw [if_neg (by omega), if_pos hle]
  · rw [if_pos (by omega), if_neg hle]

theorem kept_of_not_loop (env : Env F) (ms : Int) (l : List AnimInstance)
    (h : ∀ a ∈ l, a.loop = false) :
    kept env ms l =
      l.filter (fun a => decide (ms - a.startTime ≤ (env.animAt a.animation).duration)) := by
  induction l with
  | nil => rfl
  | cons a l ih =>
    have ha := h a (List.mem_cons_self _ _)
    have hl := ih (fun b hb => h b (List.mem_cons_of_mem _ hb))
    unfold kept at hl ⊢
    rw [List.filterMap_cons, tick_of_not_loop env ms a ha, List.filter_cons]
    by_cases hle : ms - a.startTime ≤ (env.animAt a.animation).duration
    · simp only [hle, if_true, decide_True]
      rw [hl]
    · simp only [hle, if_false, decide_False]
      rw [hl]
      rfl

theorem length_filter_split (l : List AnimInstance) (p q : AnimInstance → Bool)
    (h : ∀ a, q a = !p a) : (l.filter p).length + (l.filter q).length = l.length := by
  induction l with
  | nil => rfl
  | cons a l ih =>
    rw [List.filter_cons, List.filter_cons, h a]
    cases hp : p a <;> simp <;> omega

theorem active_length (s : State F) : (active s).length = s.animationCount.toNat := by
  unfold active
  rw [slots_length]

theorem mem_active (s : State F) (a : AnimInstance) :
    a ∈ active s ↔ ∃ i : Nat, (i : Int) < s.animationCount ∧ s.animations i = a := by
  unfold active
  rw [mem_slots]
  constructor
  · rintro ⟨j, _, h2, h3⟩
    exact ⟨j, by omega, h3⟩
  · rintro ⟨j, h1, h2⟩
    exact ⟨j, Nat.zero_le _, by omega, h2⟩

/-- C9: on a pool whose running instances are all non-looping, `update(ms)`
leaves as running instances exactly those with `ms - startTime <= duration`,
unchanged and in their original order; the count drops by exactly the number
of instances with `ms - startTime > duration`; `updateLEDs` is called for the
kept instances only, and the frame sent to the strip is rendered from the
kept instances only. -/
theorem update_retires_expired (env : Env F) (ms : Int) (stack : Nat → Nat) (s : State F)
    (hloop : ∀ i : Nat, (i : Int) < s.animationCount → (s.animations i).loop = false) :
    active (update env ms stack s) =
      (active s).filter
        (fun a => decide (ms - a.startTime ≤ (env.animAt a.animation).duration)) ∧
    (update env ms stack s).animationCount =
      s.animationCount -
        (((active s).filter
          (fun a => decide (ms - a.startTime > (env.animAt a.animation).duration))).length
          : Int) ∧
    updateEvals env ms stack s =
      ((active s).filter
        (fun a => decide (ms - a.startTime ≤ (env.animAt a.animation).duration))).map
        (fun a => { inst := a, animTime := ms - a.startTime }) ∧
    (0 < s.animationCount →
      (update env ms stack s).strip =
        APA102.show_ (APA102.setPixelColors
          (renderAll env s.currentRainbowIndex (coolDown env s.heat) ms
            ((active s).filter
              (fun a => decide (ms - a.startTime ≤ (env.animAt a.animation).duration)))
            (clearedColors env stack)) s.strip)) := by
  have hk : kept env ms (active s) = (active s).filter
      (fun a => decide (ms - a.startTime ≤ (env.animAt a.animation).duration)) := by
    apply kept_of_not_loop
    intro a ha
    obtain ⟨i, hi, hia⟩ := (mem_active s a).1 ha
    rw [← hia]
    exact hloop i hi
  have hp := update_pool env ms stack s
  rw [hk] at hp
  have hsplit := length_filter_split (active s)
    (fun a => decide (ms - a.startTime ≤ (env.animAt a.animation).duration))
    (fun a => decide (ms - a.startTime > (env.animAt a.animation).duration))
    (by intro a; by_cases h : ms - a.startTime ≤ (env.animAt a.animation).duration
        · have h2 : ¬ ms - a.startTime > (env.animAt a.animation).duration := by omega
          simp [h, h2]
        · have h2 : ms - a.startTime > (env.animAt a.animation).duration := by omega
          simp [h, h2])
  rw [active_length] at hsplit
  refine ⟨hp.1, ?_, ?_, ?_⟩
  · by_cases h0 : 0 ≤ s.animationCount
    · rw [hp.2 h0]
      omega
    · have hz : active s = [] := by
        unfold active
        rw [show s.animationCount.toNat = 0 from by omega]
        rfl
      rw [hz]
      unfold update
      simp only
      rw [if_neg (by omega)]
      simp
  · by_cases hpos : 0 < s.animationCount
    · rw [(update_frame env ms stack s hpos).1, hk]
    · rw [updateEvals_of_idle env ms stack s hpos]
      have hz : active s = [] := by
        unfold active
        rw [show s.animationCount.toNat = 0 from by omega]
        rfl
      rw [hz]
      rfl
  · intro hpos
    rw [(update_frame env ms stack s hpos).2, hk]

/-- Witness of C9: one non-looping instance of duration 500 started at time 0
is gone after the tick at time 600, and no track was evaluated. -/
theorem update_retires_expired_witness :
    (∀ i : Nat, (i : Int) < (exampleState 1 false).animationCount →
      ((exampleState 1 false).animations i).loop = false) ∧
    (update exampleEnv 600 (fun _ => 0) (exampleState 1 false)).animationCount = 0 ∧
    active (update exampleEnv 600 (fun _ => 0) (exampleState 1 false)) = [] ∧
    updateEvals exampleEnv 600 (fun _ => 0) (exampleState 1 false) = [] := by
  have h := update_retires_expired exampleEnv 600 (fun _ => 0) (exampleState 1 false)
    (fun _ _ => rfl)
  refine ⟨fun _ _ => rfl, ?_, ?_, ?_⟩
  · rw [h.2.1]; decide
  · rw [h.1]; decide
  · rw [h.2.2.1]; decide

end AnimController

/-! ## Elapsed time seen by track evaluation -/

namespace AnimController

variable {F : Type}

theorem tick_some (env : Env F) (ms : Int) (a b : AnimInstance)
    (h : tick env ms a = some b) :
    b = catchUp env ms a ∧ ms - b.startTime ≤ (env.animAt b.animation).duration := by
  unfold tick at h
  simp only at h
  split at h
  · exact absurd h (by simp)
  · rename_i hle
    simp only [Option.some.injEq] at h
    rw [← h]
    exact ⟨rfl, by omega⟩

theorem catchUp_elapsed_nonneg (env : Env F) (ms : Int) (a : AnimInstance)
    (h : a.startTime ≤ ms) : 0 ≤ ms - (catchUp env ms a).startTime := by
  unfold catchUp
  simp only
  split
  · rename_i hc
    have := hc.2
    simp only
    omega
  · omega

theorem mem_kept (env : Env F) (ms : Int) (l : List AnimInstance) (b : AnimInstance)
    (h : b ∈ kept env ms l) : ∃ a ∈ l, tick env ms a = some b := by
  unfold kept at h
  rw [List.mem_filterMap] at h
  exact h

/-- C10 (amended): on a tick whose time is not before the start time of any
running instance, every call `update` makes to `updateLEDs`, for a looping
instance in particular, passes the elapsed time `ms - startTime` of the
instance as it stays in the pool, and that time lies in `[0, duration]`, the
bound `duration` included; after the tick no running instance has a start
time later than `ms`, so the same holds on every later tick. -/
theorem elapsed_within_closed_duration (env : Env F) (ms : Int) (stack : Nat → Nat)
    (s : State F)
    (hstart : ∀ i : Nat, (i : Int) < s.animationCount → (s.animations i).startTime ≤ ms) :
    (∀ e ∈ updateEvals env ms stack s,
      e.animTime = ms - e.inst.startTime ∧ 0 ≤ e.animTime ∧
        e.animTime ≤ (env.animAt e.inst.animation).duration) ∧
    (∀ i : Nat, (i : Int) < (update env ms stack s).animationCount →
      ((update env ms stack s).animations i).startTime ≤ ms) := by
  have hkept : ∀ b ∈ kept env ms (active s),
      0 ≤ ms - b.startTime ∧ ms - b.startTime ≤ (env.animAt b.animation).duration := by
    intro b hb
    obtain ⟨a, ha, hab⟩ := mem_kept env ms _ b hb
    obtain ⟨i, hi, hia⟩ := (mem_active s a).1 ha
    have h1 := tick_some env ms a b hab
    refine ⟨?_, h1.2⟩
    rw [h1.1]
    apply catchUp_elapsed_nonneg
    rw [← hia]
    exact hstart i hi
  constructor
  · intro e he
    by_cases hpos : 0 < s.animationCount
    · rw [(update_frame env ms stack s hpos).1, List.mem_map] at he
      obtain ⟨b, hb, hbe⟩ := he
      rw [← hbe]
      exact ⟨rfl, hkept b hb⟩
    · rw [updateEvals_of_idle env ms stack s hpos] at he
      exact absurd he (List.not_mem_nil _)
  · intro i hi
    have hmem : (update env ms stack s).animations i ∈ active (update env ms stack s) :=
      (mem_active _ _).2 ⟨i, hi, rfl⟩
    rw [(update_pool env ms stack s).1] at hmem
    have := (hkept _ hmem).1
    omega

/-- Witness of C10 (amended): a looping instance of duration 500 started at
time 0, ticked at time 700. -/
theorem elapsed_within_closed_duration_witness :
    (∀ i : Nat, (i : Int) < (exampleState 1 true).animationCount →
      ((exampleState 1 true).animations i).startTime ≤ 700) ∧
    (∀ e ∈ updateEvals exampleEnv 700 (fun _ => 0) (exampleState 1 true),
      e.animTime = 700 - e.inst.startTime ∧ 0 ≤ e.animTime ∧
        e.animTime ≤ (exampleEnv.animAt e.inst.animation).duration) ∧
    updateEvals exampleEnv 700 (fun _ => 0) (exampleState 1 true) =
      [{ inst := { animation := 1, specialColorPayload := 0, startTime := 500,
                   remapFace := 0, loop := true },
         animTime := 200 }] :=
  ⟨fun _ _ => (by decide : (0 : Int) ≤ 700),
    (elapsed_within_closed_duration exampleEnv 700 (fun _ => 0) (exampleState 1 true)
      (fun _ _ => (by decide : (0 : Int) ≤ 700))).1,
    by decide⟩

/-- Counterexample to C10 as stated: a looping instance of duration 500
started at time 0 and ticked at time 500 has its tracks evaluated at elapsed
time 500, which is not below its duration. -/
theorem elapsed_can_equal_duration :
    ¬ (∀ e ∈ updateEvals exampleEnv 500 (fun _ => 0) (exampleState 1 true),
      e.inst.loop = true →
        0 ≤ e.animTime ∧ e.animTime < (exampleEnv.animAt e.inst.animation).duration) := by
  decide

end AnimController

/-! ## The idle tick, out-of-range pixels, and the gamma table -/

namespace AnimController

variable {F : Type}

/-- C12: with no running animation (`animationCount = 0`) `update` changes
only the heat: the result is the state it was given with the heat cooled
down, so the pool, the count, the strip buffer, the pin levels and the wire
log are unchanged and nothing is sent to the strip. -/
theorem update_idle_changes_heat_only (env : Env F) (ms : Int) (stack : Nat → Nat)
    (s : State F) (hidle : s.animationCount = 0) :
    update env ms stack s = { s with heat := coolDown env s.heat } ∧
    (update env ms stack s).animations = s.animations ∧
    (update env ms stack s).animationCount = s.animationCount ∧
    (update env ms stack s).strip = s.strip ∧
    updateEvals env ms stack s = [] := by
  have hupd : update env ms stack s = { s with heat := coolDown env s.heat } := by
    unfold update
    simp only
    rw [if_neg (by omega)]
  refine ⟨hupd, ?_, ?_, ?_, ?_⟩
  · rw [hupd]
  · rw [hupd]
  · rw [hupd]
  · exact updateEvals_of_idle env ms stack s (by omega)

/-- Witness of C12: a tick on the empty pool. -/
theorem update_idle_changes_heat_only_witness :
    (exampleState 0 false).animationCount = 0 ∧
    (update exampleEnv 33 (fun _ => 9) (exampleState 0 false)).strip =
      (exampleState 0 false).strip ∧
    (update exampleEnv 33 (fun _ => 9) (exampleState 0 false)).animationCount = 0 :=
  ⟨rfl,
    (update_idle_changes_heat_only exampleEnv 33 (fun _ => 9) (exampleState 0 false) rfl).2.2.2.1,
    (update_idle_changes_heat_only exampleEnv 33 (fun _ => 9) (exampleState 0 false) rfl).2.2.1⟩

end AnimController

namespace APA102

/-- C19: for an index `n >= numLEDs`, both overloads of `setPixelColor` return
the driver state unchanged (so the whole pixel buffer is unchanged) and
`getPixelColor(n)` is 0. -/
theorem out_of_range_pixel_ignored (st : Strip) (n : Nat) (hn : st.numLEDs ≤ n)
    (c r g b : Nat) :
    setPixelColor n c st = st ∧ setPixelColorRGB n r g b st = st ∧
      (setPixelColor n c st).pixels = st.pixels ∧
      (setPixelColorRGB n r g b st).pixels = st.pixels ∧
      getPixelColor n st = 0 := by
  have h1 : setPixelColor n c st = st := by
    unfold setPixelColor
    rw [if_neg (by omega)]
  have h2 : setPixelColorRGB n r g b st = st := by
    unfold setPixelColorRGB
    rw [if_neg (by omega)]
  refine ⟨h1, h2, by rw [h1], by rw [h2], ?_⟩
  unfold getPixelColor
  rw [if_pos hn]

/-- Witness of C19: index 1 on the one-LED strip. -/
theorem out_of_range_pixel_ignored_witness :
    AnimController.exampleStrip.numLEDs ≤ 1 ∧
    (setPixelColor 1 0xFFFFFF AnimController.exampleStrip).pixels =
      AnimController.exampleStrip.pixels ∧
    getPixelColor 1 AnimController.exampleStrip = 0 :=
  ⟨by decide,
    (out_of_range_pixel_ignored AnimController.exampleStrip 1 (by decide)
      0xFFFFFF 1 2 3).2.2.1,
    (out_of_range_pixel_ignored AnimController.exampleStrip 1 (by decide)
      0xFFFFFF 1 2 3).2.2.2.2⟩

end APA102

/-- C15: the gamma table has 256 entries, is non-decreasing
(`gamma8(x) <= gamma8(x + 1)` for every `x < 255`), starts at
`gamma8(0) = 0` and ends at `gamma8(255) = 255`. -/
theorem gamma8_monotone :
    _gammaTable.length = 256 ∧
    (∀ x : Fin 255, gamma8 x.val ≤ gamma8 (x.val + 1)) ∧
    gamma8 0 = 0 ∧ gamma8 255 = 255 := by
  refine ⟨?_, ?_, ?_, ?_⟩
  · set_option maxRecDepth 100000 in decide
  · set_option maxRecDepth 100000 in decide
  · set_option maxRecDepth 100000 in decide
  · set_option maxRecDepth 100000 in decide

/-! ## Where an instance that stays ends up -/

namespace AnimController

variable {F : Type}

theorem slots_eq_append_cons (f : Nat → AnimInstance) (n : Nat) (l1 l2 : List AnimInstance)
    (b : AnimInstance) (h : slots f 0 n = l1 ++ b :: l2) :
    f l1.length = b ∧ l1.length < n := by
  have hlen : n = l1.length + (l2.length + 1) := by
    have := congrArg List.length h
    rw [slots_length] at this
    simpa using this
  rw [hlen, slots_add] at h
  have h2 := (List.append_inj h (by rw [slots_length])).2
  simp only [Nat.zero_add, slots, List.cons.injEq] at h2
  exact ⟨h2.1, by omega⟩

theorem active_split (s : State F) (i : Nat) (hi : (i : Int) < s.animationCount) :
    active s = slots s.animations 0 i ++
      s.animations i :: slots s.animations (i + 1) (s.animationCount.toNat - i - 1) := by
  unfold active
  have hn : s.animationCount.toNat = i + ((s.animationCount.toNat - i - 1) + 1) := by omega
  generalize s.animationCount.toNat - i - 1 = m at hn
  rw [hn, slots_add]
  simp only [Nat.zero_add, slots]

theorem update_slot_of_tick (env : Env F) (ms : Int) (stack : Nat → Nat) (s : State F)
    (i : Nat) (hi : (i : Int) < s.animationCount) (b : AnimInstance)
    (htick : tick env ms (s.animations i) = some b) :
    ∃ j : Nat, j ≤ i ∧ (j : Int) < (update env ms stack s).animationCount ∧
      (update env ms stack s).animations j = b ∧
      ({ inst := b, animTime := ms - b.startTime } : TrackEval) ∈
        updateEvals env ms stack s := by
  have hk : kept env ms (active s) =
      kept env ms (slots s.animations 0 i) ++
        b :: kept env ms (slots s.animations (i + 1) (s.animationCount.toNat - i - 1)) := by
    rw [active_split s i hi]
    unfold kept
    rw [List.filterMap_append, List.filterMap_cons, htick]
  have hact := (update_pool env ms stack s).1
  rw [hk] at hact
  unfold active at hact
  have hslot := slots_eq_append_cons _ _ _ _ _ hact
  have hle := kept_length_le env ms (slots s.animations 0 i)
  rw [slots_length] at hle
  refine ⟨_, hle, by omega, hslot.1, ?_⟩
  rw [(update_frame env ms stack s (by omega)).1, hk]
  exact List.mem_map.2 ⟨b, by simp, rfl⟩

end AnimController

/-! ## Bit-level output of `swSpiOut` -/

namespace APA102

theorem wire_swSpiOutLoop (i n : Nat) (st : Strip) :
    (swSpiOutLoop i n st).wire =
      st.wire ++ (shiftedBits i n).flatMap (bitOps st.dataPin st.clockPin) := by
  induction i generalizing n st with
  | zero => simp [swSpiOutLoop, shiftedBits]
  | succ i ih =>
    simp only [swSpiOutLoop, shiftedBits, List.flatMap_cons]
    rw [ih]
    by_cases hbit : n &&& 0x80 ≠ 0
    · simp [hbit, bitOps, nrf_gpio_pin_set, nrf_gpio_pin_clear, nrf_delay_us]
    · simp [hbit, bitOps, nrf_gpio_pin_set, nrf_gpio_pin_clear, nrf_delay_us]

theorem wire_swSpiOut (b : Nat) (st : Strip) :
    (swSpiOut b st).wire = st.wire ++ byteOps st.dataPin st.clockPin b :=
  wire_swSpiOutLoop 8 b st

theorem shiftedBits_msb_first :
    ∀ b : Fin 256, shiftedBits 8 b.val =
      [decide (b.val / 128 % 2 = 1), decide (b.val / 64 % 2 = 1),
        decide (b.val / 32 % 2 = 1), decide (b.val / 16 % 2 = 1),
        decide (b.val / 8 % 2 = 1), decide (b.val / 4 % 2 = 1),
        decide (b.val / 2 % 2 = 1), decide (b.val % 2 = 1)] := by
  set_option maxRecDepth 100000 in decide

/-- C18: for every byte `b`, `swSpiOut(b)` appends to the wire log exactly
eight groups of calls, the `k`-th (k = 0..7) being: the data pin set when bit
`7 - k` of `b` is 1 and cleared when it is 0, then the clock pin set (rising
edge), a 1 us delay, the clock pin cleared, a 1 us delay.  So there are
exactly eight clock pulses, the data line is driven before each rising edge,
and the bits go out most significant first. -/
theorem swSpiOut_msb_first (st : Strip) (b : Nat) (hb : b < 256) :
    (swSpiOut b st).wire =
      st.wire ++ (List.range 8).flatMap (fun k =>
        [if b / 2 ^ (7 - k) % 2 = 1 then GpioOp.pinSet st.dataPin
          else GpioOp.pinClear st.dataPin,
         GpioOp.pinSet st.clockPin, GpioOp.delayUs 1,
         GpioOp.pinClear st.clockPin, GpioOp.delayUs 1]) := by
  rw [wire_swSpiOut]
  have h := shiftedBits_msb_first ⟨b, hb⟩
  simp only at h
  unfold byteOps
  rw [h]
  simp [List.range, List.range.loop, bitOps]

/-- Witness of C18: the byte `0xA5` on the example strip. -/
theorem swSpiOut_msb_first_witness :
    (0xA5 : Nat) < 256 ∧
    (swSpiOut 0xA5 AnimController.exampleStrip).wire =
      AnimController.exampleStrip.wire ++ (List.range 8).flatMap (fun k =>
        [if 0xA5 / 2 ^ (7 - k) % 2 = 1 then GpioOp.pinSet AnimController.exampleStrip.dataPin
          else GpioOp.pinClear AnimController.exampleStrip.dataPin,
         GpioOp.pinSet AnimController.exampleStrip.clockPin, GpioOp.delayUs 1,
         GpioOp.pinClear AnimController.exampleStrip.clockPin, GpioOp.delayUs 1]) :=
  ⟨by decide, swSpiOut_msb_first AnimController.exampleStrip 0xA5 (by decide)⟩

end APA102

/-! ## The frame `show` sends -/

namespace APA102

theorem wire_swSpiOutRepeat (b count : Nat) (st : Strip) :
    (swSpiOutRepeat b count st).wire =
      st.wire ++ (List.replicate count b).flatMap (byteOps st.dataPin st.clockPin) := by
  induction count generalizing st with
  | zero => simp [swSpiOutRepeat]
  | succ count ih =>
    simp only [swSpiOutRepeat, List.replicate_succ, List.flatMap_cons]
    rw [ih, wire_swSpiOut, (sameConfig_swSpiOut b st).2.2.1,
      (sameConfig_swSpiOut b st).2.2.2.1, List.append_assoc]

theorem wire_showComponents3 (ptr : Nat) (allOff : Bool) (st : Strip) :
    (showComponents 3 ptr allOff st).2.2.wire =
      st.wire ++ [st.pixels ptr, st.pixels (ptr + 1), st.pixels (ptr + 2)].flatMap
        (byteOps st.dataPin st.clockPin) := by
  have h1 := sameConfig_swSpiOut (st.pixels ptr) st
  have h2 := sameConfig_swSpiOut ((swSpiOut (st.pixels ptr) st).pixels (ptr + 1))
    (swSpiOut (st.pixels ptr) st)
  simp only [showComponents, wire_swSpiOut, List.flatMap_cons, List.flatMap_nil,
    List.append_nil, List.append_assoc]
  rw [h2.1, h2.2.2.1, h2.2.2.2.1, h1.1, h1.2.2.1, h1.2.2.2.1]

theorem wire_showPixels (count ptr : Nat) (allOff : Bool) (st : Strip) :
    (showPixels count ptr allOff st).2.wire =
      st.wire ++ (ledBytes st.pixels count ptr).flatMap (byteOps st.dataPin st.clockPin) := by
  induction count generalizing ptr allOff st with
  | zero => simp [showPixels, ledBytes]
  | succ count ih =>
    have h1 := sameConfig_swSpiOut 0xFF st
    have h2 := sameConfig_showComponents 3 ptr allOff (swSpiOut 0xFF st)
    simp only [showPixels, ledBytes, List.flatMap_cons]
    rw [ih, wire_showComponents3, wire_swSpiOut, showComponents_ptr]
    rw [h2.1, h2.2.2.1, h2.2.2.2.1, h1.1, h1.2.2.1, h1.2.2.2.1]
    simp only [List.flatMap_cons, List.flatMap_nil, List.append_nil, List.append_assoc]

theorem ledBytes_eq_flatMap (pixels : Nat → Nat) (count ptr : Nat) :
    ledBytes pixels count ptr =
      (List.range count).flatMap (fun i =>
        [0xFF, pixels (ptr + 3 * i), pixels (ptr + 3 * i + 1), pixels (ptr + 3 * i + 2)]) := by
  induction count generalizing ptr with
  | zero => rfl
  | succ count ih =>
    rw [List.range_succ_eq_map, List.flatMap_cons, List.flatMap_map, ledBytes, ih]
    simp only [Nat.mul_zero, Nat.add_zero, List.cons_append, List.nil_append, List.cons.injEq,
      true_and]
    apply List.flatMap_congr
    intro i _
    simp only [Nat.succ_eq_add_one, List.cons.injEq, true_and, and_true]
    refine ⟨?_, ?_, ?_⟩ <;> congr 1 <;> omega

theorem showPixels_allOff_iff (count ptr : Nat) (allOff : Bool) (st : Strip) :
    (showPixels count ptr allOff st).1 = true ↔
      allOff = true ∧ ∀ j, ptr ≤ j → j < ptr + 3 * count → st.pixels j = 0 := by
  induction count generalizing ptr allOff st with
  | zero =>
    simp only [showPixels, Nat.mul_zero, Nat.add_zero]
    constructor
    · intro h
      exact ⟨h, fun j h1 h2 => absurd h2 (by omega)⟩
    · exact fun h => h.1
  | succ count ih =>
    have h1 := sameConfig_swSpiOut 0xFF st
    have h2 := sameConfig_swSpiOut (st.pixels ptr) (swSpiOut 0xFF st)
    have h3 := sameConfig_swSpiOut (st.pixels (ptr + 1))
      (swSpiOut (st.pixels ptr) (swSpiOut 0xFF st))
    have h4 := sameConfig_swSpiOut (st.pixels (ptr + 2))
      (swSpiOut (st.pixels (ptr + 1)) (swSpiOut (st.pixels ptr) (swSpiOut 0xFF st)))
    simp only [showPixels, showComponents]
    rw [ih]
    simp only [h1.1, h2.1, h3.1, h4.1]
    constructor
    · rintro ⟨ha, hz⟩
      by_cases p0 : st.pixels ptr = 0
      · by_cases p1 : st.pixels (ptr + 1) = 0
        · by_cases p2 : st.pixels (ptr + 1 + 1) = 0
          · simp only [p0, p1, p2, ne_eq, not_true_eq_false, if_false] at ha
            refine ⟨ha, ?_⟩
            intro j hj1 hj2
            by_cases hj : j < ptr + 3
            · have : j = ptr ∨ j = ptr + 1 ∨ j = ptr + 1 + 1 := by omega
              rcases this with h | h | h <;> rw [h] <;> assumption
            · exact hz j (by omega) (by omega)
          · simp [p2] at ha
        · simp [p1] at ha
      · simp [p0] at ha
    · rintro ⟨ha, hz⟩
      have p0 : st.pixels ptr = 0 := hz _ (by omega) (by omega)
      have p1 : st.pixels (ptr + 1) = 0 := hz _ (by omega) (by omega)
      have p2 : st.pixels (ptr + 1 + 1) = 0 := hz _ (by omega) (by omega)
      simp only [p0, p1, p2, ne_eq, not_true_eq_false, if_false]
      exact ⟨ha, fun j hj1 hj2 => hz j (by omega) (by omega)⟩

end APA102

namespace APA102

theorem ledBytes_length (pixels : Nat → Nat) (count ptr : Nat) :
    (ledBytes pixels count ptr).length = 4 * count := by
  induction count generalizing ptr with
  | zero => rfl
  | succ count ih =>
    simp only [ledBytes, List.length_cons, ih]
    omega

theorem frameBytes_eq (n : Nat) (pixels : Nat → Nat) :
    frameBytes n pixels =
      List.replicate 4 0 ++ ledBytes pixels n 0 ++ List.replicate ((n + 15) / 16) 0xFF := by
  unfold frameBytes
  rw [ledBytes_eq_flatMap]
  simp only [Nat.zero_add]
  rfl

theorem doWhileCount_pos (n : Nat) (hn : 1 ≤ n) : doWhileCount n = n := by
  unfold doWhileCount
  rw [if_neg (by omega)]

theorem wire_showHead (st : Strip) :
    (showHead st).wire =
      st.wire ++ [GpioOp.pinSet st.powerPin] ++
        (List.replicate 4 0).flatMap (byteOps st.dataPin st.clockPin) := by
  unfold showHead
  rw [wire_swSpiOutRepeat]
  rfl

theorem wire_showLatch (st : Strip) :
    (showLatch st).wire =
      st.wire ++
        (List.replicate ((st.numLEDs + 15) / 16) 0xFF).flatMap
          (byteOps st.dataPin st.clockPin) ++
        [GpioOp.pinClear st.dataPin, GpioOp.pinClear st.clockPin] := by
  have h := sameConfig_swSpiOutRepeat 0xFF ((st.numLEDs + 15) / 16) st
  unfold showLatch
  simp only [nrf_gpio_pin_clear, wire_swSpiOutRepeat, h.2.2.1, h.2.2.2.1, List.append_assoc,
    List.singleton_append]

theorem show_allOff_iff (st : Strip) (hn : 1 ≤ st.numLEDs) :
    (showPixels (doWhileCount (showHead st).numLEDs) 0 true (showHead st)).1 = true ↔
      ∀ j, j < 3 * st.numLEDs → st.pixels j = 0 := by
  have hh := sameConfig_showHead st
  rw [showPixels_allOff_iff, hh.1, hh.2.1, doWhileCount_pos _ hn]
  constructor
  · intro h j hj
    exact h.2 j (Nat.zero_le _) (by omega)
  · intro h
    exact ⟨rfl, fun j _ hj => h j (by omega)⟩

/-- C16: for a strip of `n >= 1` LEDs and any pixel buffer, the calls `show`
adds to the wire log are exactly: the power pin set; the transmission, byte
after byte, of four bytes `0x00`, then for each LED `i = 0 .. n - 1` the byte
`0xFF` followed by buffer bytes `3i`, `3i + 1`, `3i + 2`, then `ceil(n / 16)`
bytes `0xFF`; the data and clock pins cleared; and the power pin cleared when
all `3n` bytes are zero.  That is `4 + 4n + ceil(n / 16)` bytes, and the pixel
buffer is unchanged. -/
theorem show_sends_frame (st : Strip) (hn : 1 ≤ st.numLEDs) :
    (show_ st).wire =
      st.wire ++ [GpioOp.pinSet st.powerPin] ++
        (frameBytes st.numLEDs st.pixels).flatMap (byteOps st.dataPin st.clockPin) ++
        [GpioOp.pinClear st.dataPin, GpioOp.pinClear st.clockPin] ++
        (if ∀ j, j < 3 * st.numLEDs → st.pixels j = 0 then [GpioOp.pinClear st.powerPin]
          else []) ∧
    (frameBytes st.numLEDs st.pixels).length =
      4 + 4 * st.numLEDs + (st.numLEDs + 15) / 16 ∧
    (show_ st).pixels = st.pixels := by
  have hh := sameConfig_showHead st
  have hp := SameConfig.trans hh
    (sameConfig_showPixels (doWhileCount (showHead st).numLEDs) 0 true (showHead st))
  have hl := SameConfig.trans hp (sameConfig_showLatch _)
  have hwire : (showLatch (showPixels (doWhileCount (showHead st).numLEDs) 0 true
      (showHead st)).2).wire =
      st.wire ++ [GpioOp.pinSet st.powerPin] ++
        (frameBytes st.numLEDs st.pixels).flatMap (byteOps st.dataPin st.clockPin) ++
        [GpioOp.pinClear st.dataPin, GpioOp.pinClear st.clockPin] := by
    rw [wire_showLatch, wire_showPixels, wire_showHead, frameBytes_eq]
    rw [hp.2.1, hp.2.2.1, hp.2.2.2.1, hh.1, hh.2.1, hh.2.2.1, hh.2.2.2.1,
      doWhileCount_pos _ hn]
    simp only [List.flatMap_append, List.append_assoc]
  refine ⟨?_, ?_, (sameConfig_show st).1⟩
  · rw [show_eq]
    by_cases hz : ∀ j, j < 3 * st.numLEDs → st.pixels j = 0
    · rw [if_pos ((show_allOff_iff st hn).2 hz), if_pos hz]
      simp only [nrf_gpio_pin_clear]
      rw [hwire, hl.2.2.2.2]
    · rw [if_neg (fun h => hz ((show_allOff_iff st hn).1 h)), if_neg hz, hwire]
      simp
  · rw [frameBytes_eq]
    simp only [List.length_append, List.length_replicate, ledBytes_length]

/-- Witness of C16: the one-LED example strip. -/
theorem show_sends_frame_witness :
    1 ≤ AnimController.exampleStrip.numLEDs ∧
    (frameBytes AnimController.exampleStrip.numLEDs AnimController.exampleStrip.pixels).length =
      4 + 4 * AnimController.exampleStrip.numLEDs +
        (AnimController.exampleStrip.numLEDs + 15) / 16 ∧
    (show_ AnimController.exampleStrip).pixels = AnimController.exampleStrip.pixels :=
  ⟨by decide, (show_sends_frame AnimController.exampleStrip (by decide)).2⟩

end APA102

/-! ## Pin levels after `show` -/

namespace APA102

theorem level_swSpiOutLoop_other (p i n : Nat) (st : Strip) (hd : p ≠ st.dataPin)
    (hc : p ≠ st.clockPin) : (swSpiOutLoop i n st).level p = st.level p := by
  induction i generalizing n st with
  | zero => rfl
  | succ i ih =>
    simp only [swSpiOutLoop]
    rw [ih]
    · by_cases hbit : n &&& 0x80 ≠ 0
      · simp [hbit, nrf_gpio_pin_set, nrf_gpio_pin_clear, nrf_delay_us,
          Function.update_noteq hd, Function.update_noteq hc]
      · simp [hbit, nrf_gpio_pin_set, nrf_gpio_pin_clear, nrf_delay_us,
          Function.update_noteq hd, Function.update_noteq hc]
    · by_cases hbit : n &&& 0x80 ≠ 0
      · simpa [hbit, nrf_gpio_pin_set, nrf_gpio_pin_clear, nrf_delay_us] using hd
      · simpa [hbit, nrf_gpio_pin_set, nrf_gpio_pin_clear, nrf_delay_us] using hd
    · by_cases hbit : n &&& 0x80 ≠ 0
      · simpa [hbit, nrf_gpio_pin_set, nrf_gpio_pin_clear, nrf_delay_us] using hc
      · simpa [hbit, nrf_gpio_pin_set, nrf_gpio_pin_clear, nrf_delay_us] using hc

theorem level_swSpiOut_other (p b : Nat) (st : Strip) (hd : p ≠ st.dataPin)
    (hc : p ≠ st.clockPin) : (swSpiOut b st).level p = st.level p :=
  level_swSpiOutLoop_other p 8 b st hd hc

theorem level_swSpiOutRepeat_other (p b count : Nat) (st : Strip) (hd : p ≠ st.dataPin)
    (hc : p ≠ st.clockPin) : (swSpiOutRepeat b count st).level p = st.level p := by
  induction count generalizing st with
  | zero => rfl
  | succ count ih =>
    have h := sameConfig_swSpiOut b st
    simp only [swSpiOutRepeat]
    rw [ih _ (by rw [h.2.2.1]; exact hd) (by rw [h.2.2.2.1]; exact hc)]
    exact level_swSpiOut_other p b st hd hc

theorem level_showComponents_other (p k ptr : Nat) (allOff : Bool) (st : Strip)
    (hd : p ≠ st.dataPin) (hc : p ≠ st.clockPin) :
    (showComponents k ptr allOff st).2.2.level p = st.level p := by
  induction k generalizing ptr allOff st with
  | zero => rfl
  | succ k ih =>
    have h := sameConfig_swSpiOut (st.pixels ptr) st
    simp only [showComponents]
    rw [ih _ _ _ (by rw [h.2.2.1]; exact hd) (by rw [h.2.2.2.1]; exact hc)]
    exact level_swSpiOut_other p _ st hd hc

theorem level_showPixels_other (p count ptr : Nat) (allOff : Bool) (st : Strip)
    (hd : p ≠ st.dataPin) (hc : p ≠ st.clockPin) :
    (showPixels count ptr allOff st).2.level p = st.level p := by
  induction count generalizing ptr allOff st with
  | zero => rfl
  | succ count ih =>
    have h1 := sameConfig_swSpiOut 0xFF st
    have h2 := SameConfig.trans h1 (sameConfig_showComponents 3 ptr allOff (swSpiOut 0xFF st))
    simp only [showPixels]
    rw [ih _ _ _ (by rw [h2.2.2.1]; exact hd) (by rw [h2.2.2.2.1]; exact hc)]
    rw [level_showComponents_other p 3 ptr allOff _ (by rw [h1.2.2.1]; exact hd)
      (by rw [h1.2.2.2.1]; exact hc)]
    exact level_swSpiOut_other p _ st hd hc

theorem level_pin_clear_self (p : Nat) (st : Strip) :
    (nrf_gpio_pin_clear p st).level p = false := by
  simp [nrf_gpio_pin_clear]

theorem level_pin_clear_of_low (p q : Nat) (st : Strip) (h : st.level p = false) :
    (nrf_gpio_pin_clear q st).level p = false := by
  by_cases hpq : p = q
  · subst hpq; exact level_pin_clear_self p st
  · simp [nrf_gpio_pin_clear, Function.update_noteq hpq, h]

theorem level_showLatch_lines (st : Strip) :
    (showLatch st).level st.dataPin = false ∧ (showLatch st).level st.clockPin = false := by
  have h := sameConfig_swSpiOutRepeat 0xFF ((st.numLEDs + 15) / 16) st
  unfold showLatch
  simp only
  constructor
  · apply level_pin_clear_of_low
    rw [← h.2.2.1]
    exact level_pin_clear_self _ _
  · have : (nrf_gpio_pin_clear (swSpiOutRepeat 0xFF ((st.numLEDs + 15) / 16) st).dataPin
        (swSpiOutRepeat 0xFF ((st.numLEDs + 15) / 16) st)).clockPin = st.clockPin := h.2.2.2.1
    rw [this]
    exact level_pin_clear_self _ _

theorem level_showLatch_other (p : Nat) (st : Strip) (hd : p ≠ st.dataPin)
    (hc : p ≠ st.clockPin) : (showLatch st).level p = st.level p := by
  have h := sameConfig_swSpiOutRepeat 0xFF ((st.numLEDs + 15) / 16) st
  unfold showLatch
  simp only [nrf_gpio_pin_clear]
  rw [Function.update_noteq (by rw [h.2.2.2.1]; exact hc),
    Function.update_noteq (by rw [h.2.2.1]; exact hd)]
  exact level_swSpiOutRepeat_other p _ _ st hd hc

/-- C17: for a strip of `n >= 1` LEDs whose power pin is a different pin from
its data and clock pins, after `show` the power pin is low if and only if all
`3n` bytes of the pixel buffer are zero; when some byte is non-zero the power
pin is high.  In both cases the data and the clock pin are low. -/
theorem show_power_follows_buffer (st : Strip) (hn : 1 ≤ st.numLEDs)
    (hpd : st.powerPin ≠ st.dataPin) (hpc : st.powerPin ≠ st.clockPin) :
    ((show_ st).level st.powerPin = false ↔ ∀ j, j < 3 * st.numLEDs → st.pixels j = 0) ∧
    ((∃ j, j < 3 * st.numLEDs ∧ st.pixels j ≠ 0) → (show_ st).level st.powerPin = true) ∧
    (show_ st).level st.dataPin = false ∧ (show_ st).level st.clockPin = false := by
  have hh := sameConfig_showHead st
  have hp := SameConfig.trans hh
    (sameConfig_showPixels (doWhileCount (showHead st).numLEDs) 0 true (showHead st))
  have hlines := level_showLatch_lines
    (showPixels (doWhileCount (showHead st).numLEDs) 0 true (showHead st)).2
  rw [hp.2.2.1, hp.2.2.2.1] at hlines
  have hhigh : (showLatch (showPixels (doWhileCount (showHead st).numLEDs) 0 true
      (showHead st)).2).level st.powerPin = true := by
    rw [level_showLatch_other _ _ (by rw [hp.2.2.1]; exact hpd) (by rw [hp.2.2.2.1]; exact hpc)]
    rw [level_showPixels_other _ _ _ _ _ (by rw [hh.2.2.1]; exact hpd)
      (by rw [hh.2.2.2.1]; exact hpc)]
    unfold showHead
    rw [level_swSpiOutRepeat_other st.powerPin 0 4 (nrf_gpio_pin_set st.powerPin st) hpd hpc]
    simp [nrf_gpio_pin_set]
  have hdark : (∀ j, j < 3 * st.numLEDs → st.pixels j = 0) →
      (show_ st).level st.powerPin = false := by
    intro hz
    exact (show_dark st (by rw [doWhileCount_pos _ hn]; exact hz)).1
  have hlit : ¬ (∀ j, j < 3 * st.numLEDs → st.pixels j = 0) →
      (show_ st).level st.powerPin = true := by
    intro hz
    rw [show_eq, if_neg (fun h => hz ((show_allOff_iff st hn).1 h))]
    exact hhigh
  refine ⟨⟨?_, hdark⟩, ?_, ?_, ?_⟩
  · intro hlow
    by_contra hz
    rw [hlit hz] at hlow
    exact absurd hlow (by simp)
  · rintro ⟨j, hj, hne⟩
    exact hlit (fun hz => hne (hz j hj))
  · rw [show_eq]
    split
    · exact level_pin_clear_of_low _ _ _ hlines.1
    · exact hlines.1
  · rw [show_eq]
    split
    · exact level_pin_clear_of_low _ _ _ hlines.2
    · exact hlines.2

/-- Witness of C17: the dark one-LED example strip (pins 0, 1, 2). -/
theorem show_power_follows_buffer_witness :
    1 ≤ AnimController.exampleStrip.numLEDs ∧
    AnimController.exampleStrip.powerPin ≠ AnimController.exampleStrip.dataPin ∧
    AnimController.exampleStrip.powerPin ≠ AnimController.exampleStrip.clockPin ∧
    ((show_ AnimController.exampleStrip).level AnimController.exampleStrip.powerPin = false ↔
      ∀ j, j < 3 * AnimController.exampleStrip.numLEDs →
        AnimController.exampleStrip.pixels j = 0) ∧
    (show_ AnimController.exampleStrip).level AnimController.exampleStrip.dataPin = false ∧
    (show_ AnimController.exampleStrip).level AnimController.exampleStrip.clockPin = false :=
  ⟨by decide, by decide, by decide,
    (show_power_follows_buffer AnimController.exampleStrip (by decide) (by decide)
      (by decide)).1,
    (show_power_follows_buffer AnimController.exampleStrip (by decide) (by decide)
      (by decide)).2.2⟩

end APA102

/-! ## Heat decay -/

namespace AnimController

theorem update_heat {F : Type} (env : Env F) (ms : Int) (stack : Nat → Nat) (s : State F) :
    (update env ms stack s).heat = coolDown env s.heat := by
  unfold update
  simp only
  split <;> rfl

/-- C20 (amended): reading the float operations of the environment as exact
arithmetic in an ordered ring, one tick of `update` leaves the heat at
`max(heat * coolDownRate, 0)`: there is a clamp at 0 and none at 1.  When the
heat is in `[0, 1]` and `coolDownRate <= 1`, this equals
`clamp(heat * coolDownRate, 0, 1)` and lies in `[0, 1]`. -/
theorem cool_down_clamps_at_zero_only {K : Type} [LinearOrderedRing K] (env : Env K)
    (ms : Int) (stack : Nat → Nat) (s : State K)
    (hmul : env.fmul = fun a b => a * b)
    (hlt : env.flt = fun a b => decide (a < b))
    (hzero : env.fzero = 0) :
    (update env ms stack s).heat = max (s.heat * env.coolDownRate) 0 ∧
    (0 ≤ s.heat → s.heat ≤ 1 → env.coolDownRate ≤ 1 →
      (update env ms stack s).heat = max 0 (min 1 (s.heat * env.coolDownRate)) ∧
      0 ≤ (update env ms stack s).heat ∧ (update env ms stack s).heat ≤ 1) := by
  have hheat : (update env ms stack s).heat = max (s.heat * env.coolDownRate) 0 := by
    rw [update_heat]
    unfold coolDown
    simp only [hmul, hlt, hzero, decide_eq_true_eq]
    split
    · rename_i h
      rw [max_eq_right (le_of_lt h)]
    · rename_i h
      rw [max_eq_left (not_lt.1 h)]
  refine ⟨hheat, ?_⟩
  intro h0 h1 hr
  have hprod : s.heat * env.coolDownRate ≤ 1 := by
    calc s.heat * env.coolDownRate ≤ s.heat * 1 := mul_le_mul_of_nonneg_left hr h0
      _ = s.heat := mul_one _
      _ ≤ 1 := h1
  rw [hheat]
  refine ⟨?_, le_max_right _ _, max_le hprod zero_le_one⟩
  rw [min_eq_right hprod, max_comm]

/-- Witness of C20 (amended): the example environment (integer heat, rate 1)
on the hot state. -/
theorem cool_down_clamps_at_zero_only_witness :
    (exampleEnv.fmul = fun a b => a * b) ∧
    (exampleEnv.flt = fun a b => decide (a < b)) ∧
    exampleEnv.fzero = 0 ∧
    0 ≤ hotState.heat ∧ hotState.heat ≤ 1 ∧ exampleEnv.coolDownRate ≤ 1 ∧
    (update exampleEnv 33 (fun _ => 0) hotState).heat =
      max (hotState.heat * exampleEnv.coolDownRate) 0 ∧
    (update exampleEnv 33 (fun _ => 0) hotState).heat =
      max 0 (min 1 (hotState.heat * exampleEnv.coolDownRate)) ∧
    0 ≤ (update exampleEnv 33 (fun _ => 0) hotState).heat ∧
    (update exampleEnv 33 (fun _ => 0) hotState).heat ≤ 1 :=
  ⟨rfl, rfl, rfl, by decide, by decide, by decide,
    (cool_down_clamps_at_zero_only exampleEnv 33 (fun _ => 0) hotState rfl rfl rfl).1,
    (cool_down_clamps_at_zero_only exampleEnv 33 (fun _ => 0) hotState rfl rfl rfl).2
      (by decide) (by decide) (by decide)⟩

/-- Counterexample to C20 as stated: with heat 1 (inside `[0, 1]`) and
`coolDownRate` 2, one tick leaves the heat at 2, which is neither
`clamp(1 * 2, 0, 1) = 1` nor inside `[0, 1]`. -/
theorem cool_down_can_exceed_one :
    (0 ≤ hotState.heat ∧ hotState.heat ≤ 1) ∧
    doublingEnv.coolDownRate = 2 ∧
    (update doublingEnv 33 (fun _ => 0) hotState).heat = 2 ∧
    (update doublingEnv 33 (fun _ => 0) hotState).heat ≠
      max 0 (min 1 (hotState.heat * doublingEnv.coolDownRate)) ∧
    ¬ (update doublingEnv 33 (fun _ => 0) hotState).heat ≤ 1 := by
  decide

end AnimController

/-! ## Saturating colour sums -/

namespace Utils

theorem getRed_toColor (r g b : Nat) (hr : r ≤ 255) (hg : g ≤ 255) (hb : b ≤ 255) :
    getRed (toColor r g b) = r := by
  unfold getRed toColor
  omega

theorem getGreen_toColor (r g b : Nat) (hg : g ≤ 255) (hb : b ≤ 255) :
    getGreen (toColor r g b) = g := by
  unfold getGreen toColor
  omega

theorem getBlue_toColor (r g b : Nat) : getBlue (toColor r g b) = b % 256 := by
  unfold getBlue toColor
  omega

theorem getRed_addColors (a b : Nat) :
    getRed (addColors a b) = min 255 (getRed a + getRed b) := by
  unfold addColors
  rw [getRed_toColor _ _ _ (Nat.min_le_left _ _) (Nat.min_le_left _ _) (Nat.min_le_left _ _)]

theorem getGreen_addColors (a b : Nat) :
    getGreen (addColors a b) = min 255 (getGreen a + getGreen b) := by
  unfold addColors
  rw [getGreen_toColor _ _ _ (Nat.min_le_left _ _) (Nat.min_le_left _ _)]

theorem getBlue_addColors (a b : Nat) :
    getBlue (addColors a b) = min 255 (getBlue a + getBlue b) := by
  unfold addColors
  rw [getBlue_toColor]
  omega

theorem foldl_addColors_channels (cs : List Nat) (v : Nat) :
    getRed (cs.foldl addColors v) = min 255 (getRed v + (cs.map getRed).sum) ∧
    getGreen (cs.foldl addColors v) = min 255 (getGreen v + (cs.map getGreen).sum) ∧
    getBlue (cs.foldl addColors v) = min 255 (getBlue v + (cs.map getBlue).sum) := by
  induction cs generalizing v with
  | nil =>
    simp only [List.foldl_nil, List.map_nil, List.sum_nil, Nat.add_zero]
    unfold getRed getGreen getBlue
    omega
  | cons c cs ih =>
    simp only [List.foldl_cons, List.map_cons, List.sum_cons]
    obtain ⟨h1, h2, h3⟩ := ih (addColors v c)
    rw [h1, h2, h3, getRed_addColors, getGreen_addColors, getBlue_addColors]
    omega

theorem foldl_addColors_lt (cs : List Nat) (v : Nat) (hv : v < 16777216) :
    cs.foldl addColors v < 16777216 := by
  induction cs generalizing v with
  | nil => exact hv
  | cons c cs ih =>
    simp only [List.foldl_cons]
    apply ih
    unfold addColors toColor
    omega

theorem toColor_channels (x : Nat) (hx : x < 16777216) :
    toColor (getRed x) (getGreen x) (getBlue x) = x := by
  unfold toColor getRed getGreen getBlue
  omega

theorem foldl_addColors_zero (cs : List Nat) :
    cs.foldl addColors 0 =
      toColor (min 255 (cs.map getRed).sum) (min 255 (cs.map getGreen).sum)
        (min 255 (cs.map getBlue).sum) := by
  have h := foldl_addColors_channels cs 0
  have hlt := foldl_addColors_lt cs 0 (by omega)
  rw [← toColor_channels _ hlt, h.1, h.2.1, h.2.2]
  simp [getRed, getGreen, getBlue]

end Utils

/-! ## The composited frame -/

namespace AnimController

variable {F : Type}

theorem contributions_cons (env : Env F) (cri : Int) (heat : F) (ms : Int) (a : AnimInstance)
    (l : List AnimInstance) :
    contributions env cri heat ms (a :: l) =
      contributions env cri heat ms [a] ++ contributions env cri heat ms l := by
  simp [contributions, List.flatMap_cons]

theorem renderInstance_eq_foldl (env : Env F) (cri : Int) (heat : F) (ms : Int)
    (a : AnimInstance) (acc : Nat → Nat) :
    renderInstance env cri heat a (ms - a.startTime) acc =
      (contributions env cri heat ms [a]).foldl (combine env) acc := by
  simp only [contributions, List.flatMap_cons, List.flatMap_nil, List.append_nil]
  rfl

theorem renderAll_eq_foldl (env : Env F) (cri : Int) (heat : F) (ms : Int)
    (l : List AnimInstance) (acc : Nat → Nat) :
    renderAll env cri heat ms l acc =
      (contributions env cri heat ms l).foldl (combine env) acc := by
  induction l generalizing acc with
  | nil => rfl
  | cons a l ih =>
    rw [contributions_cons, List.foldl_append, ← renderInstance_eq_foldl, ← ih]
    rfl

theorem foldl_combine_apply (env : Env F) (cs : List (Nat × Nat)) (acc : Nat → Nat)
    (p : Nat) :
    (cs.foldl (combine env) acc) p = (coloursFor p cs).foldl env.addColors (acc p) := by
  induction cs generalizing acc with
  | nil => rfl
  | cons lc cs ih =>
    rw [List.foldl_cons, ih]
    by_cases h : lc.1 = p
    · have hc : coloursFor p (lc :: cs) = lc.2 :: coloursFor p cs := by
        simp [coloursFor, List.filter_cons, h]
      rw [hc, List.foldl_cons]
      unfold combine
      rw [h, Function.update_same]
    · have hc : coloursFor p (lc :: cs) = coloursFor p cs := by
        simp [coloursFor, List.filter_cons, h]
      rw [hc]
      unfold combine
      rw [Function.update_noteq (Ne.symm h)]

theorem updateRun_allColors (env : Env F) (ms : Int) (stack : Nat → Nat) (s : State F)
    (h0 : 0 ≤ s.animationCount) :
    (updateRun env ms stack s).allColors =
      renderAll env s.currentRainbowIndex (coolDown env s.heat) ms
        (kept env ms (active s)) (clearedColors env stack) := by
  have hspec := updateLoop_spec env s.currentRainbowIndex (coolDown env s.heat) ms
    s.animationCount.toNat 0
    { animations := s.animations
      animationCount := s.animationCount
      allColors := clearedColors env stack
      evals := [] } (by simp only; omega)
  unfold updateRun active
  exact hspec.2.2.2

theorem frame_cell (env : Env F) (ms : Int) (stack : Nat → Nat) (s : State F)
    (hadd : env.addColors = Utils.addColors) (h0 : 0 ≤ s.animationCount)
    (p : Nat) (hp : (p : Int) < env.board.ledCount) :
    (updateRun env ms stack s).allColors p =
      (coloursFor p (contributions env s.currentRainbowIndex (coolDown env s.heat) ms
        (kept env ms (active s)))).foldl Utils.addColors 0 := by
  rw [updateRun_allColors env ms stack s h0, renderAll_eq_foldl, foldl_combine_apply, hadd]
  unfold clearedColors
  rw [if_pos hp]

/-- C13: when at least one instance is running at tick start and colours are
added as the specification says (per channel, saturating at 255), the array
`update` submits to the strip holds, for every physical LED `p` below
`ledCount`, the colour whose channels are `min(255, sum)` of the channels of
the gamma-corrected colours that the track evaluations of the instances kept
on this tick direct to `p` (canonical index remapped through `remapFace` and
`faceToLedLookup`); an LED no pair is directed to gets 0. -/
theorem frame_is_saturating_sum (env : Env F) (ms : Int) (stack : Nat → Nat) (s : State F)
    (hadd : env.addColors = Utils.addColors) (hpos : 0 < s.animationCount) :
    (update env ms stack s).strip =
      APA102.show_ (APA102.setPixelColors (updateRun env ms stack s).allColors s.strip) ∧
    ∀ p : Nat, (p : Int) < env.board.ledCount →
      (updateRun env ms stack s).allColors p =
        Utils.toColor
          (min 255 ((coloursFor p (contributions env s.currentRainbowIndex
            (coolDown env s.heat) ms (kept env ms (active s)))).map Utils.getRed).sum)
          (min 255 ((coloursFor p (contributions env s.currentRainbowIndex
            (coolDown env s.heat) ms (kept env ms (active s)))).map Utils.getGreen).sum)
          (min 255 ((coloursFor p (contributions env s.currentRainbowIndex
            (coolDown env s.heat) ms (kept env ms (active s)))).map Utils.getBlue).sum) ∧
      (coloursFor p (contributions env s.currentRainbowIndex
          (coolDown env s.heat) ms (kept env ms (active s))) = [] →
        (updateRun env ms stack s).allColors p = 0) := by
  constructor
  · unfold update
    simp only
    rw [if_pos hpos]
  · intro p hp
    have hcell := frame_cell env ms stack s hadd (by omega) p hp
    constructor
    · rw [hcell, Utils.foldl_addColors_zero]
    · intro hnone
      rw [hcell, hnone]
      rfl

end AnimController

namespace AnimController

variable {F : Type}

/-- Witness of C13: two instances lighting LED 0 with colour `0x010203`
each. -/
theorem frame_is_saturating_sum_witness :
    saturatingEnv.addColors = Utils.addColors ∧
    0 < (exampleState 2 false).animationCount ∧
    ((0 : Nat) : Int) < saturatingEnv.board.ledCount ∧
    (updateRun saturatingEnv 100 (fun _ => 7) (exampleState 2 false)).allColors 0 =
      Utils.toColor
        (min 255 ((coloursFor 0 (contributions saturatingEnv
          (exampleState 2 false).currentRainbowIndex
          (coolDown saturatingEnv (exampleState 2 false).heat) 100
          (kept saturatingEnv 100 (active (exampleState 2 false))))).map Utils.getRed).sum)
        (min 255 ((coloursFor 0 (contributions saturatingEnv
          (exampleState 2 false).currentRainbowIndex
          (coolDown saturatingEnv (exampleState 2 false).heat) 100
          (kept saturatingEnv 100 (active (exampleState 2 false))))).map Utils.getGreen).sum)
        (min 255 ((coloursFor 0 (contributions saturatingEnv
          (exampleState 2 false).currentRainbowIndex
          (coolDown saturatingEnv (exampleState 2 false).heat) 100
          (kept saturatingEnv 100 (active (exampleState 2 false))))).map Utils.getBlue).sum) ∧
    (updateRun saturatingEnv 100 (fun _ => 7) (exampleState 2 false)).allColors 0 = 0x020406 :=
  ⟨rfl, by decide, by decide,
    ((frame_is_saturating_sum saturatingEnv 100 (fun _ => 7) (exampleState 2 false) rfl
      (by decide)).2 0 (by decide)).1,
    by decide⟩

end AnimController

/-! ## The colour resolver -/

namespace AnimController

variable {F : Type}

/-- C23: `getColorForAnim` returns the palette colour at `colorIndex` when the
token is null and when the instance's animation has no special colour type;
when the type is face-based or heat-snapshot it returns the instance's stored
`specialColorPayload`, whatever the colour index, the heat and the rainbow
index are. -/
theorem getColorForAnim_palette_or_payload (env : Env F) (cri cri' : Int) (heat heat' : F)
    (inst : AnimInstance) (colorIndex colorIndex' : Nat) :
    getColorForAnim env cri heat none colorIndex = env.getPaletteColor colorIndex ∧
    ((env.animAt inst.animation).specialColorType = SpecialColor.None →
      getColorForAnim env cri heat (some inst) colorIndex = env.getPaletteColor colorIndex) ∧
    ((env.animAt inst.animation).specialColorType = SpecialColor.Face ∨
        (env.animAt inst.animation).specialColorType = SpecialColor.Heat_Start →
      getColorForAnim env cri heat (some inst) colorIndex = inst.specialColorPayload ∧
      getColorForAnim env cri' heat' (some inst) colorIndex' = inst.specialColorPayload) := by
  refine ⟨rfl, ?_, ?_⟩
  · intro h
    simp [getColorForAnim, h]
  · rintro (h | h) <;> simp [getColorForAnim, h]

/-- Witness of C23: a face-based instance (animation 101) with payload
`0xFF0004`, and an instance of animation 1, which has no special colour. -/
theorem getColorForAnim_palette_or_payload_witness :
    (exampleEnv.animAt 1).specialColorType = SpecialColor.None ∧
    (exampleEnv.animAt 101).specialColorType = SpecialColor.Face ∧
    getColorForAnim exampleEnv 5 0
      (some { animation := 1, specialColorPayload := 9, startTime := 0, remapFace := 0,
              loop := false }) 3 = exampleEnv.getPaletteColor 3 ∧
    getColorForAnim exampleEnv 5 0
      (some { animation := 101, specialColorPayload := 0xFF0004, startTime := 0,
              remapFace := 4, loop := false }) 3 = 0xFF0004 ∧
    getColorForAnim exampleEnv 77 1
      (some { animation := 101, specialColorPayload := 0xFF0004, startTime := 0,
              remapFace := 4, loop := false }) 8 = 0xFF0004 :=
  ⟨by decide, by decide,
    (getColorForAnim_palette_or_payload exampleEnv 5 77 0 1
      { animation := 1, specialColorPayload := 9, startTime := 0, remapFace := 0,
        loop := false } 3 8).2.1 (by decide),
    ((getColorForAnim_palette_or_payload exampleEnv 5 77 0 1
      { animation := 101, specialColorPayload := 0xFF0004, startTime := 0, remapFace := 4,
        loop := false } 3 8).2.2 (Or.inl (by decide))).1,
    ((getColorForAnim_palette_or_payload exampleEnv 5 77 0 1
      { animation := 101, specialColorPayload := 0xFF0004, startTime := 0, remapFace := 4,
        loop := false } 3 8).2.2 (Or.inl (by decide))).2⟩

/-- C24: for a colour-wheel instance and any value of the global rainbow
index, negative ones included, `getColorForAnim` returns
`wheel(rainbowIndex mod 256)`, the position lying in `[0, 255]`; the result is
the same for any other colour-wheel instance (other payload, other remap
face), any colour index and any heat. -/
theorem colour_wheel_uses_rainbow_index (env : Env F) (cri : Int) (heat heat' : F)
    (inst inst' : AnimInstance) (colorIndex colorIndex' : Nat)
    (h : (env.animAt inst.animation).specialColorType = SpecialColor.ColorWheel)
    (h' : (env.animAt inst'.animation).specialColorType = SpecialColor.ColorWheel) :
    getColorForAnim env cri heat (some inst) colorIndex = env.wheel (cri % 256).toNat ∧
    0 ≤ cri % 256 ∧ cri % 256 ≤ 255 ∧ (cri % 256).toNat ≤ 255 ∧
    getColorForAnim env cri heat' (some inst') colorIndex' =
      getColorForAnim env cri heat (some inst) colorIndex := by
  have hw : ∀ (ht : F) (a : AnimInstance) (ci : Nat),
      (env.animAt a.animation).specialColorType = SpecialColor.ColorWheel →
      getColorForAnim env cri ht (some a) ci = env.wheel (cri % 256).toNat := by
    intro ht a ci ha
    simp only [getColorForAnim, ha, rainbowScale, Int.tdiv_one]
    split
    · rw [show (cri + 256) % 256 = cri % 256 from by omega]
    · rfl
  refine ⟨hw heat inst colorIndex h, by omega, by omega, by omega, ?_⟩
  rw [hw heat' inst' colorIndex' h', hw heat inst colorIndex h]

/-- Witness of C24: rainbow index `-3` gives wheel position 253 for two
different colour-wheel instances (animation 102). -/
theorem colour_wheel_uses_rainbow_index_witness :
    (exampleEnv.animAt 102).specialColorType = SpecialColor.ColorWheel ∧
    getColorForAnim exampleEnv (-3) 0
      (some { animation := 102, specialColorPayload := 4, startTime := 0, remapFace := 4,
              loop := false }) 0 = exampleEnv.wheel 253 ∧
    getColorForAnim exampleEnv (-3) 1
      (some { animation := 102, specialColorPayload := 7, startTime := 9, remapFace := 7,
              loop := true }) 5 =
      getColorForAnim exampleEnv (-3) 0
        (some { animation := 102, specialColorPayload := 4, startTime := 0, remapFace := 4,
                loop := false }) 0 :=
  ⟨by decide,
    (colour_wheel_uses_rainbow_index exampleEnv (-3) 0 1
      { animation := 102, specialColorPayload := 4, startTime := 0, remapFace := 4,
        loop := false }
      { animation := 102, specialColorPayload := 7, startTime := 9, remapFace := 7,
        loop := true } 0 5 (by decide) (by decide)).1,
    (colour_wheel_uses_rainbow_index exampleEnv (-3) 0 1
      { animation := 102, specialColorPayload := 4, startTime := 0, remapFace := 4,
        loop := false }
      { animation := 102, specialColorPayload := 7, startTime := 9, remapFace := 7,
        loop := true } 0 5 (by decide) (by decide)).2.2.2.2⟩

end AnimController

/-! ## The rainbow index -/

namespace AnimController

variable {F : Type}

theorem play_currentRainbowIndex (env : Env F) (s : State F) (anim : AnimPtr)
    (remapFace : Nat) (loop : Bool) (ms : Int) :
    (play env anim remapFace loop ms s).currentRainbowIndex = s.currentRainbowIndex := by
  rcases play_cases env s anim remapFace loop ms with ⟨k, _, hp⟩ | ⟨_, _, hp⟩ | hp <;>
    (rw [hp]; try rfl)

theorem stop_currentRainbowIndex (env : Env F) (s : State F) (anim : AnimPtr)
    (remapFace : Nat) :
    (stop env anim remapFace s).currentRainbowIndex = s.currentRainbowIndex := by
  rcases stop_cases env s anim remapFace with ⟨k, _, hp⟩ | hp <;> (rw [hp]; try rfl)

theorem update_currentRainbowIndex (env : Env F) (ms : Int) (stack : Nat → Nat)
    (s : State F) :
    (update env ms stack s).currentRainbowIndex = s.currentRainbowIndex := by
  unfold update
  simp only
  split <;> rfl

/-- C22: a motion sample whose jerk value passes the test `sqrMag > 0` raises
the rainbow index by exactly one (the index being an `int` below its maximum);
a sample that fails the test leaves the whole state, so the rainbow index and
the heat, unchanged; and `play` (both overloads), `stop`, `stopAll` and
`update` do not change the rainbow index. -/
theorem rainbow_index_counts_samples (env : Env F) (s : State F) (sqrMag : F) :
    (env.flt env.fzero sqrMag = true →
      -(2 : Int) ^ 31 ≤ s.currentRainbowIndex → s.currentRainbowIndex < 2 ^ 31 - 1 →
      (onAccelFrame env sqrMag s).currentRainbowIndex = s.currentRainbowIndex + 1) ∧
    (env.flt env.fzero sqrMag = false → onAccelFrame env sqrMag s = s) ∧
    (∀ (anim : AnimPtr) (remapFace : Nat) (loop : Bool) (ms : Int),
      (play env anim remapFace loop ms s).currentRainbowIndex = s.currentRainbowIndex) ∧
    (∀ (evt remapFace : Nat) (loop : Bool) (ms : Int),
      (playEvent env evt remapFace loop ms s).currentRainbowIndex = s.currentRainbowIndex) ∧
    (∀ (anim : AnimPtr) (remapFace : Nat),
      (stop env anim remapFace s).currentRainbowIndex = s.currentRainbowIndex) ∧
    (stopAll s).currentRainbowIndex = s.currentRainbowIndex ∧
    (∀ (ms : Int) (stack : Nat → Nat),
      (update env ms stack s).currentRainbowIndex = s.currentRainbowIndex) := by
  refine ⟨?_, ?_, ?_, ?_, ?_, rfl, ?_⟩
  · intro hpos hlo hhi
    unfold onAccelFrame
    rw [if_pos hpos]
    simp only [wrapInt32]
    omega
  · intro hzero
    unfold onAccelFrame
    rw [if_neg (by simp [hzero])]
  · exact fun anim remapFace loop ms => play_currentRainbowIndex env s anim remapFace loop ms
  · intro evt remapFace loop ms
    rcases playEvent_cases env s evt remapFace loop ms with ⟨anim, hp⟩ | hp
    · rw [hp]; exact play_currentRainbowIndex env s anim remapFace loop ms
    · rw [hp]
  · exact fun anim remapFace => stop_currentRainbowIndex env s anim remapFace
  · exact fun ms stack => update_currentRainbowIndex env ms stack s

/-- Witness of C22: jerk value 4, then jerk value 0, on the idle example
state. -/
theorem rainbow_index_counts_samples_witness :
    exampleEnv.flt exampleEnv.fzero 4 = true ∧
    -(2 : Int) ^ 31 ≤ (exampleState 0 false).currentRainbowIndex ∧
    (exampleState 0 false).currentRainbowIndex < 2 ^ 31 - 1 ∧
    exampleEnv.flt exampleEnv.fzero 0 = false ∧
    (onAccelFrame exampleEnv 4 (exampleState 0 false)).currentRainbowIndex =
      (exampleState 0 false).currentRainbowIndex + 1 ∧
    onAccelFrame exampleEnv 0 (exampleState 0 false) = exampleState 0 false :=
  ⟨by decide, by decide, by decide, by decide,
    (rainbow_index_counts_samples exampleEnv (exampleState 0 false) 4).1
      (by decide) (by decide) (by decide),
    (rainbow_index_counts_samples exampleEnv (exampleState 0 false) 0).2.1 (by decide)⟩

/-- C30: when a running instance has the requested animation and remap face,
`play` restarts the matching instance of lowest slot `k`: its start time
becomes the current time while every slot, slot `k` included, keeps its loop
flag, its `specialColorPayload`, its animation and its remap face, whatever
loop value the call passes and whatever the heat is now. -/
theorem restart_keeps_loop_and_payload (env : Env F) (s : State F) (anim : AnimPtr)
    (remapFace : Nat) (loop : Bool) (ms : Int)
    (h : ∃ i : Nat, (i : Int) < s.animationCount ∧
      (s.animations i).animation = anim ∧ (s.animations i).remapFace = remapFace) :
    (∃ k : Nat, (k : Int) < s.animationCount ∧
      (s.animations k).animation = anim ∧ (s.animations k).remapFace = remapFace ∧
      ((play env anim remapFace loop ms s).animations k).startTime = ms ∧
      ((play env anim remapFace loop ms s).animations k).loop = (s.animations k).loop ∧
      ((play env anim remapFace loop ms s).animations k).specialColorPayload =
        (s.animations k).specialColorPayload) ∧
    (∀ j : Nat,
      ((play env anim remapFace loop ms s).animations j).loop = (s.animations j).loop ∧
      ((play env anim remapFace loop ms s).animations j).specialColorPayload =
        (s.animations j).specialColorPayload ∧
      ((play env anim remapFace loop ms s).animations j).animation =
        (s.animations j).animation ∧
      ((play env anim remapFace loop ms s).animations j).remapFace =
        (s.animations j).remapFace) := by
  obtain ⟨i, hi, ha, hr⟩ := h
  obtain ⟨k, hk⟩ : ∃ k, findFrom
      (fun prevAnim => prevAnim.animation == anim && prevAnim.remapFace == remapFace)
      s.animations s.animationCount.toNat 0 = k := ⟨_, rfl⟩
  have hlt : k < 0 + s.animationCount.toNat := by
    rw [← hk]
    exact findFrom_some _ _ _ 0 i (Nat.zero_le _) (by omega) (by simp [ha, hr])
  have hkc : (k : Int) < s.animationCount := by omega
  have hfound := findFrom_found
    (fun prevAnim => prevAnim.animation == anim && prevAnim.remapFace == remapFace)
    s.animations s.animationCount.toNat 0 (by rw [hk]; exact hlt)
  rw [hk] at hfound
  simp only [Bool.and_eq_true, beq_iff_eq] at hfound
  have hplay : play env anim remapFace loop ms s =
      { stopAtIndex env k s with
        animations := Function.update s.animations k
          { s.animations k with startTime := ms } } := by
    unfold play
    simp only [hk]
    rw [if_pos hkc]
    rfl
  constructor
  · refine ⟨k, hkc, hfound.1, hfound.2, ?_, ?_, ?_⟩ <;> rw [hplay] <;> simp
  · intro j
    rw [hplay]
    by_cases hj : j = k
    · subst hj; simp
    · simp [Function.update_noteq hj]

/-- Witness of C30: animation 3, added non-looping, restarted with
`loop = true`. -/
theorem restart_keeps_loop_and_payload_witness :
    (∃ i : Nat, (i : Int) < (exampleState 5 false).animationCount ∧
      ((exampleState 5 false).animations i).animation = 3 ∧
      ((exampleState 5 false).animations i).remapFace = 0) ∧
    ((play exampleEnv 3 0 true 40 (exampleState 5 false)).animations 2).loop = false ∧
    ((play exampleEnv 3 0 true 40 (exampleState 5 false)).animations 2).specialColorPayload =
      ((exampleState 5 false).animations 2).specialColorPayload :=
  ⟨⟨2, by decide, rfl, rfl⟩,
    ((restart_keeps_loop_and_payload exampleEnv (exampleState 5 false) 3 0 true 40
      ⟨2, by decide, rfl, rfl⟩).2 2).1,
    ((restart_keeps_loop_and_payload exampleEnv (exampleState 5 false) 3 0 true 40
      ⟨2, by decide, rfl, rfl⟩).2 2).2.1⟩

end AnimController

/-! ## A looping instance that is more than one period late -/

namespace AnimController

variable {F : Type}

theorem tick_of_fresh (env : Env F) (ms : Int) (a : AnimInstance)
    (h : ms - a.startTime ≤ (env.animAt a.animation).duration) : tick env ms a = some a := by
  have hc : catchUp env ms a = a := by
    unfold catchUp
    simp only
    rw [if_neg (by intro hh; have := hh.2; omega)]
  unfold tick
  simp only [hc]
  rw [if_neg (by omega)]

theorem tick_of_stale_loop (env : Env F) (ms : Int) (a : AnimInstance) (hloop : a.loop = true)
    (h : 2 * ((env.animAt a.animation).duration : Int) < ms - a.startTime) :
    tick env ms a = none := by
  have hc : catchUp env ms a =
      { a with startTime := a.startTime + (env.animAt a.animation).duration } := by
    unfold catchUp
    simp only
    rw [if_pos ⟨hloop, by omega⟩]
  unfold tick
  simp only [hc]
  rw [if_pos (by omega)]

theorem kept_of_fresh (env : Env F) (ms : Int) (l : List AnimInstance)
    (h : ∀ a ∈ l, ms - a.startTime ≤ (env.animAt a.animation).duration) :
    kept env ms l = l := by
  induction l with
  | nil => rfl
  | cons a l ih =>
    unfold kept at ih ⊢
    rw [List.filterMap_cons, tick_of_fresh env ms a (h a (List.mem_cons_self _ _))]
    simp only
    rw [ih (fun b hb => h b (List.mem_cons_of_mem _ hb))]

theorem kept_append (env : Env F) (ms : Int) (l1 l2 : List AnimInstance) :
    kept env ms (l1 ++ l2) = kept env ms l1 ++ kept env ms l2 := by
  unfold kept
  rw [List.filterMap_append]

theorem active_eraseIdx (s : State F) (i : Nat) (hi : (i : Int) < s.animationCount) :
    (active s).eraseIdx i =
      slots s.animations 0 i ++ slots s.animations (i + 1) (s.animationCount.toNat - i - 1) := by
  rw [active_split s i hi, List.eraseIdx_append_of_length_le (by rw [slots_length]),
    slots_length, Nat.sub_self, List.eraseIdx_cons_zero]

/-- C26: a running looping instance in slot `i` whose elapsed time exceeds
twice its duration is removed by the tick: the pool, the count and the track
evaluations are those of a tick on the pool with that instance erased, the
count drops by at least one, and when no other running instance is past its
duration the running instances are exactly the former ones without slot `i`
and the count drops by exactly one. -/
theorem stale_loop_is_retired (env : Env F) (ms : Int) (stack : Nat → Nat) (s : State F)
    (i : Nat) (hi : (i : Int) < s.animationCount) (hloop : (s.animations i).loop = true)
    (hstale : 2 * ((env.animAt (s.animations i).animation).duration : Int)
      < ms - (s.animations i).startTime) :
    active (update env ms stack s) = kept env ms ((active s).eraseIdx i) ∧
    updateEvals env ms stack s =
      (kept env ms ((active s).eraseIdx i)).map
        (fun a => { inst := a, animTime := ms - a.startTime }) ∧
    (update env ms stack s).animationCount ≤ s.animationCount - 1 ∧
    ((∀ j : Nat, (j : Int) < s.animationCount → j ≠ i →
        ms - (s.animations j).startTime ≤ (env.animAt (s.animations j).animation).duration) →
      active (update env ms stack s) = (active s).eraseIdx i ∧
      (update env ms stack s).animationCount = s.animationCount - 1) := by
  have htick := tick_of_stale_loop env ms (s.animations i) hloop hstale
  have hk : kept env ms (active s) = kept env ms ((active s).eraseIdx i) := by
    rw [active_eraseIdx s i hi, kept_append]
    conv_lhs => rw [active_split s i hi]
    unfold kept
    rw [List.filterMap_append, List.filterMap_cons, htick]
  have hp := update_pool env ms stack s
  have hlen : ((active s).eraseIdx i).length = s.animationCount.toNat - 1 := by
    rw [active_eraseIdx s i hi, List.length_append, slots_length, slots_length]
    omega
  have hkl := kept_length_le env ms ((active s).eraseIdx i)
  refine ⟨by rw [hp.1, hk], ?_, ?_, ?_⟩
  · rw [(update_frame env ms stack s (by omega)).1, hk]
  · rw [hp.2 (by omega), hk]
    omega
  · intro hfresh
    have hkept : kept env ms ((active s).eraseIdx i) = (active s).eraseIdx i := by
      apply kept_of_fresh
      intro a ha
      rw [active_eraseIdx s i hi, List.mem_append, mem_slots, mem_slots] at ha
      rcases ha with ⟨j, _, hj, hja⟩ | ⟨j, hj1, hj2, hja⟩
      · rw [← hja]
        exact hfresh j (by omega) (by omega)
      · rw [← hja]
        exact hfresh j (by omega) (by omega)
    refine ⟨by rw [hp.1, hk, hkept], ?_⟩
    rw [hp.2 (by omega), hk, hkept, hlen]
    omega

/-- Witness of C26: a looping instance of duration 500 started at 0 and ticked
at time 1200 is gone after the tick. -/
theorem stale_loop_is_retired_witness :
    ((0 : Nat) : Int) < (exampleState 1 true).animationCount ∧
    ((exampleState 1 true).animations 0).loop = true ∧
    2 * ((exampleEnv.animAt ((exampleState 1 true).animations 0).animation).duration : Int)
      < 1200 - ((exampleState 1 true).animations 0).startTime ∧
    (∀ j : Nat, (j : Int) < (exampleState 1 true).animationCount → j ≠ 0 →
      1200 - ((exampleState 1 true).animations j).startTime ≤
        (exampleEnv.animAt ((exampleState 1 true).animations j).animation).duration) ∧
    (update exampleEnv 1200 (fun _ => 0) (exampleState 1 true)).animationCount =
      (exampleState 1 true).animationCount - 1 ∧
    updateEvals exampleEnv 1200 (fun _ => 0) (exampleState 1 true) = [] := by
  have hother : ∀ j : Nat, (j : Int) < (exampleState 1 true).animationCount → j ≠ 0 →
      1200 - ((exampleState 1 true).animations j).startTime ≤
        (exampleEnv.animAt ((exampleState 1 true).animations j).animation).duration := by
    intro j hj hne
    have : (j : Int) < 1 := hj
    omega
  have h := stale_loop_is_retired exampleEnv 1200 (fun _ => 0) (exampleState 1 true) 0
    (by decide) rfl (by decide)
  exact ⟨by decide, rfl, by decide, hother, (h.2.2.2 hother).2, by rw [h.2.1]; decide⟩

end AnimController

/-! ## Byte order and packing of the pixel buffer -/

namespace APA102

theorem offsets_eq : OFFSET_RED = 1 ∧ OFFSET_GREEN = 2 ∧ OFFSET_BLUE = 0 := by decide

theorem pack_eq (r g b : Nat) (hg : g < 256) (hb : b < 256) :
    (r <<< 16) ||| (g <<< 8) ||| b = r * 65536 + g * 256 + b := by
  rw [Nat.or_assoc, Nat.shiftLeft_eq, Nat.shiftLeft_eq]
  have h1 : g * 2 ^ 8 ||| b = 2 ^ 8 * g + b := by
    rw [Nat.mul_comm]
    exact (Nat.mul_add_lt_is_or (by omega) g).symm
  rw [h1]
  have h2 : r * 2 ^ 16 ||| (2 ^ 8 * g + b) = 2 ^ 16 * r + (2 ^ 8 * g + b) := by
    rw [Nat.mul_comm]
    exact (Nat.mul_add_lt_is_or (by omega) r).symm
  rw [h2]
  omega

theorem setPixelColorRGB_numLEDs (n r g b : Nat) (st : Strip) :
    (setPixelColorRGB n r g b st).numLEDs = st.numLEDs := by
  unfold setPixelColorRGB
  split <;> rfl

theorem setPixelColor_numLEDs (n c : Nat) (st : Strip) :
    (setPixelColor n c st).numLEDs = st.numLEDs := by
  unfold setPixelColor
  split <;> rfl

theorem setPixelColorRGB_pixels (n r g b : Nat) (st : Strip) (hn : n < st.numLEDs) :
    (setPixelColorRGB n r g b st).pixels =
      fun j => if j = 3 * n then b else if j = 3 * n + 1 then r
        else if j = 3 * n + 2 then g else st.pixels j := by
  obtain ⟨h1, h2, h3⟩ := offsets_eq
  unfold setPixelColorRGB
  rw [if_pos hn]
  simp only [h1, h2, h3]
  funext j
  simp only [Function.update_apply]
  by_cases c0 : j = 3 * n
  · rw [if_pos (by omega), if_pos c0]
  · rw [if_neg (by omega), if_neg c0]
    by_cases c2 : j = 3 * n + 2
    · rw [if_pos (by omega), if_neg (by omega), if_pos c2]
    · rw [if_neg (by omega)]
      by_cases c1 : j = 3 * n + 1
      · rw [if_pos (by omega), if_pos c1]
      · rw [if_neg (by omega), if_neg c1, if_neg c2]

theorem setPixelColor_eq_RGB (n c : Nat) (st : Strip) :
    setPixelColor n c st =
      setPixelColorRGB n ((c >>> 16) % 256) ((c >>> 8) % 256) (c % 256) st := rfl

theorem getPixelColor_eq (n : Nat) (st : Strip) (hn : n < st.numLEDs) :
    getPixelColor n st =
      (st.pixels (3 * n + 1) <<< 16) ||| (st.pixels (3 * n + 2) <<< 8) ||| st.pixels (3 * n) := by
  obtain ⟨h1, h2, h3⟩ := offsets_eq
  unfold getPixelColor
  rw [if_neg (by omega)]
  simp only [h1, h2, h3, Nat.add_zero, Nat.mul_comm n 3]


/-- C28: for `n < numLEDs`, `getPixelColor(n)` after `setPixelColor(n, c)`
returns `c & 0xFFFFFF`; every other pixel reads as before; and for byte values
`r`, `g`, `b`, `setPixelColor(n, color(r, g, b))` leaves the driver in the
same state as `setPixelColor(n, r, g, b)`.  The three channel offsets are
pairwise different values below 3. -/
theorem packed_colour_round_trip (st : Strip) (n : Nat) (hn : n < st.numLEDs) (c : Nat)
    (r g b : Nat) (hr : r < 256) (hg : g < 256) (hb : b < 256) :
    getPixelColor n (setPixelColor n c st) = c &&& 0xFFFFFF ∧
    (∀ m, m ≠ n → getPixelColor m (setPixelColor n c st) = getPixelColor m st) ∧
    setPixelColor n (color r g b) st = setPixelColorRGB n r g b st ∧
    (OFFSET_RED < 3 ∧ OFFSET_GREEN < 3 ∧ OFFSET_BLUE < 3 ∧ OFFSET_RED ≠ OFFSET_GREEN ∧
      OFFSET_RED ≠ OFFSET_BLUE ∧ OFFSET_GREEN ≠ OFFSET_BLUE) := by
  have hnum := setPixelColor_numLEDs n c st
  have hpix := setPixelColorRGB_pixels n ((c >>> 16) % 256) ((c >>> 8) % 256) (c % 256) st hn
  rw [← setPixelColor_eq_RGB] at hpix
  refine ⟨?_, ?_, ?_, by decide⟩
  · have e0 : (setPixelColor n c st).pixels (3 * n) = c % 256 := by
      rw [hpix]; simp
    have e1 : (setPixelColor n c st).pixels (3 * n + 1) = (c >>> 16) % 256 := by
      rw [hpix]; simp
    have e2 : (setPixelColor n c st).pixels (3 * n + 2) = (c >>> 8) % 256 := by
      rw [hpix]; simp
    rw [getPixelColor_eq _ _ (by rw [hnum]; exact hn), e0, e1, e2]
    rw [pack_eq _ _ _ (Nat.mod_lt _ (by omega)) (Nat.mod_lt _ (by omega))]
    rw [show (0xFFFFFF : Nat) = 2 ^ 24 - 1 from by norm_num, Nat.and_pow_two_sub_one_eq_mod,
      Nat.shiftRight_eq_div_pow, Nat.shiftRight_eq_div_pow]
    omega
  · intro m hm
    by_cases hmn : m < st.numLEDs
    · have hother : ∀ j, j ≠ 3 * n → j ≠ 3 * n + 1 → j ≠ 3 * n + 2 →
          (setPixelColor n c st).pixels j = st.pixels j := by
        intro j h0 h1 h2
        rw [hpix]
        simp only
        rw [if_neg h0, if_neg h1, if_neg h2]
      rw [getPixelColor_eq _ _ (by rw [hnum]; exact hmn), getPixelColor_eq _ _ hmn,
        hother _ (by omega) (by omega) (by omega), hother _ (by omega) (by omega) (by omega),
        hother _ (by omega) (by omega) (by omega)]
    · unfold getPixelColor
      rw [if_pos (by rw [hnum]; omega), if_pos (by omega)]
  · rw [setPixelColor_eq_RGB]
    have hc : color r g b = r * 65536 + g * 256 + b := pack_eq r g b hg hb
    rw [hc, Nat.shiftRight_eq_div_pow, Nat.shiftRight_eq_div_pow]
    rw [show (r * 65536 + g * 256 + b) / 2 ^ 16 % 256 = r from by omega,
      show (r * 65536 + g * 256 + b) / 2 ^ 8 % 256 = g from by omega,
      show (r * 65536 + g * 256 + b) % 256 = b from by omega]

/-- Witness of C28: pixel 0 of the one-LED example strip. -/
theorem packed_colour_round_trip_witness :
    (0 : Nat) < AnimController.exampleStrip.numLEDs ∧
    (0x12 : Nat) < 256 ∧ (0x34 : Nat) < 256 ∧ (0x56 : Nat) < 256 ∧
    getPixelColor 0 (setPixelColor 0 0xAB123456 AnimController.exampleStrip) =
      0xAB123456 &&& 0xFFFFFF ∧
    setPixelColor 0 (color 0x12 0x34 0x56) AnimController.exampleStrip =
      setPixelColorRGB 0 0x12 0x34 0x56 AnimController.exampleStrip :=
  ⟨by decide, by decide, by decide, by decide,
    (packed_colour_round_trip AnimController.exampleStrip 0 (by decide) 0xAB123456
      0x12 0x34 0x56 (by decide) (by decide) (by decide)).1,
    (packed_colour_round_trip AnimController.exampleStrip 0 (by decide) 0xAB123456
      0x12 0x34 0x56 (by decide) (by decide) (by decide)).2.2.1⟩

end APA102

/-! ## Heat gained from motion -/

namespace AnimController

theorem onAccelFrame_heat {K : Type} [LinearOrderedField K] (env : Env K)
    (hadd : env.fadd = fun a b => a + b) (hmul : env.fmul = fun a b => a * b)
    (hlt : env.flt = fun a b => decide (a < b)) (hzero : env.fzero = 0)
    (hone : env.fone = 1) (s : State K) (jerk : K) (hj : 0 < jerk) :
    (onAccelFrame env jerk s).heat = min 1 (s.heat + env.fsqrt jerk * env.heatUpRate) := by
  unfold onAccelFrame
  simp only [hadd, hmul, hlt, hzero, hone, hj, decide_True, if_true, decide_eq_true_eq]
  split
  · rename_i h
    rw [min_eq_left (le_of_lt h)]
  · rename_i h
    rw [min_eq_right (not_lt.1 h)]

/-- C21 (amended): reading the float operations as exact arithmetic in an
ordered field, a motion sample whose value `sqrMag = jerk.sqrMagnitude()` is
positive leaves the heat at `min(1, heat + sqrt(sqrMag) * heatUpRate)`; so for
a jerk of magnitude `m > 0`, whose squared magnitude is `m * m`, the heat
rises by `m * heatUpRate` (the square root being exact there).  From heat 0
with `heatUpRate = 1/10`, samples with squared magnitudes 4, 9 and 16 raise
the heat by `1/10 * (2 + 3 + 4) = 9/10`. -/
theorem heat_rises_with_jerk {K : Type} [LinearOrderedField K] (env : Env K)
    (hadd : env.fadd = fun a b => a + b) (hmul : env.fmul = fun a b => a * b)
    (hlt : env.flt = fun a b => decide (a < b)) (hzero : env.fzero = 0)
    (hone : env.fone = 1) :
    (∀ (s : State K) (sqrMag : K), 0 < sqrMag →
      (onAccelFrame env sqrMag s).heat =
        min 1 (s.heat + env.fsqrt sqrMag * env.heatUpRate)) ∧
    (∀ (s : State K) (m : K), 0 < m → env.fsqrt (m * m) = m →
      (onAccelFrame env (m * m) s).heat = min 1 (s.heat + m * env.heatUpRate)) ∧
    (env.heatUpRate = 1 / 10 → env.fsqrt 4 = 2 → env.fsqrt 9 = 3 → env.fsqrt 16 = 4 →
      ∀ s : State K, s.heat = 0 →
        (onAccelFrame env 16 (onAccelFrame env 9 (onAccelFrame env 4 s))).heat =
          1 / 10 * (2 + 3 + 4) ∧
        (onAccelFrame env 16 (onAccelFrame env 9 (onAccelFrame env 4 s))).heat = 9 / 10) := by
  have h1 := onAccelFrame_heat env hadd hmul hlt hzero hone
  refine ⟨h1, ?_, ?_⟩
  · intro s m hm hsq
    rw [h1 s (m * m) (mul_pos hm hm), hsq]
  · intro hrate h4 h9 h16 s hs
    have e : (onAccelFrame env 16 (onAccelFrame env 9 (onAccelFrame env 4 s))).heat
        = 9 / 10 := by
      rw [h1 _ 16 (by norm_num), h1 _ 9 (by norm_num), h1 s 4 (by norm_num), hs, hrate, h4,
        h9, h16]
      norm_num
    exact ⟨by rw [e]; norm_num, e⟩

theorem rationalEnv_fsqrt_values :
    rationalEnv.fsqrt 4 = 2 ∧ rationalEnv.fsqrt 9 = 3 ∧ rationalEnv.fsqrt 16 = 4 ∧
    rationalEnv.fsqrt 81 = 9 ∧ rationalEnv.fsqrt 256 = 16 := by
  refine ⟨?_, ?_, ?_, ?_, ?_⟩
  · show ((Nat.sqrt (Rat.floor 4).toNat : ℕ) : ℚ) = 2
    rw [show Rat.floor 4 = 4 from rfl, show Int.toNat 4 = 2 * 2 from rfl, Nat.sqrt_eq]
    norm_num
  · show ((Nat.sqrt (Rat.floor 9).toNat : ℕ) : ℚ) = 3
    rw [show Rat.floor 9 = 9 from rfl, show Int.toNat 9 = 3 * 3 from rfl, Nat.sqrt_eq]
    norm_num
  · show ((Nat.sqrt (Rat.floor 16).toNat : ℕ) : ℚ) = 4
    rw [show Rat.floor 16 = 16 from rfl, show Int.toNat 16 = 4 * 4 from rfl, Nat.sqrt_eq]
    norm_num
  · show ((Nat.sqrt (Rat.floor 81).toNat : ℕ) : ℚ) = 9
    rw [show Rat.floor 81 = 81 from rfl, show Int.toNat 81 = 9 * 9 from rfl, Nat.sqrt_eq]
    norm_num
  · show ((Nat.sqrt (Rat.floor 256).toNat : ℕ) : ℚ) = 16
    rw [show Rat.floor 256 = 256 from rfl, show Int.toNat 256 = 16 * 16 from rfl, Nat.sqrt_eq]
    norm_num

/-- Witness of C21 (amended): rational arithmetic, `heatUpRate = 1/10`. -/
theorem heat_rises_with_jerk_witness :
    (rationalEnv.fadd = fun a b => a + b) ∧ (rationalEnv.fmul = fun a b => a * b) ∧
    (rationalEnv.flt = fun a b => decide (a < b)) ∧ rationalEnv.fzero = 0 ∧
    rationalEnv.fone = 1 ∧ rationalEnv.heatUpRate = 1 / 10 ∧
    rationalEnv.fsqrt 4 = 2 ∧ rationalEnv.fsqrt 9 = 3 ∧ rationalEnv.fsqrt 16 = 4 ∧
    coldState.heat = 0 ∧ (0 : ℚ) < 4 ∧
    (onAccelFrame rationalEnv 4 coldState).heat =
      min 1 (coldState.heat + rationalEnv.fsqrt 4 * rationalEnv.heatUpRate) ∧
    (onAccelFrame rationalEnv 16 (onAccelFrame rationalEnv 9
      (onAccelFrame rationalEnv 4 coldState))).heat = 9 / 10 := by
  have s4 : rationalEnv.fsqrt 4 = 2 := rationalEnv_fsqrt_values.1
  have s9 : rationalEnv.fsqrt 9 = 3 := rationalEnv_fsqrt_values.2.1
  have s16 : rationalEnv.fsqrt 16 = 4 := rationalEnv_fsqrt_values.2.2.1
  have h := heat_rises_with_jerk rationalEnv rfl rfl rfl rfl rfl
  exact ⟨rfl, rfl, rfl, rfl, rfl, rfl, s4, s9, s16, rfl, by norm_num,
    h.1 coldState 4 (by norm_num), (h.2.2 rfl s4 s9 s16 coldState rfl).2⟩

/-- Counterexample to C21 as stated: with `heatUpRate = 1/10` and heat 0, a
sample whose jerk has magnitude 4, so that `jerk.sqrMagnitude()` is 16, leaves
the heat at `4/10`, not at `min(1, 0 + sqrt(4) * 1/10) = 2/10`; and three
samples with jerk magnitudes 4, 9 and 16 (squared magnitudes 16, 81, 256)
leave the heat at 1, not at `9/10`. -/
theorem heat_rises_by_magnitude_not_its_root :
    rationalEnv.heatUpRate = 1 / 10 ∧ coldState.heat = 0 ∧
    (16 : ℚ) = 4 * 4 ∧ (81 : ℚ) = 9 * 9 ∧ (256 : ℚ) = 16 * 16 ∧
    (onAccelFrame rationalEnv 16 coldState).heat = 4 / 10 ∧
    (onAccelFrame rationalEnv 16 coldState).heat ≠
      min 1 (coldState.heat + rationalEnv.fsqrt 4 * rationalEnv.heatUpRate) ∧
    (onAccelFrame rationalEnv 256 (onAccelFrame rationalEnv 81
      (onAccelFrame rationalEnv 16 coldState))).heat = 1 ∧
    (onAccelFrame rationalEnv 256 (onAccelFrame rationalEnv 81
      (onAccelFrame rationalEnv 16 coldState))).heat ≠ 9 / 10 := by
  have h1 := onAccelFrame_heat rationalEnv rfl rfl rfl rfl rfl
  have s2 : rationalEnv.fsqrt 4 = 2 := rationalEnv_fsqrt_values.1
  have s4 : rationalEnv.fsqrt 16 = 4 := rationalEnv_fsqrt_values.2.2.1
  have s9 : rationalEnv.fsqrt 81 = 9 := rationalEnv_fsqrt_values.2.2.2.1
  have s16 : rationalEnv.fsqrt 256 = 16 := rationalEnv_fsqrt_values.2.2.2.2
  have hrate : rationalEnv.heatUpRate = 1 / 10 := rfl
  have hcold : coldState.heat = 0 := rfl
  have e1 : (onAccelFrame rationalEnv 16 coldState).heat = 4 / 10 := by
    rw [h1 coldState 16 (by norm_num), s4, hrate, hcold]
    norm_num
  have e3 : (onAccelFrame rationalEnv 256 (onAccelFrame rationalEnv 81
      (onAccelFrame rationalEnv 16 coldState))).heat = 1 := by
    rw [h1 _ 256 (by norm_num), h1 _ 81 (by norm_num), e1, s9, s16, hrate]
    norm_num
  refine ⟨rfl, rfl, by norm_num, by norm_num, by norm_num, e1, ?_, e3, ?_⟩
  · rw [e1, s2, hrate, hcold]
    norm_num
  · rw [e3]
    norm_num

end AnimController

/-! ## Triggered actions -/

namespace Behaviors

theorem triggerActionsLoop_add (aenv : ActionEnv) (k m : Nat) (index : Int) :
    triggerActionsLoop aenv (k + m) index =
      triggerActionsLoop aenv k index ++ triggerActionsLoop aenv m (index + k) := by
  induction k generalizing index with
  | zero => simp [triggerActionsLoop]
  | succ k ih =>
    rw [show k + 1 + m = (k + m) + 1 from by omega]
    simp only [triggerActionsLoop, ih, List.append_assoc]
    rw [show index + 1 + (k : Int) = index + ((k + 1 : Nat) : Int) from by push_cast; omega]

theorem triggerActions_split (aenv : ActionEnv) (actionOffset : Int) (k m : Nat) :
    triggerActions aenv actionOffset ((k + 1 + m : Nat) : Int) =
      triggerActions aenv actionOffset k ++
        triggerAction aenv (aenv.getAction (actionOffset + k)) ++
        triggerActions aenv (actionOffset + k + 1) m := by
  unfold triggerActions
  simp only [Int.toNat_ofNat]
  rw [show k + 1 + m = k + (1 + m) from by omega, triggerActionsLoop_add,
    show 1 + m = m + 1 from by omega]
  simp only [triggerActionsLoop, List.append_assoc]

/-- C25: let the action at position `k` of a batch be a play-animation
action.  If its `animIndex` is not below the data set's animation count,
`triggerActions` makes no call for it, so the calls of the batch are those of
the actions before it followed by those of the actions after it, and the
controller state is untouched by that action; if the index is valid it makes
exactly one call `play(animIndex, face, false)` there, `face` being the
current face when `faceIndex` is `FACE_INDEX_CURRENT_FACE` and `faceIndex`
otherwise. -/
theorem triggerActions_checks_index (aenv : ActionEnv) (actionOffset : Int) (k m : Nat)
    (animIndex faceIndex : Nat)
    (hact : aenv.getAction (actionOffset + k) = Action.PlayAnimation animIndex faceIndex) :
    (¬ animIndex < aenv.getAnimationCount →
      triggerActions aenv actionOffset ((k + 1 + m : Nat) : Int) =
        triggerActions aenv actionOffset k ++ triggerActions aenv (actionOffset + k + 1) m ∧
      ∀ {F : Type} (env : AnimController.Env F) (ms : Int) (s : AnimController.State F),
        applyCalls env ms (triggerAction aenv (aenv.getAction (actionOffset + k))) s = s) ∧
    (animIndex < aenv.getAnimationCount →
      triggerActions aenv actionOffset ((k + 1 + m : Nat) : Int) =
        triggerActions aenv actionOffset k ++
          [Call.play animIndex
            (if faceIndex = aenv.FACE_INDEX_CURRENT_FACE then aenv.currentFace else faceIndex)
            false] ++
          triggerActions aenv (actionOffset + k + 1) m) := by
  constructor
  · intro hbad
    have h0 : triggerAction aenv (aenv.getAction (actionOffset + k)) = [] := by
      rw [hact]
      simp [triggerAction, hbad]
    refine ⟨?_, ?_⟩
    · rw [triggerActions_split, h0, List.append_nil]
    · intro F env ms s
      rw [h0]
      rfl
  · intro hok
    have h1 : triggerAction aenv (aenv.getAction (actionOffset + k)) =
        [Call.play animIndex
          (if faceIndex = aenv.FACE_INDEX_CURRENT_FACE then aenv.currentFace else faceIndex)
          false] := by
      rw [hact]
      simp only [triggerAction, hok, if_true]
      split <;> rfl
    rw [triggerActions_split, h1]

/-- Witness of C25: in the example batch, action 0 has animation index 40
(out of range, no call) and action 2 plays animation 2 on the current
face 5. -/
theorem triggerActions_checks_index_witness :
    exampleActions.getAction (0 + ((0 : Nat) : Int)) = Action.PlayAnimation 40 3 ∧
    ¬ 40 < exampleActions.getAnimationCount ∧
    exampleActions.getAction (0 + ((2 : Nat) : Int)) = Action.PlayAnimation 2 255 ∧
    2 < exampleActions.getAnimationCount ∧
    triggerActions exampleActions 0 ((0 + 1 + 2 : Nat) : Int) =
      triggerActions exampleActions 0 ((0 : Nat) : Int) ++
        triggerActions exampleActions (0 + ((0 : Nat) : Int) + 1) ((2 : Nat) : Int) ∧
    triggerActions exampleActions 0 ((2 + 1 + 0 : Nat) : Int) =
      triggerActions exampleActions 0 ((2 : Nat) : Int) ++
        [Call.play 2
          (if 255 = exampleActions.FACE_INDEX_CURRENT_FACE then exampleActions.currentFace
            else 255) false] ++
        triggerActions exampleActions (0 + ((2 : Nat) : Int) + 1) ((0 : Nat) : Int) ∧
    triggerActions exampleActions 0 3 = [Call.play 2 5 false] :=
  ⟨by decide, by decide, by decide, by decide,
    ((triggerActions_checks_index exampleActions 0 0 2 40 3 (by decide)).1 (by decide)).1,
    (triggerActions_checks_index exampleActions 0 2 0 2 255 (by decide)).2 (by decide),
    by decide⟩

end Behaviors

/-! ## Array bounds in `update` -/

namespace AnimController

variable {F : Type}

theorem safe_shiftAccesses (env : Env F) (k j : Nat) (h : j + k < MAX_ANIMS) :
    ∀ a ∈ shiftAccesses k j, SafeAccess env a := by
  induction k generalizing j with
  | zero => intro a ha; simp [shiftAccesses] at ha
  | succ k ih =>
    intro a ha
    simp only [shiftAccesses, List.mem_cons] at ha
    rcases ha with ha | ha | ha
    · subst ha
      refine ⟨⟨by simp only; omega, ?_⟩, by intro h1; simp at h1⟩
      simp only [arrSize]
      omega
    · subst ha
      refine ⟨⟨by simp only; omega, ?_⟩, by intro h1; simp at h1⟩
      simp only [arrSize]
      omega
    · exact ih (j + 1) (by omega) a ha

theorem safe_mapAccesses (env : Env F) (remapFace : Nat)
    (hremap : ∀ f c, env.board.remapLed f c < MAX_LED_COUNT)
    (j : Nat) (ps : List (Int × Nat)) (h : j + ps.length ≤ MAX_LED_COUNT * 4) :
    ∀ a ∈ mapAccesses env remapFace j ps, SafeAccess env a := by
  induction ps generalizing j with
  | nil => intro a ha; simp [mapAccesses] at ha
  | cons p ps ih =>
    intro a ha
    simp only [List.length_cons] at h
    simp only [mapAccesses, List.cons_append, List.nil_append, List.mem_cons] at ha
    have hr := hremap remapFace p.1
    rcases ha with ha | ha | ha | ha | ha | ha | ha | ha
    all_goals first
      | exact ih (j + 1) (by omega) a ha
      | (subst ha
         refine ⟨⟨by simp only; omega, ?_⟩, by intro h1; simp at h1⟩
         simp only [arrSize]
         omega)

theorem safe_combineAccesses (env : Env F) (remapFace : Nat)
    (hled : env.board.ledCount ≤ MAX_LED_COUNT)
    (hremap : ∀ f c, env.board.remapLed f c < MAX_LED_COUNT)
    (hlookup : ∀ x, x < MAX_LED_COUNT →
      (env.board.faceToLedLookup x : Int) < env.board.ledCount)
    (j : Nat) (ps : List (Int × Nat)) (h : j + ps.length ≤ MAX_LED_COUNT * 4) :
    ∀ a ∈ combineAccesses env remapFace j ps, SafeAccess env a := by
  induction ps generalizing j with
  | nil => intro a ha; simp [combineAccesses] at ha
  | cons p ps ih =>
    intro a ha
    simp only [List.length_cons] at h
    simp only [combineAccesses, List.cons_append, List.nil_append, List.mem_cons] at ha
    have hl := hlookup _ (hremap remapFace p.1)
    rcases ha with ha | ha | ha | ha | ha
    · subst ha
      refine ⟨⟨by simp only; omega, ?_⟩, by intro h1; simp at h1⟩
      simp only [arrSize]
      omega
    · subst ha
      refine ⟨⟨by simp only; omega, ?_⟩, fun _ _ => hl⟩
      simp only [arrSize]
      omega
    · subst ha
      refine ⟨⟨by simp only; omega, ?_⟩, by intro h1; simp at h1⟩
      simp only [arrSize]
      omega
    · subst ha
      refine ⟨⟨by simp only; omega, ?_⟩, fun _ _ => hl⟩
      simp only [arrSize]
      omega
    · exact ih (j + 1) (by omega) a ha

theorem safe_updateAccesses (env : Env F) (currentRainbowIndex : Int) (heat : F) (ms : Int)
    (hled : env.board.ledCount ≤ MAX_LED_COUNT)
    (hremap : ∀ f c, env.board.remapLed f c < MAX_LED_COUNT)
    (hlookup : ∀ x, x < MAX_LED_COUNT →
      (env.board.faceToLedLookup x : Int) < env.board.ledCount)
    (htracks : ∀ anim getColor t, (env.updateLEDs anim getColor t).length ≤ MAX_LED_COUNT * 4)
    (k i : Nat) (t : TickState) (hc : t.animationCount = (i : Int) + k)
    (hmax : i + k ≤ MAX_ANIMS) :
    ∀ a ∈ updateAccesses env currentRainbowIndex heat ms k i t, SafeAccess env a := by
  induction k generalizing i t with
  | zero => intro a ha; simp [updateAccesses] at ha
  | succ k ih =>
    have hhead : ∀ a : Access,
        a ∈ ({ arr := Arr.animations, index := (i : Int), isRead := true } ::
          (if (t.animations i).loop ∧
              ms - (t.animations i).startTime > (env.animAt (t.animations i).animation).duration
            then [({ arr := Arr.animations, index := (i : Int), isRead := false } : Access)]
            else [])) → SafeAccess env a := by
      intro a ha
      have hidx : a.arr = Arr.animations ∧ a.index = (i : Int) := by
        rw [List.mem_cons] at ha
        rcases ha with ha | ha
        · subst ha; exact ⟨rfl, rfl⟩
        · split at ha
          · rw [List.mem_singleton] at ha
            subst ha; exact ⟨rfl, rfl⟩
          · simp at ha
      refine ⟨⟨by omega, ?_⟩, by intro h1; rw [hidx.1] at h1; simp at h1⟩
      rw [hidx.1, hidx.2]
      simp only [arrSize]
      omega
    intro a ha
    rw [updateAccesses] at ha
    simp only at ha
    split at ha
    · rw [List.mem_append, List.mem_append] at ha
      rcases ha with (ha | ha) | ha
      · exact hhead a ha
      · have hk : (t.animationCount - 1 - (i : Int)).toNat = k := by
          rw [hc]; push_cast; omega
        rw [hk] at ha
        exact safe_shiftAccesses env k i (by omega) a ha
      · exact ih i _ (by simp only [hc]; push_cast; omega) (by omega) a ha
    · rw [List.mem_append, List.mem_append, List.mem_append] at ha
      rcases ha with ((ha | ha) | ha) | ha
      · exact hhead a ha
      · exact safe_mapAccesses env _ hremap 0 _
          (by rw [Nat.zero_add]; exact htracks _ _ _) a ha
      · exact safe_combineAccesses env _ hled hremap hlookup 0 _
          (by rw [Nat.zero_add]; exact htracks _ _ _) a ha
      · exact ih (i + 1) _ (by simp only [hc]; push_cast; omega) (by omega) a ha

theorem clearAccesses_mem (env : Env F) (a : Access) (h : a ∈ clearAccesses env) :
    a.arr = Arr.allColors ∧ a.isRead = false ∧ 0 ≤ a.index ∧ a.index < env.board.ledCount := by
  unfold clearAccesses at h
  rw [List.mem_map] at h
  obtain ⟨j, hj, rfl⟩ := h
  rw [List.mem_range] at hj
  refine ⟨rfl, rfl, ?_, ?_⟩
  · simp only; omega
  · simp only; omega

theorem mem_clearAccesses (env : Env F) (x : Int) (h0 : 0 ≤ x) (h1 : x < env.board.ledCount) :
    ({ arr := Arr.allColors, index := x, isRead := false } : Access) ∈ clearAccesses env := by
  unfold clearAccesses
  rw [List.mem_map]
  refine ⟨x.toNat, ?_, ?_⟩
  · rw [List.mem_range]; omega
  · rw [Int.toNat_of_nonneg h0]

theorem safe_updateAllAccesses (env : Env F) (s0 : State F) (ops : List (Op F)) (ms : Int)
    (stack : Nat → Nat)
    (hled : env.board.ledCount ≤ MAX_LED_COUNT)
    (hremap : ∀ f c, env.board.remapLed f c < MAX_LED_COUNT)
    (hlookup : ∀ x, x < MAX_LED_COUNT →
      (env.board.faceToLedLookup x : Int) < env.board.ledCount)
    (htracks : ∀ anim getColor t, (env.updateLEDs anim getColor t).length ≤ MAX_LED_COUNT * 4) :
    ∀ a ∈ updateAccesses env (run env s0 ops).currentRainbowIndex
        (coolDown env (run env s0 ops).heat) ms (run env s0 ops).animationCount.toNat 0
        { animations := (run env s0 ops).animations
          animationCount := (run env s0 ops).animationCount
          allColors := clearedColors env stack
          evals := [] }, SafeAccess env a := by
  obtain ⟨h0, h1, _⟩ := poolInv_run env s0 ops
  exact safe_updateAccesses env _ _ ms hled hremap hlookup htracks _ 0 _
    (by simp only; push_cast; omega) (by omega)

/-- C29: in every reachable state, on a board with `ledCount <= MAX_LED_COUNT`,
every `remapLed` result below `MAX_LED_COUNT`, every `faceToLedLookup` entry
below `ledCount` and every track evaluation returning at most
`MAX_LED_COUNT * 4` pairs, each array access `update` makes has its index
inside the array, and each read of an `allColors` cell comes after the
clearing loop, which wrote that cell, so that the cell started the tick at
zero. -/
theorem update_accesses_in_bounds (env : Env F) (s0 : State F) (ops : List (Op F))
    (ms : Int) (stack : Nat → Nat)
    (hled : env.board.ledCount ≤ MAX_LED_COUNT)
    (hremap : ∀ f c, env.board.remapLed f c < MAX_LED_COUNT)
    (hlookup : ∀ x, x < MAX_LED_COUNT →
      (env.board.faceToLedLookup x : Int) < env.board.ledCount)
    (htracks : ∀ anim getColor t,
      (env.updateLEDs anim getColor t).length ≤ MAX_LED_COUNT * 4) :
    (∀ a ∈ updateAllAccesses env ms stack (run env s0 ops),
      0 ≤ a.index ∧ a.index < arrSize a.arr) ∧
    (∀ pre a post, updateAllAccesses env ms stack (run env s0 ops) = pre ++ a :: post →
      a.arr = Arr.allColors → a.isRead = true →
      clearAccesses env <+: pre ∧
        ({ arr := Arr.allColors, index := a.index, isRead := false } : Access) ∈
          clearAccesses env ∧
        clearedColors env stack a.index.toNat = 0) := by
  have hloop := safe_updateAllAccesses env s0 ops ms stack hled hremap hlookup htracks
  constructor
  · intro a ha
    unfold updateAllAccesses at ha
    split at ha
    · rw [List.mem_append] at ha
      rcases ha with ha | ha
      · obtain ⟨ha1, _, ha3, ha4⟩ := clearAccesses_mem env a ha
        refine ⟨ha3, ?_⟩
        rw [ha1]
        simp only [arrSize]
        omega
      · exact (hloop a ha).1
    · simp at ha
  · intro pre a post heq harr hread
    unfold updateAllAccesses at heq
    split at heq
    · rw [List.append_eq_append_iff] at heq
      have hsafe : a ∈ updateAccesses env (run env s0 ops).currentRainbowIndex
          (coolDown env (run env s0 ops).heat) ms (run env s0 ops).animationCount.toNat 0
          { animations := (run env s0 ops).animations
            animationCount := (run env s0 ops).animationCount
            allColors := clearedColors env stack
            evals := [] } →
          clearAccesses env <+: pre →
          clearAccesses env <+: pre ∧
            ({ arr := Arr.allColors, index := a.index, isRead := false } : Access) ∈
              clearAccesses env ∧
            clearedColors env stack a.index.toNat = 0 := by
        intro hmem hpre
        obtain ⟨⟨hi0, _⟩, hi1⟩ := hloop a hmem
        have hlt := hi1 harr hread
        refine ⟨hpre, mem_clearAccesses env a.index hi0 hlt, ?_⟩
        unfold clearedColors
        rw [if_pos (by rw [Int.toNat_of_nonneg hi0]; exact hlt)]
      rcases heq with ⟨mid, hpre, hrest⟩ | ⟨mid, hclear, hrest⟩
      · exact hsafe (by rw [hrest]; simp) ⟨mid, hpre.symm⟩
      · cases mid with
        | nil =>
          rw [List.nil_append] at hrest
          rw [List.append_nil] at hclear
          exact hsafe (by rw [← hrest]; simp) ⟨[], by rw [List.append_nil, hclear]⟩
        | cons b mid =>
          rw [List.cons_append] at hrest
          have hb : a = b := (List.cons.inj hrest).1
          subst hb
          have := (clearAccesses_mem env a (by rw [hclear]; simp)).2.1
          rw [hread] at this
          exact absurd this (by simp)
    · exact absurd heq (by simp)

theorem update_accesses_in_bounds_witness :
    boundedEnv.board.ledCount ≤ MAX_LED_COUNT ∧
    (∀ f c, boundedEnv.board.remapLed f c < MAX_LED_COUNT) ∧
    (∀ x, x < MAX_LED_COUNT →
      (boundedEnv.board.faceToLedLookup x : Int) < boundedEnv.board.ledCount) ∧
    (∀ anim getColor t,
      (boundedEnv.updateLEDs anim getColor t).length ≤ MAX_LED_COUNT * 4) ∧
    updateAllAccesses boundedEnv 100 (fun _ => 7)
        (run boundedEnv (exampleState 0 false) [Op.play 1 0 false 0]) =
      [ { arr := Arr.allColors, index := 0, isRead := false },
        { arr := Arr.animations, index := 0, isRead := true },
        { arr := Arr.colors, index := 0, isRead := true },
        { arr := Arr.colors, index := 0, isRead := false },
        { arr := Arr.canonIndices, index := 0, isRead := true },
        { arr := Arr.faceIndices, index := 0, isRead := false },
        { arr := Arr.faceIndices, index := 0, isRead := true },
        { arr := Arr.faceToLedLookup, index := 0, isRead := true },
        { arr := Arr.ledIndices, index := 0, isRead := false },
        { arr := Arr.ledIndices, index := 0, isRead := true },
        { arr := Arr.allColors, index := 0, isRead := true },
        { arr := Arr.colors, index := 0, isRead := true },
        { arr := Arr.allColors, index := 0, isRead := false } ] ∧
    ((∀ a ∈ updateAllAccesses boundedEnv 100 (fun _ => 7)
        (run boundedEnv (exampleState 0 false) [Op.play 1 0 false 0]),
      0 ≤ a.index ∧ a.index < arrSize a.arr) ∧
    (∀ pre a post, updateAllAccesses boundedEnv 100 (fun _ => 7)
        (run boundedEnv (exampleState 0 false) [Op.play 1 0 false 0]) = pre ++ a :: post →
      a.arr = Arr.allColors → a.isRead = true →
      clearAccesses boundedEnv <+: pre ∧
        ({ arr := Arr.allColors, index := a.index, isRead := false } : Access) ∈
          clearAccesses boundedEnv ∧
        clearedColors boundedEnv (fun _ => 7) a.index.toNat = 0)) :=
  have h1 : boundedEnv.board.ledCount ≤ MAX_LED_COUNT := by decide
  have h2 : ∀ f c, boundedEnv.board.remapLed f c < MAX_LED_COUNT :=
    fun _ c => Nat.mod_lt _ (by decide)
  have h3 : ∀ x, x < MAX_LED_COUNT →
      (boundedEnv.board.faceToLedLookup x : Int) < boundedEnv.board.ledCount :=
    fun _ _ => show ((0 : Nat) : Int) < 1 from by decide
  have h4 : ∀ anim getColor t,
      (boundedEnv.updateLEDs anim getColor t).length ≤ MAX_LED_COUNT * 4 :=
    fun _ _ _ => show (1 : Nat) ≤ 84 from by decide
  ⟨h1, h2, h3, h4, by decide,
    update_accesses_in_bounds boundedEnv (exampleState 0 false) [Op.play 1 0 false 0] 100
      (fun _ => 7) h1 h2 h3 h4⟩

end AnimController

/-! ## Playing by event -/

namespace AnimController

variable {F : Type}

theorem play_lookup (env : Env F) (s : State F) (anim : AnimPtr)
    (remapFace : Nat) (loop : Bool) (ms : Int) :
    (play env anim remapFace loop ms s).animationLookupByEvent = s.animationLookupByEvent := by
  rcases play_cases env s anim remapFace loop ms with ⟨k, _, hp⟩ | ⟨_, _, hp⟩ | hp <;>
    (rw [hp]; try rfl)

theorem stop_lookup (env : Env F) (s : State F) (anim : AnimPtr) (remapFace : Nat) :
    (stop env anim remapFace s).animationLookupByEvent = s.animationLookupByEvent := by
  rcases stop_cases env s anim remapFace with ⟨k, _, hp⟩ | hp <;> (rw [hp]; try rfl)

theorem update_lookup (env : Env F) (ms : Int) (stack : Nat → Nat) (s : State F) :
    (update env ms stack s).animationLookupByEvent = s.animationLookupByEvent := by
  unfold update
  simp only
  split <;> rfl

theorem step_lookup (env : Env F) (s : State F) (op : Op F) :
    (step env s op).animationLookupByEvent = s.animationLookupByEvent := by
  cases op with
  | play anim remapFace loop ms => exact play_lookup env s anim remapFace loop ms
  | playEvent evt remapFace loop ms =>
    simp only [step]
    rcases playEvent_cases env s evt remapFace loop ms with ⟨anim, hp⟩ | hp
    · rw [hp]; exact play_lookup env s anim remapFace loop ms
    · rw [hp]
  | stop anim remapFace => exact stop_lookup env s anim remapFace
  | stopAll => rfl
  | update ms stack => exact update_lookup env ms stack s
  | accelFrame sqrMag =>
    simp only [step, onAccelFrame]
    split <;> rfl

theorem foldl_step_lookup (env : Env F) (ops : List (Op F)) (s : State F) :
    (ops.foldl (step env) s).animationLookupByEvent = s.animationLookupByEvent := by
  induction ops generalizing s with
  | nil => rfl
  | cons op ops ih => rw [List.foldl_cons, ih, step_lookup]

theorem run_lookup (env : Env F) (s0 : State F) (ops : List (Op F)) :
    (run env s0 ops).animationLookupByEvent =
      initLookupFill env env.getAnimationCount 0
        (initLookupClear env s0.animationLookupByEvent) := by
  unfold run
  rw [foldl_step_lookup]
  rfl

theorem initLookupFill_of_unbound (env : Env F) (e : Nat) (k i : Nat) (lookup : Nat → Int)
    (h : ∀ j, i ≤ j → j < i + k → (env.animAt (env.getAnimation j)).animationEvent ≠ e) :
    initLookupFill env k i lookup e = lookup e := by
  induction k generalizing i lookup with
  | zero => rfl
  | succ k ih =>
    rw [initLookupFill]
    rw [ih (i + 1) _ (fun j h1 h2 => h j (by omega) (by omega))]
    split
    · exact Function.update_noteq (Ne.symm (h i (le_refl i) (by omega))) _ _
    · rfl

theorem initLookupFill_of_unbound_event (env : Env F) (e : Nat) (k i : Nat)
    (lookup : Nat → Int)
    (h : ¬ (env.AnimationEvent_None < e ∧ e < env.AnimationEvent_Count)) :
    initLookupFill env k i lookup e = lookup e := by
  induction k generalizing i lookup with
  | zero => rfl
  | succ k ih =>
    rw [initLookupFill, ih (i + 1)]
    split
    · rename_i hc
      exact Function.update_noteq (fun heq => h (by rw [heq]; exact hc)) _ _
    · rfl

theorem initLookupFill_of_last (env : Env F) (e : Nat) (k i : Nat) (lookup : Nat → Int)
    (j : Nat) (hij : i ≤ j) (hjk : j < i + k)
    (hj : (env.animAt (env.getAnimation j)).animationEvent = e)
    (hlo : env.AnimationEvent_None < e) (hhi : e < env.AnimationEvent_Count)
    (hlast : ∀ m, j < m → m < i + k →
      (env.animAt (env.getAnimation m)).animationEvent ≠ e) :
    initLookupFill env k i lookup e = (j : Int) := by
  induction k generalizing i lookup with
  | zero => omega
  | succ k ih =>
    rw [initLookupFill]
    rcases Nat.eq_or_lt_of_le hij with heq | hlt
    · subst heq
      rw [initLookupFill_of_unbound env e k (i + 1) _
        (fun m h1 h2 => hlast m (by omega) (by omega))]
      rw [if_pos (by rw [hj]; exact ⟨hlo, hhi⟩), hj]
      exact Function.update_same _ _ _
    · exact ih (i + 1) _ (by omega) (by omega) (fun m h1 h2 => hlast m h1 (by omega))

theorem initLookupFill_bound (env : Env F) (e : Nat) (k i : Nat) (lookup : Nat → Int)
    (hlo : env.AnimationEvent_None < e) (hhi : e < env.AnimationEvent_Count)
    (h : ∃ j, i ≤ j ∧ j < i + k ∧ (env.animAt (env.getAnimation j)).animationEvent = e) :
    ∃ j, i ≤ j ∧ j < i + k ∧ (env.animAt (env.getAnimation j)).animationEvent = e ∧
      (∀ m, j < m → m < i + k → (env.animAt (env.getAnimation m)).animationEvent ≠ e) ∧
      initLookupFill env k i lookup e = (j : Int) := by
  induction k generalizing i lookup with
  | zero => obtain ⟨j, h1, h2, _⟩ := h; omega
  | succ k ih =>
    by_cases hrest : ∃ j, i + 1 ≤ j ∧ j < i + 1 + k ∧
        (env.animAt (env.getAnimation j)).animationEvent = e
    · obtain ⟨j, h1, h2, h3, h4, _⟩ := ih (i + 1) lookup hrest
      refine ⟨j, by omega, by omega, h3, fun m hm1 hm2 => h4 m hm1 (by omega), ?_⟩
      exact initLookupFill_of_last env e (k + 1) i lookup j (by omega) (by omega) h3 hlo hhi
        (fun m hm1 hm2 => h4 m hm1 (by omega))
    · obtain ⟨j, h1, h2, h3⟩ := h
      have hji : j = i := by
        by_contra hne
        exact hrest ⟨j, by omega, by omega, h3⟩
      subst hji
      have hlast : ∀ m, j < m → m < j + (k + 1) →
          (env.animAt (env.getAnimation m)).animationEvent ≠ e :=
        fun m hm1 hm2 hm3 => hrest ⟨m, by omega, by omega, hm3⟩
      exact ⟨j, le_refl j, by omega, h3, hlast,
        initLookupFill_of_last env e (k + 1) j lookup j (le_refl j) (by omega) h3 hlo hhi hlast⟩

theorem playEvent_of_lookup (env : Env F) (s : State F) (evt remapFace : Nat) (loop : Bool)
    (ms : Int) (i : Nat) (hi : i < env.getAnimationCount)
    (h : s.animationLookupByEvent (evt % 65536) = (i : Int)) :
    playEvent env evt remapFace loop ms s =
      play env (env.getAnimation i) remapFace loop ms s := by
  have hne : ¬ ((i : Int) = -1) := by omega
  have hlt : (i : Int) < env.getAnimationCount := by omega
  unfold playEvent
  simp only [h, if_neg hne, if_pos hlt, Int.toNat_ofNat]

theorem playEvent_of_unbound (env : Env F) (s : State F) (evt remapFace : Nat) (loop : Bool)
    (ms : Int) (h : s.animationLookupByEvent (evt % 65536) = -1) :
    (0 < env.getAnimationCount →
      playEvent env evt remapFace loop ms s =
        play env (env.getAnimation 0) remapFace loop ms s) ∧
    (env.getAnimationCount = 0 → playEvent env evt remapFace loop ms s = s) := by
  unfold playEvent
  simp only [h, if_true]
  constructor
  · intro hpos
    rw [if_pos (by omega)]
    rfl
  · intro hzero
    rw [if_neg (by omega)]

/-- C31: in every state reachable from `init`, for an event whose index is
inside the lookup table (and a set of fewer than 65536 animations, the range
of the loop counter of `init`): the lookup entry is -1 exactly when no
animation of the set is bound to the event; in that case `play(evt, remapFace,
loop)` calls `play` on animation index 0 when the set is non-empty and does
nothing when the set is empty; and when some animation is bound to the event,
the entry is the highest index whose `animationEvent` equals the event and
`play(evt, remapFace, loop)` calls `play` on that animation. -/
theorem playEvent_unbound_plays_index_zero (env : Env F) (s0 : State F)
    (ops : List (Op F)) (evt remapFace : Nat) (loop : Bool) (ms : Int)
    (hcount : env.getAnimationCount < 65536)
    (hevt : evt % 65536 < env.AnimationEvent_Count) :
    ((run env s0 ops).animationLookupByEvent (evt % 65536) = -1 ↔
      ¬ (env.AnimationEvent_None < evt % 65536 ∧
        ∃ i, i < env.getAnimationCount ∧
          (env.animAt (env.getAnimation i)).animationEvent = evt % 65536)) ∧
    ((run env s0 ops).animationLookupByEvent (evt % 65536) = -1 →
      0 < env.getAnimationCount →
      playEvent env evt remapFace loop ms (run env s0 ops) =
        play env (env.getAnimation 0) remapFace loop ms (run env s0 ops)) ∧
    ((run env s0 ops).animationLookupByEvent (evt % 65536) = -1 →
      env.getAnimationCount = 0 →
      playEvent env evt remapFace loop ms (run env s0 ops) = run env s0 ops) ∧
    (∀ i, i < env.getAnimationCount →
      (env.animAt (env.getAnimation i)).animationEvent = evt % 65536 →
      env.AnimationEvent_None < evt % 65536 →
      (∀ m, i < m → m < env.getAnimationCount →
        (env.animAt (env.getAnimation m)).animationEvent ≠ evt % 65536) →
      (run env s0 ops).animationLookupByEvent (evt % 65536) = (i : Int) ∧
        (i : Int) < 65536 ∧
        playEvent env evt remapFace loop ms (run env s0 ops) =
          play env (env.getAnimation i) remapFace loop ms (run env s0 ops)) := by
  have hclear : initLookupClear env s0.animationLookupByEvent (evt % 65536) = -1 := by
    unfold initLookupClear
    rw [if_pos hevt]
  refine ⟨?_, fun h => (playEvent_of_unbound env _ evt remapFace loop ms h).1,
    fun h => (playEvent_of_unbound env _ evt remapFace loop ms h).2, ?_⟩
  · rw [run_lookup]
    constructor
    · rintro h ⟨hlo, i, hi, hev⟩
      obtain ⟨j, _, _, _, _, hj⟩ := initLookupFill_bound env (evt % 65536)
        env.getAnimationCount 0 (initLookupClear env s0.animationLookupByEvent) hlo hevt
        ⟨i, Nat.zero_le i, by omega, hev⟩
      rw [hj] at h
      omega
    · intro h
      by_cases hlo : env.AnimationEvent_None < evt % 65536
      · rw [initLookupFill_of_unbound env (evt % 65536) env.getAnimationCount 0 _
          (fun j _ hj hev => h ⟨hlo, j, by omega, hev⟩)]
        exact hclear
      · rw [initLookupFill_of_unbound_event env (evt % 65536) env.getAnimationCount 0 _
          (fun hc => hlo hc.1)]
        exact hclear
  · intro i hi hev hlo hlast
    have hval : (run env s0 ops).animationLookupByEvent (evt % 65536) = (i : Int) := by
      rw [run_lookup]
      exact initLookupFill_of_last env (evt % 65536) env.getAnimationCount 0 _ i
        (Nat.zero_le i) (by omega) hev hlo hevt (fun m h1 h2 => hlast m h1 (by omega))
    exact ⟨hval, by omega, playEvent_of_lookup env _ evt remapFace loop ms i hi hval⟩

/-- Witness of C31: on the five-animation set, event 2 is bound to nothing and
plays animation index 0 (address 1), which then runs in slot 0; event 3 is
bound to indices 1 and 3 and plays index 3; on the empty set event 2 plays
nothing. -/
theorem playEvent_unbound_plays_index_zero_witness :
    eventEnv.getAnimationCount < 65536 ∧
    2 % 65536 < eventEnv.AnimationEvent_Count ∧
    3 % 65536 < eventEnv.AnimationEvent_Count ∧
    (run eventEnv (exampleState 0 false) []).animationLookupByEvent (2 % 65536) = -1 ∧
    0 < eventEnv.getAnimationCount ∧
    playEvent eventEnv 2 0 false 0 (run eventEnv (exampleState 0 false) []) =
      play eventEnv (eventEnv.getAnimation 0) 0 false 0
        (run eventEnv (exampleState 0 false) []) ∧
    (playEvent eventEnv 2 0 false 0
      (run eventEnv (exampleState 0 false) [])).animationCount = 1 ∧
    ((playEvent eventEnv 2 0 false 0
      (run eventEnv (exampleState 0 false) [])).animations 0).animation = 1 ∧
    (eventEnv.animAt (eventEnv.getAnimation 1)).animationEvent = 3 ∧
    (eventEnv.animAt (eventEnv.getAnimation 3)).animationEvent = 3 % 65536 ∧
    (run eventEnv (exampleState 0 false) []).animationLookupByEvent (3 % 65536) = 3 ∧
    playEvent eventEnv 3 0 false 0 (run eventEnv (exampleState 0 false) []) =
      play eventEnv (eventEnv.getAnimation 3) 0 false 0
        (run eventEnv (exampleState 0 false) []) ∧
    emptySetEnv.getAnimationCount = 0 ∧
    playEvent emptySetEnv 2 0 false 0 (run emptySetEnv (exampleState 0 false) []) =
      run emptySetEnv (exampleState 0 false) [] :=
  have hunbound :
      (run eventEnv (exampleState 0 false) []).animationLookupByEvent (2 % 65536) = -1 := by
    decide
  have hempty :
      (run emptySetEnv (exampleState 0 false) []).animationLookupByEvent (2 % 65536) = -1 := by
    decide
  have hlast : ∀ m, 3 < m → m < eventEnv.getAnimationCount →
      (eventEnv.animAt (eventEnv.getAnimation m)).animationEvent ≠ 3 % 65536 := by
    intro m h1 h2
    have h3 : m < 5 := h2
    have hm : m = 4 := by omega
    subst hm
    decide
  have hbound := (playEvent_unbound_plays_index_zero eventEnv (exampleState 0 false) []
    3 0 false 0 (by decide) (by decide)).2.2.2 3 (by decide) (by decide) (by decide) hlast
  ⟨by decide, by decide, by decide, hunbound, by decide,
    (playEvent_unbound_plays_index_zero eventEnv (exampleState 0 false) [] 2 0 false 0
      (by decide) (by decide)).2.1 hunbound (by decide),
    by decide, by decide, by decide, by decide, hbound.1, hbound.2.2, rfl,
    (playEvent_unbound_plays_index_zero emptySetEnv (exampleState 0 false) [] 2 0 false 0
      (by decide) (by decide)).2.2.1 hempty rfl⟩

end AnimController

/-! ## Loop catch-up and the rendered frame -/

namespace AnimController

variable {F : Type}

theorem contributions_append (env : Env F) (cri : Int) (heat : F) (ms : Int)
    (l1 l2 : List AnimInstance) :
    contributions env cri heat ms (l1 ++ l2) =
      contributions env cri heat ms l1 ++ contributions env cri heat ms l2 := by
  unfold contributions
  rw [List.flatMap_append]

theorem contributions_singleton (env : Env F) (cri : Int) (heat : F) (ms : Int)
    (b : AnimInstance) :
    contributions env cri heat ms [b] =
      (env.updateLEDs b.animation (getColorForAnim env cri heat (some b))
        (ms - b.startTime)).map
        (fun pr => (env.board.faceToLedLookup (env.board.remapLed b.remapFace pr.1),
          env.gamma pr.2)) := by
  unfold contributions
  simp

theorem update_strip_of_running (env : Env F) (ms : Int) (stack : Nat → Nat) (s : State F)
    (hpos : 0 < s.animationCount) :
    (update env ms stack s).strip =
      APA102.show_ (APA102.setPixelColors (updateRun env ms stack s).allColors s.strip) := by
  unfold update
  simp only
  rw [if_pos hpos]

theorem updateRun_allColors_of_tick (env : Env F) (ms : Int) (stack : Nat → Nat)
    (s : State F) (i : Nat) (hi : (i : Int) < s.animationCount) (b : AnimInstance)
    (htick : tick env ms (s.animations i) = some b) :
    (updateRun env ms stack s).allColors =
      (contributions env s.currentRainbowIndex (coolDown env s.heat) ms
          (kept env ms (slots s.animations 0 i)) ++
        (env.updateLEDs b.animation
          (getColorForAnim env s.currentRainbowIndex (coolDown env s.heat) (some b))
          (ms - b.startTime)).map
          (fun pr => (env.board.faceToLedLookup (env.board.remapLed b.remapFace pr.1),
            env.gamma pr.2)) ++
        contributions env s.currentRainbowIndex (coolDown env s.heat) ms
          (kept env ms (slots s.animations (i + 1) (s.animationCount.toNat - i - 1)))).foldl
        (combine env) (clearedColors env stack) := by
  rw [updateRun_allColors env ms stack s (by omega), renderAll_eq_foldl,
    active_split s i hi, kept_append]
  have hk : kept env ms
      (s.animations i :: slots s.animations (i + 1) (s.animationCount.toNat - i - 1)) =
      b :: kept env ms (slots s.animations (i + 1) (s.animationCount.toNat - i - 1)) := by
    unfold kept
    rw [List.filterMap_cons_some htick]
  rw [hk, contributions_append, contributions_cons, contributions_singleton,
    List.append_assoc]

/-- C11: for a running looping instance in slot `i`, one tick of `update`
does the following.  If `duration < ms - startTime <= 2 * duration`, the
instance stays in the pool (in a slot `j <= i`) with its start time advanced
by exactly one duration, and its tracks are evaluated at
`ms - (startTime + duration)`: the frame that `update` accumulates and hands to
the strip is the clearing loop's buffer combined, in order, with the colours of
the kept instances before slot `i`, then with the pairs that `updateLEDs`
returns for this instance at that time (colour handler bound to the advanced
instance, gamma-corrected and mapped to LEDs), then with the colours of the
kept instances after slot `i`.  If `ms - startTime <= duration`, it stays with
its start time unchanged and the same holds with the evaluation at
`ms - startTime`. -/
theorem loop_catch_up_one_period (env : Env F) (ms : Int) (stack : Nat → Nat) (s : State F)
    (i : Nat) (hi : (i : Int) < s.animationCount) (hloop : (s.animations i).loop = true) :
    (((env.animAt (s.animations i).animation).duration : Int)
          < ms - (s.animations i).startTime →
      ms - (s.animations i).startTime
          ≤ 2 * ((env.animAt (s.animations i).animation).duration : Int) →
      (∃ j : Nat, j ≤ i ∧ (j : Int) < (update env ms stack s).animationCount ∧
        (update env ms stack s).animations j =
          { s.animations i with
            startTime := (s.animations i).startTime +
              (env.animAt (s.animations i).animation).duration } ∧
        ({ inst := { s.animations i with
                     startTime := (s.animations i).startTime +
                       (env.animAt (s.animations i).animation).duration }
           animTime := ms - ((s.animations i).startTime +
             (env.animAt (s.animations i).animation).duration) } : TrackEval) ∈
          updateEvals env ms stack s) ∧
      (updateRun env ms stack s).allColors =
        (contributions env s.currentRainbowIndex (coolDown env s.heat) ms
            (kept env ms (slots s.animations 0 i)) ++
          (env.updateLEDs (s.animations i).animation
            (getColorForAnim env s.currentRainbowIndex (coolDown env s.heat)
              (some { s.animations i with
                startTime := (s.animations i).startTime +
                  (env.animAt (s.animations i).animation).duration }))
            (ms - ((s.animations i).startTime +
              (env.animAt (s.animations i).animation).duration))).map
            (fun pr =>
              (env.board.faceToLedLookup
                (env.board.remapLed (s.animations i).remapFace pr.1), env.gamma pr.2)) ++
          contributions env s.currentRainbowIndex (coolDown env s.heat) ms
            (kept env ms
              (slots s.animations (i + 1) (s.animationCount.toNat - i - 1)))).foldl
          (combine env) (clearedColors env stack) ∧
      (update env ms stack s).strip =
        APA102.show_
          (APA102.setPixelColors (updateRun env ms stack s).allColors s.strip)) ∧
    (ms - (s.animations i).startTime
          ≤ ((env.animAt (s.animations i).animation).duration : Int) →
      (∃ j : Nat, j ≤ i ∧ (j : Int) < (update env ms stack s).animationCount ∧
        (update env ms stack s).animations j = s.animations i ∧
        ({ inst := s.animations i, animTime := ms - (s.animations i).startTime }
          : TrackEval) ∈ updateEvals env ms stack s) ∧
      (updateRun env ms stack s).allColors =
        (contributions env s.currentRainbowIndex (coolDown env s.heat) ms
            (kept env ms (slots s.animations 0 i)) ++
          (env.updateLEDs (s.animations i).animation
            (getColorForAnim env s.currentRainbowIndex (coolDown env s.heat)
              (some (s.animations i)))
            (ms - (s.animations i).startTime)).map
            (fun pr =>
              (env.board.faceToLedLookup
                (env.board.remapLed (s.animations i).remapFace pr.1), env.gamma pr.2)) ++
          contributions env s.currentRainbowIndex (coolDown env s.heat) ms
            (kept env ms
              (slots s.animations (i + 1) (s.animationCount.toNat - i - 1)))).foldl
          (combine env) (clearedColors env stack) ∧
      (update env ms stack s).strip =
        APA102.show_
          (APA102.setPixelColors (updateRun env ms stack s).allColors s.strip)) := by
  have hstrip := update_strip_of_running env ms stack s (by omega)
  constructor
  · intro hlo hhi
    have hc : catchUp env ms (s.animations i) =
        { s.animations i with
          startTime := (s.animations i).startTime +
            (env.animAt (s.animations i).animation).duration } := by
      unfold catchUp
      simp only
      rw [if_pos ⟨hloop, hlo⟩]
    have htick : tick env ms (s.animations i) =
        some { s.animations i with
          startTime := (s.animations i).startTime +
            (env.animAt (s.animations i).animation).duration } := by
      unfold tick
      simp only [hc]
      rw [if_neg (by omega)]
    exact ⟨update_slot_of_tick env ms stack s i hi _ htick,
      updateRun_allColors_of_tick env ms stack s i hi _ htick, hstrip⟩
  · intro hle
    have hc : catchUp env ms (s.animations i) = s.animations i := by
      unfold catchUp
      simp only
      rw [if_neg (by intro h; have := h.2; omega)]
    have htick : tick env ms (s.animations i) = some (s.animations i) := by
      unfold tick
      simp only [hc]
      rw [if_neg (by omega)]
    exact ⟨update_slot_of_tick env ms stack s i hi _ htick,
      updateRun_allColors_of_tick env ms stack s i hi _ htick, hstrip⟩

/-- Witness of C11: with a track evaluation that returns the time it is called
with, a looping instance of duration 500 started at 0 and ticked at time 700
restarts from time 500 and is evaluated at elapsed time 200: LED 0 of the
frame, and the blue byte of pixel 0 on the strip, hold 200. -/
theorem loop_catch_up_one_period_witness :
    ((0 : Nat) : Int) < (exampleState 1 true).animationCount ∧
    ((exampleState 1 true).animations 0).loop = true ∧
    ((timedEnv.animAt ((exampleState 1 true).animations 0).animation).duration : Int)
      < 700 - ((exampleState 1 true).animations 0).startTime ∧
    700 - ((exampleState 1 true).animations 0).startTime
      ≤ 2 * ((timedEnv.animAt ((exampleState 1 true).animations 0).animation).duration
        : Int) ∧
    ((∃ j : Nat, j ≤ 0 ∧
      (j : Int) < (update timedEnv 700 (fun _ => 0) (exampleState 1 true)).animationCount ∧
      (update timedEnv 700 (fun _ => 0) (exampleState 1 true)).animations j =
        { (exampleState 1 true).animations 0 with
          startTime := ((exampleState 1 true).animations 0).startTime +
            (timedEnv.animAt ((exampleState 1 true).animations 0).animation).duration } ∧
      ({ inst := { (exampleState 1 true).animations 0 with
                   startTime := ((exampleState 1 true).animations 0).startTime +
                     (timedEnv.animAt
                       ((exampleState 1 true).animations 0).animation).duration }
         animTime := 700 - (((exampleState 1 true).animations 0).startTime +
           (timedEnv.animAt ((exampleState 1 true).animations 0).animation).duration) }
        : TrackEval) ∈ updateEvals timedEnv 700 (fun _ => 0) (exampleState 1 true)) ∧
    (updateRun timedEnv 700 (fun _ => 0) (exampleState 1 true)).allColors =
      (contributions timedEnv (exampleState 1 true).currentRainbowIndex
          (coolDown timedEnv (exampleState 1 true).heat) 700
          (kept timedEnv 700 (slots (exampleState 1 true).animations 0 0)) ++
        (timedEnv.updateLEDs ((exampleState 1 true).animations 0).animation
          (getColorForAnim timedEnv (exampleState 1 true).currentRainbowIndex
            (coolDown timedEnv (exampleState 1 true).heat)
            (some { (exampleState 1 true).animations 0 with
              startTime := ((exampleState 1 true).animations 0).startTime +
                (timedEnv.animAt
                  ((exampleState 1 true).animations 0).animation).duration }))
          (700 - (((exampleState 1 true).animations 0).startTime +
            (timedEnv.animAt
              ((exampleState 1 true).animations 0).animation).duration))).map
          (fun pr =>
            (timedEnv.board.faceToLedLookup
              (timedEnv.board.remapLed ((exampleState 1 true).animations 0).remapFace
                pr.1), timedEnv.gamma pr.2)) ++
        contributions timedEnv (exampleState 1 true).currentRainbowIndex
          (coolDown timedEnv (exampleState 1 true).heat) 700
          (kept timedEnv 700
            (slots (exampleState 1 true).animations (0 + 1)
              ((exampleState 1 true).animationCount.toNat - 0 - 1)))).foldl
        (combine timedEnv) (clearedColors timedEnv (fun _ => 0)) ∧
    (update timedEnv 700 (fun _ => 0) (exampleState 1 true)).strip =
      APA102.show_
        (APA102.setPixelColors
          (updateRun timedEnv 700 (fun _ => 0) (exampleState 1 true)).allColors
          (exampleState 1 true).strip)) ∧
    timedEnv.updateLEDs ((exampleState 1 true).animations 0).animation (fun _ => 0)
      (700 - (0 + 500)) = [(0, 200)] ∧
    (updateRun timedEnv 700 (fun _ => 0) (exampleState 1 true)).allColors 0 = 200 ∧
    (update timedEnv 700 (fun _ => 0) (exampleState 1 true)).strip.pixels 0 = 200 :=
  ⟨by decide, rfl, by decide, by decide,
    (loop_catch_up_one_period timedEnv 700 (fun _ => 0) (exampleState 1 true) 0
      (by decide) rfl).1 (by decide) (by decide),
    by decide, by decide, by decide⟩

end AnimController
